import Mathlib

/-! PartPlate / PartPlateList instance bookkeeping.

A shallow embedding of the instance-tracking part of
`src/slic3r/GUI/PartPlate.cpp`: the two tracking sets of a plate
(`obj_to_instance_set`, `instance_outside_set`), the aggregate flag
`m_ready_for_slice`, the outside classification `check_outside`, and the
list-level operations that move instances between plates.

Conventions of the embedding.

* `std::set<std::pair<int,int>>` is a `Finset (Int × Int)`; loops over a set
  run over `sortedPairs`, the elements in the lexicographic order of
  `std::pair`.
* `double` coordinates are exact integers (`Int`): only comparisons and one
  addition are performed on them by the embedded code.
* The model (`Model`, `ModelObject`, `ModelInstance`) is passed explicitly and
  returned when an operation mutates it.
* Geometry services that live outside the embedded file (convex hulls,
  polygon intersection) are fields of `Geometry`.
* The other parts of the file work on projections of the plate and of the
  list: the filament options of a plate (`PlateConfig`), its print sequences
  (`SequenceConfig`), the plates as objects with their prints
  (`PlateListState`), and the bed indices of arranged polygons
  (`ArrangePolygon`, `ArrangeGrid`).
* An access outside a vector and a division by zero give `none`.
-/

namespace Slic3r

/-! ## Geometry -/

/-- Three coordinates of a point (`Vec3d`). -/
structure Vec3d where
  x : Int
  y : Int
  z : Int
deriving DecidableEq, Repr

/-- Axis-aligned box given by its two corners (`BoundingBoxf3`). -/
structure BoundingBoxf3 where
  min : Vec3d
  max : Vec3d
deriving DecidableEq, Repr

/-- Scaled 2D polygon: list of integer points. -/
abbrev Polygon := List (Int × Int)

/-- Modelled from the spec: `BoundingBoxf3::contains(point)` of
`libslic3r/BoundingBox.hpp`, which is not among the sources; "fully contained
in the plate's box" is read as containment of a point between the two corners,
bounds included. -/
def BoundingBoxf3.contains_point (b : BoundingBoxf3) (p : Vec3d) : Bool :=
  decide (b.min.x ≤ p.x ∧ p.x ≤ b.max.x ∧ b.min.y ≤ p.y ∧ p.y ≤ b.max.y ∧
    b.min.z ≤ p.z ∧ p.z ≤ b.max.z)

/-- Modelled from the spec: `BoundingBoxf3::contains(box)` of
`libslic3r/BoundingBox.hpp`, which is not among the sources: both corners of
the other box are contained. -/
def BoundingBoxf3.contains (b other : BoundingBoxf3) : Bool :=
  b.contains_point other.min && b.contains_point other.max

/-- Modelled from the spec: `BoundingBoxf3::intersects(box)` of
`libslic3r/BoundingBox.hpp`, which is not among the sources: "bbox/plate
rectangle intersection, not containment", the two boxes overlap on every
axis. -/
def BoundingBoxf3.intersects (b other : BoundingBoxf3) : Bool :=
  decide (b.min.x < other.max.x ∧ other.min.x < b.max.x ∧
    b.min.y < other.max.y ∧ other.min.y < b.max.y ∧
    b.min.z < other.max.z ∧ other.min.z < b.max.z)

/-! ## Model -/

/-- One instance of a model object: its offset and its mesh, the mesh being
opaque to the plate code (a tag interpreted by `Geometry`). -/
structure ModelInstance where
  offset : Vec3d
  mesh : BoundingBoxf3
  printable : Bool
deriving DecidableEq, Repr

/-- A model object: its instances. -/
structure ModelObject where
  instances : List ModelInstance
deriving DecidableEq, Repr

/-- The model: its objects. -/
structure Model where
  objects : List ModelObject
deriving DecidableEq, Repr

/-- Services of `libslic3r` that the plate code calls and that are not part of
the embedded sources. -/
structure Geometry where
  /-- Value of `object->instance_convex_hull_bounding_box(instance_id)`. -/
  instance_convex_hull_bounding_box : ModelInstance → BoundingBoxf3
  /-- Value of `instance->convex_hull_2d()`. -/
  convex_hull_2d : ModelInstance → Polygon
  /-- Value of `intersection({ box.polygon(true) }, { hull }).empty() == false`. -/
  hull_overlaps : BoundingBoxf3 → Polygon → Bool

/-- Read of `m_model->objects[idx]`; an index outside the vector (undefined behaviour
in the source) reads an object without instances. -/
def Model.object (m : Model) (idx : Int) : ModelObject :=
  if 0 ≤ idx then m.objects.getD idx.toNat ⟨[]⟩ else ⟨[]⟩

/-- Read of `object->instances[idx]`; an index outside the vector (undefined behaviour
in the source) reads an instance at the origin with an empty mesh. -/
def ModelObject.inst (o : ModelObject) (idx : Int) : ModelInstance :=
  let dflt : ModelInstance := ⟨⟨0, 0, 0⟩, ⟨⟨0, 0, 0⟩, ⟨0, 0, 0⟩⟩, true⟩
  if 0 ≤ idx then o.instances.getD idx.toNat dflt else dflt

/-- Effect of `instance->set_offset(v)` on instance `instance_id` of object
`obj_id` (followed by `object->invalidate_bounding_box()`, which only drops a
cache). -/
def Model.set_offset (m : Model) (obj_id instance_id : Int) (v : Vec3d) : Model :=
  if 0 ≤ obj_id ∧ 0 ≤ instance_id then
    let o := m.object obj_id
    let i := o.inst instance_id
    ⟨m.objects.set obj_id.toNat ⟨o.instances.set instance_id.toNat { i with offset := v }⟩⟩
  else m

/-! ## Sets of (object, instance) pairs -/

/-- Order of `std::pair<int,int>`: lexicographic. -/
def pairLe (a b : Int × Int) : Prop := a.1 < b.1 ∨ (a.1 = b.1 ∧ a.2 ≤ b.2)

instance pairLe_decidable : DecidableRel pairLe := fun a b => by
  unfold pairLe; infer_instance

instance pairLe_total : IsTotal (Int × Int) pairLe :=
  ⟨fun a b => by unfold pairLe; omega⟩

instance pairLe_trans : IsTrans (Int × Int) pairLe :=
  ⟨fun a b c => by unfold pairLe; omega⟩

instance pairLe_antisymm : IsAntisymm (Int × Int) pairLe :=
  ⟨fun a b h1 h2 => by
    unfold pairLe at h1 h2
    exact Prod.ext (by omega) (by omega)⟩

/-- Elements of a `std::set<std::pair<int,int>>` in iteration order. -/
def sortedPairs (s : Finset (Int × Int)) : List (Int × Int) :=
  Quotient.liftOn s.val (List.insertionSort pairLe) (fun a b h =>
    List.eq_of_perm_of_sorted
      (((List.perm_insertionSort pairLe a).trans h).trans (List.perm_insertionSort pairLe b).symm)
      (List.sorted_insertionSort pairLe a) (List.sorted_insertionSort pairLe b))

/-! ## PartPlate -/

/-- The part of a `PartPlate` that instance bookkeeping reads or writes. -/
structure PartPlate where
  m_origin : Vec3d
  m_printable : Bool
  /-- Box of the plate shape (`m_bounding_box`), read by `get_center_origin`. -/
  m_bounding_box : BoundingBoxf3
  /-- Value of `get_plate_box()`, defined in `PartPlate.hpp` (not among the
  sources). -/
  plate_box : BoundingBoxf3
  m_exclude_bounding_box : List BoundingBoxf3
  obj_to_instance_set : Finset (Int × Int)
  instance_outside_set : Finset (Int × Int)
  m_locked : Bool
  m_ready_for_slice : Bool
  m_slice_result_valid : Bool
  /-- Slice progress in percent (`m_slice_percent`): 0, 100 or -1. -/
  m_slice_percent : Int
  m_plate_index : Int
deriving DecidableEq

namespace PartPlate

/-- Source function `PartPlate::init()` on a freshly constructed plate (both sets empty). -/
def init (origin : Vec3d) (printable : Bool) (shape_box plate_box : BoundingBoxf3)
    (exclude : List BoundingBoxf3) : PartPlate :=
  { m_origin := origin, m_printable := printable, m_bounding_box := shape_box,
    plate_box := plate_box, m_exclude_bounding_box := exclude,
    obj_to_instance_set := ∅, instance_outside_set := ∅,
    m_locked := false, m_ready_for_slice := true, m_slice_result_valid := false,
    m_slice_percent := 0, m_plate_index := 0 }

/-- Source function `PartPlate::valid_instance`. -/
def valid_instance (m : Model) (obj_id instance_id : Int) : Bool :=
  if 0 ≤ obj_id ∧ obj_id < m.objects.length then
    let object := m.object obj_id
    if 0 ≤ instance_id ∧ instance_id < object.instances.length then true else false
  else false

/-- Source function `PartPlate::get_center_origin`. -/
def get_center_origin (p : PartPlate) : Vec3d :=
  ⟨(p.m_bounding_box.min.x + p.m_bounding_box.max.x) / 2,
   (p.m_bounding_box.min.y + p.m_bounding_box.max.y) / 2,
   p.m_origin.z⟩

/-- The loop of `check_outside` over `m_exclude_bounding_box`: value of `index`
when the loop is left, starting at `index` with `rest` still to visit. -/
def exclude_scan (g : Geometry) (hull : Polygon) : List BoundingBoxf3 → Nat → Nat
  | [], index => index
  | b :: rest, index =>
    if g.hull_overlaps b hull then index else exclude_scan g hull rest (index + 1)

/-- The plate box as `check_outside` adjusts it before the containment test:
"not considering outsize if sinking". -/
def sinking_plate_box (plate_box instance_box : BoundingBoxf3) : BoundingBoxf3 :=
  if instance_box.max.z > plate_box.min.z then
    { plate_box with min := { plate_box.min with z := plate_box.min.z + instance_box.min.z } }
  else plate_box

/-- Source function `PartPlate::check_outside`. -/
def check_outside (g : Geometry) (m : Model) (p : PartPlate) (obj_id instance_id : Int)
    (bounding_box : Option BoundingBoxf3) : Bool :=
  let object := m.object obj_id
  let inst := object.inst instance_id
  let instance_box := match bounding_box with
    | some b => b
    | none => g.instance_convex_hull_bounding_box inst
  let hull := g.convex_hull_2d inst
  let plate_box := sinking_plate_box p.plate_box instance_box
  if plate_box.contains instance_box then
    if p.m_exclude_bounding_box.length > 0 then
      let index := exclude_scan g hull p.m_exclude_bounding_box 0
      if index ≥ p.m_exclude_bounding_box.length then false else true
    else false
  else true

/-- The box `check_outside` classifies: the caller's `bounding_box` when one is
passed, else the instance's convex-hull bounding box. -/
def classified_box (g : Geometry) (m : Model) (obj_id instance_id : Int)
    (bounding_box : Option BoundingBoxf3) : BoundingBoxf3 :=
  match bounding_box with
  | some b => b
  | none => g.instance_convex_hull_bounding_box ((m.object obj_id).inst instance_id)

/-- The instance's 2D convex hull intersects one of the plate's exclusion-zone
polygons. -/
def overlaps_exclusion (g : Geometry) (m : Model) (p : PartPlate) (obj_id instance_id : Int) :
    Bool :=
  p.m_exclude_bounding_box.any
    (fun b => g.hull_overlaps b (g.convex_hull_2d ((m.object obj_id).inst instance_id)))

/-- Source function `PartPlate::is_left_top_of`. -/
def is_left_top_of (g : Geometry) (m : Model) (p : PartPlate) (obj_id instance_id : Int) : Bool :=
  if !valid_instance m obj_id instance_id then false
  else
    let object := m.object obj_id
    let instance_box := g.instance_convex_hull_bounding_box (object.inst instance_id)
    decide (p.m_origin.x ≤ instance_box.min.x) && decide (p.m_origin.y ≥ instance_box.min.y)

/-- Source function `PartPlate::intersect_instance`. -/
def intersect_instance (g : Geometry) (m : Model) (p : PartPlate) (obj_id instance_id : Int)
    (bounding_box : Option BoundingBoxf3) : Bool :=
  if !valid_instance m obj_id instance_id then false
  else if p.m_printable then
    let object := m.object obj_id
    let instance_box := match bounding_box with
      | some b => b
      | none => g.instance_convex_hull_bounding_box (object.inst instance_id)
    p.plate_box.intersects instance_box
  else is_left_top_of g m p obj_id instance_id

/-- Source function `PartPlate::contain_instance`. -/
def contain_instance (p : PartPlate) (obj_id instance_id : Int) : Bool :=
  decide ((obj_id, instance_id) ∈ p.obj_to_instance_set)

/-- Source function `PartPlate::update_slice_result_valid_state`. -/
def update_slice_result_valid_state (p : PartPlate) (valid : Bool) : PartPlate :=
  { p with m_slice_result_valid := valid, m_slice_percent := if valid then 100 else -1 }

/-- Source function `PartPlate::update_states`: the flag is set, then cleared at the first
tracked pair found in `instance_outside_set`. -/
def update_states (p : PartPlate) : PartPlate :=
  { p with m_ready_for_slice :=
      (sortedPairs p.obj_to_instance_set).all (fun pr => decide (pr ∉ p.instance_outside_set)) }

/-- Source function `PartPlate::clear`. -/
def clear (p : PartPlate) (clear_sliced_result : Bool) : PartPlate :=
  let p1 := { p with obj_to_instance_set := ∅, instance_outside_set := ∅ }
  if clear_sliced_result then
    update_slice_result_valid_state { p1 with m_ready_for_slice := true } false
  else p1

/-- Source function `PartPlate::add_instance`: status, plate and model after the call. -/
def add_instance (g : Geometry) (m : Model) (p : PartPlate) (obj_id instance_id : Int)
    (move_position : Bool) (bounding_box : Option BoundingBoxf3) : Int × PartPlate × Model :=
  if !valid_instance m obj_id instance_id then (-1, p, m)
  else
    let pair := (obj_id, instance_id)
    let p1 := { p with obj_to_instance_set := insert pair p.obj_to_instance_set }
    let m1 :=
      if move_position then
        let center := get_center_origin p1
        let center := { center with z := ((m.object obj_id).inst instance_id).offset.z }
        m.set_offset obj_id instance_id center
      else m
    let outside := check_outside g m1 p1 obj_id instance_id bounding_box
    let p2 := if outside then
        { p1 with instance_outside_set := insert pair p1.instance_outside_set }
      else p1
    let p3 :=
      if p2.m_ready_for_slice && outside then { p2 with m_ready_for_slice := false }
      else if p2.obj_to_instance_set.card == 1 && !p2.m_ready_for_slice && !outside then
        { p2 with m_ready_for_slice := true }
      else p2
    (0, p3, m1)

/-- Source function `PartPlate::remove_instance`: status and plate after the call. The source
keeps the status in a `bool`, so the "not found" value `-1` is returned as 1. -/
def remove_instance (p : PartPlate) (obj_id instance_id : Int) : Int × PartPlate :=
  let pair := (obj_id, instance_id)
  if pair ∈ p.obj_to_instance_set then
    let p1 := { p with obj_to_instance_set := p.obj_to_instance_set.erase pair }
    let p2 := if pair ∈ p1.instance_outside_set then
        { p1 with instance_outside_set := p1.instance_outside_set.erase pair }
      else p1
    let p3 := if !p2.m_ready_for_slice then update_states p2 else p2
    (0, p3)
  else (1, p)

/-- Source function `PartPlate::update_instance_exclude_status`. -/
def update_instance_exclude_status (g : Geometry) (m : Model) (p : PartPlate)
    (obj_id instance_id : Int) (bounding_box : Option BoundingBoxf3) : PartPlate :=
  let outside := check_outside g m p obj_id instance_id bounding_box
  let pair := (obj_id, instance_id)
  if pair ∉ p.instance_outside_set then
    if outside then { p with instance_outside_set := insert pair p.instance_outside_set } else p
  else
    if !outside then { p with instance_outside_set := p.instance_outside_set.erase pair } else p

/-- One of the two loops of `update_object_index`: every stored pair is copied
to `temp_set`, its object index lowered by one when it is `>= obj_idx_removed`. -/
def reindex_set (s : Finset (Int × Int)) (obj_idx_removed : Int) : Finset (Int × Int) :=
  (sortedPairs s).foldl
    (fun temp_set it =>
      if it.1 ≥ obj_idx_removed then insert (it.1 - 1, it.2) temp_set
      else insert (it.1, it.2) temp_set)
    ∅

/-- Source function `PartPlate::update_object_index` (`obj_idx_max` is not read). -/
def update_object_index (p : PartPlate) (obj_idx_removed : Int) (_obj_idx_max : Int) : PartPlate :=
  { p with
    obj_to_instance_set := reindex_set p.obj_to_instance_set obj_idx_removed,
    instance_outside_set := reindex_set p.instance_outside_set obj_idx_removed }

/-- What `intersect_instance` reads of a plate: printable flag, plate box and
origin. -/
def place (p : PartPlate) : Bool × BoundingBoxf3 × Vec3d :=
  (p.m_printable, p.plate_box, p.m_origin)

/-- Modelled from the spec: `PartPlate::is_locked()`, defined in `PartPlate.hpp`
(not among the sources): the boolean state flag `m_locked`. -/
def is_locked (p : PartPlate) : Bool := p.m_locked

/-- One iteration of the loop of `move_instances_to`: the pair goes to the left
plate when `left_plate.intersect_instance` accepts it, else to the right plate. -/
def move_instance_to (g : Geometry) (m : Model) (bounding_box : Option BoundingBoxf3)
    (plates : PartPlate × PartPlate) (it : Int × Int) : PartPlate × PartPlate :=
  if intersect_instance g m plates.1 it.1 it.2 bounding_box then
    ((add_instance g m plates.1 it.1 it.2 false bounding_box).2.1, plates.2)
  else
    (plates.1, (add_instance g m plates.2 it.1 it.2 false bounding_box).2.1)

/-- Source function `PartPlate::move_instances_to`: the left and the right plate after the
call, `p` being the plate whose instances are distributed. -/
def move_instances_to (g : Geometry) (m : Model) (p left_plate right_plate : PartPlate)
    (bounding_box : Option BoundingBoxf3) : PartPlate × PartPlate :=
  (sortedPairs p.obj_to_instance_set).foldl (move_instance_to g m bounding_box)
    (left_plate, right_plate)

end PartPlate

/-! ## PartPlateList -/

/-- Default arguments declared in `PartPlate.hpp`, which is not among the
sources. -/
structure HeaderDefaults where
  /-- Default of `clear_sliced_result` in `PartPlate::clear`. -/
  clear_sliced_result : Bool
  /-- Default of `valid` in `PartPlate::update_slice_result_valid_state`. -/
  valid : Bool

/-- The part of a `PartPlateList` that instance bookkeeping reads or writes. -/
structure PartPlateList where
  m_plate_list : List PartPlate
  unprintable_plate : PartPlate
  m_plate_count : Int

namespace PartPlateList

/-- Replace the plate at position `k` by its image under `f` (`m_plate_list[k]`
is a pointer through which the plate is updated in place). -/
def modify_plate (f : PartPlate → PartPlate) : List PartPlate → Nat → List PartPlate
  | [], _ => []
  | plate :: rest, 0 => f plate :: rest
  | plate :: rest, k + 1 => plate :: modify_plate f rest k

/-- The loop of `find_instance(obj_id, instance_id)` from position `i` on. -/
def find_instance_from (obj_id instance_id : Int) : List PartPlate → Nat → Int
  | [], _ => -1
  | plate :: rest, i =>
    if PartPlate.contain_instance plate obj_id instance_id then (i : Int)
    else find_instance_from obj_id instance_id rest (i + 1)

/-- Source function `PartPlateList::find_instance(int obj_id, int instance_id)`. -/
def find_instance (l : PartPlateList) (obj_id instance_id : Int) : Int :=
  find_instance_from obj_id instance_id l.m_plate_list 0

/-- Source function `PartPlateList::get_plate`: `none` is the null pointer. -/
def get_plate (l : PartPlateList) (index : Int) : Option PartPlate :=
  if index ≥ l.m_plate_list.length ∨ index < 0 then none
  else l.m_plate_list[index.toNat]?

/-- The loop "try to find a new plate": the instance is added to the first
plate whose `intersect_instance` accepts it, `after` being what the caller then
does to that plate; `none` when the loop ends without a plate. -/
def add_to_first_intersecting (g : Geometry) (m : Model) (obj_id instance_id : Int)
    (boundingbox : BoundingBoxf3) (after : PartPlate → PartPlate) :
    List PartPlate → Option (List PartPlate)
  | [] => none
  | plate :: rest =>
    if PartPlate.intersect_instance g m plate obj_id instance_id (some boundingbox) then
      some (after (PartPlate.add_instance g m plate obj_id instance_id false
        (some boundingbox)).2.1 :: rest)
    else
      (add_to_first_intersecting g m obj_id instance_id boundingbox after rest).map
        (fun done => plate :: done)

/-- The loop of `PartPlateList::clear` over the plates. -/
def clear_plates (d : HeaderDefaults) (except_locked : Bool) (plate_index : Int) :
    List PartPlate → Nat → List PartPlate
  | [], _ => []
  | plate :: rest, i =>
    (if except_locked && plate.is_locked then plate.clear false
     else if plate_index ≠ -1 ∧ plate_index ≠ (i : Int) then plate.clear false
     else plate.clear d.clear_sliced_result)
      :: clear_plates d except_locked plate_index rest (i + 1)

/-- Source function `PartPlateList::clear`, on the tracked state (`release_print_list` frees the
print pool, which is not part of this state). -/
def clear (d : HeaderDefaults) (l : PartPlateList)
    (delete_plates _release_print_list except_locked : Bool) (plate_index : Int) :
    PartPlateList :=
  let plates := clear_plates d except_locked plate_index l.m_plate_list 0
  { l with
    m_plate_list := if delete_plates then [] else plates,
    unprintable_plate := l.unprintable_plate.clear d.clear_sliced_result }

/-- Body of the two nested loops of `reload_all_objects` for instance `j` of
object `i`. -/
def reload_instance (g : Geometry) (m : Model) (l : PartPlateList) (i j : Nat) :
    PartPlateList :=
  let object := m.object i
  let boundingbox := g.instance_convex_hull_bounding_box (object.inst j)
  match add_to_first_intersecting g m i j boundingbox id l.m_plate_list with
  | some plates => { l with m_plate_list := plates }
  | none =>
    if PartPlate.intersect_instance g m l.unprintable_plate i j (some boundingbox) then
      { l with unprintable_plate :=
          (PartPlate.add_instance g m l.unprintable_plate i j false (some boundingbox)).2.1 }
    else l

/-- Source function `PartPlateList::reload_all_objects`: status and list after the call. -/
def reload_all_objects (d : HeaderDefaults) (g : Geometry) (m : Model) (l : PartPlateList)
    (except_locked : Bool) (plate_index : Int) : Int × PartPlateList :=
  let l0 := clear d l false false except_locked plate_index
  (0, (List.range m.objects.length).foldl
    (fun acc (i : Nat) =>
      (List.range (m.object i).instances.length).foldl
        (fun acc (j : Nat) => reload_instance g m acc i j) acc)
    l0)

/-- First part of `notify_instance_update`: the instance is looked up in the
plates, then in the unprintable plate; the flag tells whether the function
returns here (the instance stays where it is). -/
def notify_instance_update_detach (d : HeaderDefaults) (g : Geometry) (m : Model)
    (l : PartPlateList) (obj_id instance_id : Int) (boundingbox : BoundingBoxf3) :
    Bool × PartPlateList :=
  let index := find_instance l obj_id instance_id
  if index ≠ -1 then
    match l.m_plate_list[index.toNat]? with
    | none => (false, l)
    | some plate =>
      if !PartPlate.intersect_instance g m plate obj_id instance_id (some boundingbox) then
        let plates := modify_plate
          (fun pl => PartPlate.update_slice_result_valid_state
            (PartPlate.remove_instance pl obj_id instance_id).2 d.valid)
          l.m_plate_list index.toNat
        (false, { l with m_plate_list := plates })
      else
        let plates := modify_plate
          (fun pl => PartPlate.update_slice_result_valid_state
            (PartPlate.update_states
              (PartPlate.update_instance_exclude_status g m pl obj_id instance_id
                (some boundingbox))) d.valid)
          l.m_plate_list index.toNat
        (true, { l with m_plate_list := plates })
  else if PartPlate.contain_instance l.unprintable_plate obj_id instance_id then
    if !PartPlate.intersect_instance g m l.unprintable_plate obj_id instance_id
        (some boundingbox) then
      (false, { l with unprintable_plate :=
        (PartPlate.remove_instance l.unprintable_plate obj_id instance_id).2 })
    else (true, l)
  else (false, l)

/-- Source function `PartPlateList::notify_instance_update`: status and list after the call.
The spiral-vase branch only edits the object configuration, which is not part
of this state. -/
def notify_instance_update (d : HeaderDefaults) (g : Geometry) (m : Model)
    (l : PartPlateList) (obj_id instance_id : Int) (_is_new : Bool) : Int × PartPlateList :=
  if 0 ≤ obj_id ∧ obj_id < m.objects.length then
    let object := m.object obj_id
    let boundingbox := g.instance_convex_hull_bounding_box (object.inst instance_id)
    let r := notify_instance_update_detach d g m l obj_id instance_id boundingbox
    if r.1 then (0, r.2)
    else
      let l1 := r.2
      match add_to_first_intersecting g m obj_id instance_id boundingbox
          (fun pl => PartPlate.update_slice_result_valid_state pl d.valid) l1.m_plate_list with
      | some plates => (0, { l1 with m_plate_list := plates })
      | none =>
        if PartPlate.intersect_instance g m l1.unprintable_plate obj_id instance_id
            (some boundingbox) then
          (0, { l1 with unprintable_plate :=
            (PartPlate.add_instance g m l1.unprintable_plate obj_id instance_id false
              (some boundingbox)).2.1 })
        else (0, l1)
  else if obj_id ≥ 1000 ∧ obj_id < 1000 + l.m_plate_count then
    let plates := modify_plate
      (fun pl => PartPlate.update_slice_result_valid_state pl false)
      l.m_plate_list (obj_id - 1000).toNat
    (0, { l with m_plate_list := plates })
  else (-1, l)

/-- Source function `PartPlateList::notify_instance_removed`: status and list after the call. -/
def notify_instance_removed (d : HeaderDefaults) (m : Model) (l : PartPlateList)
    (obj_id instance_id : Int) : Int × PartPlateList :=
  let instance_to_delete := if instance_id = -1 then 0 else instance_id
  let index := find_instance l obj_id instance_to_delete
  let l1 :=
    if index ≠ -1 then
      let plates := modify_plate
        (fun pl => PartPlate.update_slice_result_valid_state
          (PartPlate.remove_instance pl obj_id instance_to_delete).2 d.valid)
        l.m_plate_list index.toNat
      { l with m_plate_list := plates }
    else l
  let l2 :=
    if PartPlate.contain_instance l1.unprintable_plate obj_id instance_to_delete then
      { l1 with unprintable_plate :=
        (PartPlate.remove_instance l1.unprintable_plate obj_id instance_to_delete).2 }
    else l1
  let l3 :=
    if instance_id = -1 then
      { l2 with
        m_plate_list := l2.m_plate_list.map
          (fun pl => PartPlate.update_object_index pl obj_id m.objects.length),
        unprintable_plate :=
          PartPlate.update_object_index l2.unprintable_plate obj_id m.objects.length }
    else l2
  (0, l3)

/-- Source function `PartPlateList::add_to_plate`: status, list and model after the call
(`add_instance` is called with `move_position = true` and without a bounding
box). -/
def add_to_plate (g : Geometry) (m : Model) (l : PartPlateList)
    (obj_id instance_id plate_id : Int) : Int × PartPlateList × Model :=
  let index := find_instance l obj_id instance_id
  if index ≠ -1 ∧ index = plate_id then (0, l, m)
  else
    let l1 :=
      if index ≠ -1 then
        let plates := modify_plate
          (fun pl => (PartPlate.remove_instance pl obj_id instance_id).2)
          l.m_plate_list index.toNat
        { l with m_plate_list := plates }
      else l
    match get_plate l1 plate_id with
    | none => (-1, l1, m)
    | some plate =>
      let r := PartPlate.add_instance g m plate obj_id instance_id true none
      let plates := modify_plate (fun _ => r.2.1) l1.m_plate_list plate_id.toNat
      (r.1, { l1 with m_plate_list := plates }, r.2.2)

/-- Number of plates, the unprintable plate included, whose
`obj_to_instance_set` holds the pair. -/
def trackers (l : PartPlateList) (pr : Int × Int) : Nat :=
  (l.m_plate_list ++ [l.unprintable_plate]).countP
    (fun plate => PartPlate.contain_instance plate pr.1 pr.2)

/-- Pairs visited by the loops of `reload_all_objects` before instance `j` of
object `i`. -/
def visited_before (m : Model) (i j : Nat) (pr : Int × Int) : Prop :=
  0 ≤ pr.1 ∧ 0 ≤ pr.2 ∧
    ((pr.1 < i ∧ PartPlate.valid_instance m pr.1 pr.2 = true) ∨ (pr.1 = i ∧ pr.2 < j))

/-- All plates of the list followed by the unprintable plate. -/
def all_plates (l : PartPlateList) : List PartPlate :=
  l.m_plate_list ++ [l.unprintable_plate]

/-- Some plate of the list, or else the unprintable plate, accepts the pair in
`intersect_instance` with the instance's own bounding box. -/
def accepts (g : Geometry) (m : Model) (l : PartPlateList) (pr : Int × Int) : Bool :=
  (l.m_plate_list ++ [l.unprintable_plate]).any (fun plate =>
    PartPlate.intersect_instance g m plate pr.1 pr.2
      (some (g.instance_convex_hull_bounding_box ((m.object pr.1).inst pr.2))))

end PartPlateList

/-! ## Reachable plate states -/

/-- No tracked pair is flagged outside. -/
def NoTrackedOutside (p : PartPlate) : Prop :=
  ∀ pr ∈ p.obj_to_instance_set, pr ∉ p.instance_outside_set

instance NoTrackedOutside_decidable (p : PartPlate) : Decidable (NoTrackedOutside p) := by
  unfold NoTrackedOutside; infer_instance

/-- Plate states reachable from `init()` by any sequence of `add_instance`,
`remove_instance`, `clear(true)`, `clear(false)`,
`update_instance_exclude_status`, `update_states` and `update_object_index`,
the model and the geometry being arbitrary at every call. -/
inductive Reachable : PartPlate → Prop
  | init (origin : Vec3d) (printable : Bool) (shape_box plate_box : BoundingBoxf3)
      (exclude : List BoundingBoxf3) :
      Reachable (PartPlate.init origin printable shape_box plate_box exclude)
  | add_instance (g : Geometry) (m : Model) (p : PartPlate) (obj_id instance_id : Int)
      (move_position : Bool) (bounding_box : Option BoundingBoxf3) :
      Reachable p →
      Reachable (PartPlate.add_instance g m p obj_id instance_id move_position bounding_box).2.1
  | remove_instance (p : PartPlate) (obj_id instance_id : Int) :
      Reachable p → Reachable (PartPlate.remove_instance p obj_id instance_id).2
  | clear (p : PartPlate) (clear_sliced_result : Bool) :
      Reachable p → Reachable (PartPlate.clear p clear_sliced_result)
  | update_instance_exclude_status (g : Geometry) (m : Model) (p : PartPlate)
      (obj_id instance_id : Int) (bounding_box : Option BoundingBoxf3) :
      Reachable p →
      Reachable (PartPlate.update_instance_exclude_status g m p obj_id instance_id bounding_box)
  | update_states (p : PartPlate) : Reachable p → Reachable (PartPlate.update_states p)
  | update_object_index (p : PartPlate) (obj_idx_removed obj_idx_max : Int) :
      Reachable p → Reachable (PartPlate.update_object_index p obj_idx_removed obj_idx_max)

/-- Plate states reachable from `init()` when the flag is kept in step with the
sets: `add_instance` is called on pairs not currently in
`instance_outside_set`, and `clear(false)` and
`update_instance_exclude_status` (on a tracked pair) are directly followed by
`update_states`. -/
inductive ReachableSynced : PartPlate → Prop
  | init (origin : Vec3d) (printable : Bool) (shape_box plate_box : BoundingBoxf3)
      (exclude : List BoundingBoxf3) :
      ReachableSynced (PartPlate.init origin printable shape_box plate_box exclude)
  | add_instance (g : Geometry) (m : Model) (p : PartPlate) (obj_id instance_id : Int)
      (move_position : Bool) (bounding_box : Option BoundingBoxf3) :
      ReachableSynced p → (obj_id, instance_id) ∉ p.instance_outside_set →
      ReachableSynced
        (PartPlate.add_instance g m p obj_id instance_id move_position bounding_box).2.1
  | remove_instance (p : PartPlate) (obj_id instance_id : Int) :
      ReachableSynced p → ReachableSynced (PartPlate.remove_instance p obj_id instance_id).2
  | clear_true (p : PartPlate) :
      ReachableSynced p → ReachableSynced (PartPlate.clear p true)
  | clear_false_then_update_states (p : PartPlate) :
      ReachableSynced p → ReachableSynced (PartPlate.update_states (PartPlate.clear p false))
  | update_instance_exclude_status_then_update_states (g : Geometry) (m : Model)
      (p : PartPlate) (obj_id instance_id : Int) (bounding_box : Option BoundingBoxf3) :
      ReachableSynced p → (obj_id, instance_id) ∈ p.obj_to_instance_set →
      ReachableSynced (PartPlate.update_states
        (PartPlate.update_instance_exclude_status g m p obj_id instance_id bounding_box))
  | update_states (p : PartPlate) :
      ReachableSynced p → ReachableSynced (PartPlate.update_states p)
  | update_object_index (p : PartPlate) (obj_idx_removed obj_idx_max : Int) :
      ReachableSynced p →
      ReachableSynced (PartPlate.update_object_index p obj_idx_removed obj_idx_max)

/-- Index condition of the model: `obj_id` in `[0, #objects)` and `instance_id`
in `[0, #instances of that object)`. -/
def ValidIndex (m : Model) (obj_id instance_id : Int) : Prop :=
  0 ≤ obj_id ∧ obj_id < m.objects.length ∧ 0 ≤ instance_id ∧
    ∃ object, m.objects[obj_id.toNat]? = some object ∧ instance_id < object.instances.length

/-- The renumbering `update_object_index(r, _)` is to achieve on a set: the
entries of objects below `r`, and the entries of objects above `r` moved down
by one. -/
def RenumberedFrom (old new : Finset (Int × Int)) (r : Int) : Prop :=
  ∀ q : Int × Int, q ∈ new ↔ (q ∈ old ∧ q.1 < r) ∨ ((q.1 + 1, q.2) ∈ old ∧ q.1 + 1 > r)

/-- What `remove_instance` is to achieve on a tracked pair: the pair leaves both
sets, every other pair keeps its membership in both, and the flag afterwards
tells whether no remaining tracked pair is flagged outside. -/
def RemovesAndResyncs (p : PartPlate) (obj_id instance_id : Int) : Prop :=
  let q := (PartPlate.remove_instance p obj_id instance_id).2
  (obj_id, instance_id) ∉ q.obj_to_instance_set ∧
  (obj_id, instance_id) ∉ q.instance_outside_set ∧
  (∀ pr, pr ≠ (obj_id, instance_id) →
    (pr ∈ q.obj_to_instance_set ↔ pr ∈ p.obj_to_instance_set) ∧
    (pr ∈ q.instance_outside_set ↔ pr ∈ p.instance_outside_set)) ∧
  (q.m_ready_for_slice = true ↔ NoTrackedOutside q)

/-! ## Filament maps of a plate -/

/-- Modelled from the spec: the enum `FilamentMapMode` of `PrintConfig.hpp`
(not among the sources), "Default/AutoForFlush/AutoForQuality/Manual". -/
inductive FilamentMapMode
  | fmmAutoForFlush
  | fmmAutoForQuality
  | fmmManual
  | fmmDefault
deriving DecidableEq, Repr

/-- The keys of a plate's `m_config` that filament mapping reads or writes;
`none` stands for a key the config does not have. -/
structure PlateConfig where
  filament_map_mode : Option FilamentMapMode
  filament_map : Option (List Int)
deriving DecidableEq, Repr

/-- The values of the global (project or full print) config that the filament
checks read. -/
structure GlobalConfig where
  filament_map_mode : FilamentMapMode
  filament_map : List Int
  filament_type : List String
  filament_printable : List Int
  /-- Values of `physical_extruder_map`, `none` when the option is missing. -/
  physical_extruder_map : Option (List Int)
deriving DecidableEq, Repr

/-- Element `i` of a `std::vector`, `none` when `i` is outside its bounds (an
exception for `at`, undefined behaviour for `operator[]`). -/
def vec_read {α : Type} (v : List α) (i : Int) : Option α :=
  if 0 ≤ i then v[i.toNat]? else none

/-- Value of an `int` converted to the 64-bit `size_t` it is compared with. -/
def to_size_t (i : Int) : Int := i % 2 ^ 64

/-- What `get_extruders` gathers outside the embedded sources. -/
structure ExtruderSources where
  /-- Value of `m_model->objects.empty()`. -/
  objects_empty : Bool
  /-- Value of `wxGetApp().plater() && wxGetApp().plater()->is_gcode_3mf()`. -/
  is_gcode_3mf : Bool
  /-- The `id` fields of `slice_filaments_info`, in vector order. -/
  slice_filaments_info : List Int
  /-- The extruders pushed to `plate_extruders` by the loops over the objects
  of the plate, their supports and the custom G-code, in push order. -/
  plate_extruders : List Int
deriving DecidableEq, Repr

/-- Effect of `std::unique` followed by `resize`: of every run of equal
neighbours only the first element is kept. -/
def unique_neighbours : List Int → List Int
  | [] => []
  | [a] => [a]
  | a :: b :: rest =>
    if a = b then unique_neighbours (b :: rest) else a :: unique_neighbours (b :: rest)

namespace PartPlate

/-- Source function `PartPlate::get_filament_map_mode`. -/
def get_filament_map_mode (c : PlateConfig) : FilamentMapMode :=
  match c.filament_map_mode with
  | some mode => mode
  | none => FilamentMapMode.fmmDefault

/-- Source function `PartPlate::get_real_filament_map_mode`. -/
def get_real_filament_map_mode (c : PlateConfig) (g_mode : FilamentMapMode) : FilamentMapMode :=
  let mode := get_filament_map_mode c
  if FilamentMapMode.fmmDefault ≠ mode then mode else g_mode

/-- Source function `PartPlate::get_filament_maps`. -/
def get_filament_maps (c : PlateConfig) : List Int :=
  match c.filament_map with
  | some values => values
  | none => []

/-- Source function `PartPlate::get_real_filament_maps`. -/
def get_real_filament_maps (c : PlateConfig) (g_maps : List Int) : List Int :=
  let maps := get_filament_maps c
  if !maps.isEmpty then maps else g_maps

/-- Source function `PartPlate::clear_filament_map`. -/
def clear_filament_map (c : PlateConfig) : PlateConfig :=
  { c with filament_map := none }

/-- Source function `PartPlate::clear_filament_map_mode`. -/
def clear_filament_map_mode (c : PlateConfig) : PlateConfig :=
  { c with filament_map_mode := none }

/-- Source function `PartPlate::set_filament_map_mode`, `global_mode` being the
project config's `filament_map_mode`. -/
def set_filament_map_mode (c : PlateConfig) (global_mode mode : FilamentMapMode) :
    PlateConfig :=
  let old_mode := get_filament_map_mode c
  let old_real_mode := if old_mode = FilamentMapMode.fmmDefault then global_mode else old_mode
  let new_real_mode := if mode = FilamentMapMode.fmmDefault then global_mode else mode
  let c1 := if old_real_mode ≠ new_real_mode then clear_filament_map c else c
  if mode = FilamentMapMode.fmmDefault then clear_filament_map_mode c1
  else { c1 with filament_map_mode := some mode }

/-- Source function `PartPlate::get_extruders`, from what its loops gathered:
an object-less project returns the filaments of the sliced G-code file as they
are stored, any other project the gathered extruders sorted and without
duplicates. -/
def get_extruders (src : ExtruderSources) : List Int :=
  if src.objects_empty then
    if src.is_gcode_3mf then src.slice_filaments_info.map (fun id => id + 1) else []
  else unique_neighbours (src.plate_extruders.insertionSort (fun a b => a ≤ b))

/-- Bit `extruder_idx` of the printable mask is set:
`filament_printable_status >> extruder_idx & 1`. -/
def printable_bit (filament_printable_status : Int) (extruder_idx : Nat) : Bool :=
  (filament_printable_status / 2 ^ extruder_idx) % 2 != 0

/-- The message of `check_filament_printable` (English locale). -/
def nozzle_error_message (extruder_idx : Int) (filament_type : String) : String :=
  "The " ++ (if extruder_idx = 0 then "left" else "right") ++ " nozzle can not print " ++
    filament_type ++ "."

/-- The loop of `check_filament_printable` over the used filaments: result and
message, `none` when an element is read outside a vector or the shift count is
not in `0..31`. -/
def check_used_filaments (g : GlobalConfig) (filament_map : List Int) :
    List Int → Option (Bool × String)
  | [] => some (true, "")
  | filament_idx :: rest =>
    let filament_id := filament_idx - 1
    match vec_read g.filament_type filament_id, vec_read g.filament_printable filament_id,
        vec_read filament_map filament_id with
    | some filament_type, some filament_printable_status, some mapped =>
      let extruder_idx := mapped - 1
      if extruder_idx < 0 ∨ 32 ≤ extruder_idx then none
      else if !printable_bit filament_printable_status extruder_idx.toNat then
        some (false, nozzle_error_message extruder_idx filament_type)
      else check_used_filaments g filament_map rest
    | _, _, _ => none

/-- Source function `PartPlate::check_filament_printable`: return value and
`error_message`. -/
def check_filament_printable (c : PlateConfig) (g : GlobalConfig) (src : ExtruderSources) :
    Option (Bool × String) :=
  let mode := get_real_filament_map_mode c g.filament_map_mode
  if mode ≠ FilamentMapMode.fmmManual then some (true, "")
  else
    check_used_filaments g (get_real_filament_maps c g.filament_map) (get_extruders src)

/-- Source function `PartPlate::get_physical_extruder_by_filament_id`; `none`
when a vector is read outside its bounds. -/
def get_physical_extruder_by_filament_id (c : PlateConfig) (g : GlobalConfig) (idx : Int) :
    Option Int :=
  let filament_map := get_real_filament_maps c g.filament_map
  if (filament_map.length : Int) < to_size_t idx then some (-1)
  else
    match g.physical_extruder_map with
    | none => some (-1)
    | some the_map =>
      match vec_read filament_map (idx - 1) with
      | none => none
      | some mapped => vec_read the_map (mapped - 1)

end PartPlate

/-- Filament `f` (1-based) has entries in `filament_type`, `filament_printable`
and the filament map, and its extruder number is in `1..32`. -/
def FilamentReadable (g : GlobalConfig) (filament_map : List Int) (f : Int) : Prop :=
  (vec_read g.filament_type (f - 1)).isSome ∧
    ∃ status mapped, vec_read g.filament_printable (f - 1) = some status ∧
      vec_read filament_map (f - 1) = some mapped ∧ 1 ≤ mapped ∧ mapped ≤ 32

/-- Filament `f` (1-based) has bit `filament_map[f-1] - 1` cleared in
`filament_printable[f-1]`. -/
def FilamentBlocked (g : GlobalConfig) (filament_map : List Int) (f : Int) : Prop :=
  ∃ status mapped, vec_read g.filament_printable (f - 1) = some status ∧
    vec_read filament_map (f - 1) = some mapped ∧
    PartPlate.printable_bit status (mapped - 1).toNat = false

/-- The message that names filament `f`: side of its extruder and its type. -/
def blocked_message (g : GlobalConfig) (filament_map : List Int) (f : Int) : String :=
  PartPlate.nozzle_error_message (((vec_read filament_map (f - 1)).getD 0) - 1)
    ((vec_read g.filament_type (f - 1)).getD "")

/-! ## Print object regions -/

/-- One entry of `LayerRangeRegions::volumes`: the id of a model volume
(`ObjectID`, a number) and its bounding box, which is opaque here. -/
structure VolumeExtents where
  volume_id : Nat
  bbox : Nat
deriving DecidableEq, Repr

/-- The part of `PrintObjectRegions::LayerRangeRegions` that `has_volume` reads. -/
structure LayerRangeRegions where
  volumes : List VolumeExtents
deriving DecidableEq, Repr

/-- Modelled from the spec: the loop of `lower_bound_by_predicate` of
`libslic3r/Utils.hpp`, which is not among the sources: a binary search over the
`count` elements from position `first` on, halving `count` at every step;
`fuel` bounds the number of steps. -/
def lower_bound_loop {α : Type} (v : List α) (lower_than_key : α → Bool) :
    Nat → Nat → Nat → Nat
  | 0, first, _ => first
  | fuel + 1, first, count =>
    if count > 0 then
      let step := count / 2
      let it := first + step
      if (v[it]?.map lower_than_key).getD false then
        lower_bound_loop v lower_than_key fuel (it + 1) (count - (step + 1))
      else lower_bound_loop v lower_than_key fuel first step
    else first

/-- Modelled from the spec: `lower_bound_by_predicate(begin, end, pred)` of
`libslic3r/Utils.hpp`, which is not among the sources: binary search for the
first position whose element does not satisfy the predicate; the result is a
position, `v.length` standing for `end`. -/
def lower_bound_by_predicate {α : Type} (v : List α) (lower_than_key : α → Bool) : Nat :=
  lower_bound_loop v lower_than_key v.length 0 v.length

/-- Source function `PrintObjectRegions::LayerRangeRegions::has_volume`. -/
def LayerRangeRegions.has_volume (r : LayerRangeRegions) (id : Nat) : Bool :=
  let it := lower_bound_by_predicate r.volumes (fun l => decide (l.volume_id < id))
  match r.volumes[it]? with
  | none => false
  | some l => l.volume_id == id

/-! ## Step state of `Print` and `PrintObject` -/

/-- Source enum `PrintStep` (`psToolOrdering` and `psSlicingFinished` are
synonyms, see below). -/
inductive PrintStep
  | psWipeTower
  | psSkirtBrim
  | psGCodeExport
  | psConflictCheck
deriving DecidableEq, Repr

/-- Source enumerator `psToolOrdering = psWipeTower`. -/
def PrintStep.psToolOrdering : PrintStep := PrintStep.psWipeTower

/-- Source enumerator `psSlicingFinished = psSkirtBrim`. -/
def PrintStep.psSlicingFinished : PrintStep := PrintStep.psSkirtBrim

/-- Value of a `PrintStep` enumerator. -/
def PrintStep.toNat : PrintStep → Nat
  | psWipeTower => 0
  | psSkirtBrim => 1
  | psGCodeExport => 2
  | psConflictCheck => 3

/-- Source enumerator `psCount`. -/
def psCount : Nat := 4

/-- Source enum `PrintObjectStep`. -/
inductive PrintObjectStep
  | posSlice
  | posPerimeters
  | posPrepareInfill
  | posInfill
  | posIroning
  | posSupportMaterial
  | posDetectOverhangsForLift
  | posSimplifyWall
  | posSimplifyInfill
  | posSimplifySupportPath
deriving DecidableEq, Repr

/-- Value of a `PrintObjectStep` enumerator. -/
def PrintObjectStep.toNat : PrintObjectStep → Nat
  | posSlice => 0
  | posPerimeters => 1
  | posPrepareInfill => 2
  | posInfill => 3
  | posIroning => 4
  | posSupportMaterial => 5
  | posDetectOverhangsForLift => 6
  | posSimplifyWall => 7
  | posSimplifyInfill => 8
  | posSimplifySupportPath => 9

/-- Source enumerator `posCount`. -/
def posCount : Nat := 10

/-- The step-completion bitset of one owner: the flag of every step value. -/
abbrev StepFlags := Nat → Bool

/-- Modelled from the spec: the state before any step has run ("each step is
... only (re-)executed via an explicit `invalidate_step` call followed by a
driver"); the state classes live in `PrintBase.hpp`, not among the sources. -/
def StepFlags.none_done : StepFlags := fun _ => false

/-- Modelled from the spec: the body of `invalidate_step`, which is in
`Print.cpp` / `PrintObject.cpp` / `PrintBase.hpp`, not among the sources:
"invalidating step K must also invalidate every step > K in the same owner",
and the call "returns whether any state actually flipped from done to not-done".
The propagation from an object to its `Print` is outside this owner's flags. -/
def StepFlags.invalidate_step (count : Nat) (s : StepFlags) (step : Nat) : Bool × StepFlags :=
  ((List.range count).any (fun k => decide (step ≤ k) && s k),
    fun k => if step ≤ k then false else s k)

/-- Modelled from the spec: marking a step done, which is in `PrintBase.hpp`,
not among the sources. -/
def StepFlags.set_done (s : StepFlags) (step : Nat) : StepFlags :=
  fun k => if k = step then true else s k

/-- Modelled from the spec: `PrintObject::invalidate_step(PrintObjectStep)`,
declared in `Print.hpp`, defined outside the sources. -/
def PrintObject.invalidate_step (s : StepFlags) (step : PrintObjectStep) : Bool × StepFlags :=
  StepFlags.invalidate_step posCount s step.toNat

/-- Source function `Print::is_step_done(PrintStep)` on the flags of the owner
(`Inherited::is_step_done` reads the flag of the step). -/
def Print.is_step_done (s : StepFlags) (step : PrintStep) : Bool := s step.toNat

/-- Modelled from the spec: `Print::invalidate_step(PrintStep)`, declared in
`Print.hpp`, defined outside the sources. -/
def Print.invalidate_step (s : StepFlags) (step : PrintStep) : Bool × StepFlags :=
  StepFlags.invalidate_step psCount s step.toNat

/-- Modelled from the spec: the states an owner's flags can reach: "steps must
be completed in the listed order; completing step N implicitly assumes steps
< N were valid", and any step may be invalidated at any time. -/
inductive StepFlags.Reachable (count : Nat) : StepFlags → Prop
  | start : StepFlags.Reachable count StepFlags.none_done
  | set_done (s : StepFlags) (step : Nat) :
      StepFlags.Reachable count s → step < count → (∀ k < step, s k = true) →
      StepFlags.Reachable count (s.set_done step)
  | invalidate_step (s : StepFlags) (step : Nat) :
      StepFlags.Reachable count s →
      StepFlags.Reachable count (StepFlags.invalidate_step count s step).2

/-! ## Plates and print pool of a plate list -/

/-- What plate creation and deletion read or write of one `PartPlate`: the
address of the object (its identity), its index, and its print. -/
structure PlateEntry where
  /-- Address of the `PartPlate` object. -/
  ptr : Nat
  m_plate_index : Int
  m_print_index : Int
  /-- Address of the plate's `Print`, `none` for `nullptr`. -/
  m_print : Option Nat
  /-- Address of the plate's `GCodeResult`, `none` for `nullptr`. -/
  m_gcode_result : Option Nat
deriving DecidableEq, Repr

/-- What plate creation and deletion read or write of a `PartPlateList`.
Geometry, selection and the instances of the plates (see `PartPlateList`
above) are not part of this state. -/
structure PlateListState where
  /-- Value of `printer_technology == ptFFF`. -/
  is_fff : Bool
  /-- Value of the constant `MAX_PLATES_COUNT` of `PartPlate.hpp` (not among the
  sources). -/
  max_plates_count : Nat
  m_plate_list : List PlateEntry
  /-- Index of `unprintable_plate`. -/
  unprintable_plate_index : Int
  /-- The map `m_print_list`: print index and address of the `Print`. -/
  m_print_list : List (Int × Nat)
  /-- The map `m_gcode_result_list`. -/
  m_gcode_result_list : List (Int × Nat)
  m_print_index : Int
  m_plate_count : Int
  /-- Address the next `new` returns; addresses are never reused. -/
  heap_next : Nat
deriving DecidableEq, Repr

/-- Effect of `std::map::emplace(key, value)`: nothing is inserted when the key
is already present. -/
def map_emplace (mp : List (Int × Nat)) (key : Int) (value : Nat) : List (Int × Nat) :=
  if (mp.lookup key).isSome then mp else mp ++ [(key, value)]

/-- Effect of `std::map::erase` on the entry of `key`. -/
def map_erase (mp : List (Int × Nat)) (key : Int) : List (Int × Nat) :=
  mp.filter (fun kv => kv.1 != key)

namespace PlateListState

/-- Source function `PartPlate::set_print` on the entry of a plate. -/
def set_print (is_fff : Bool) (e : PlateEntry) (print result : Nat) (index : Int) :
    PlateEntry :=
  { e with
    m_print := if is_fff then some print else e.m_print,
    m_gcode_result := some result,
    m_print_index := if index ≥ 0 then index else e.m_print_index }

/-- A `PartPlate` as its constructor and `PartPlate::init()` leave it:
`m_print_index = -1`, `m_print = nullptr`. -/
def new_plate (ptr : Nat) : PlateEntry :=
  { ptr := ptr, m_plate_index := 0, m_print_index := -1, m_print := none,
    m_gcode_result := none }

/-- The FFF branch shared by `init` and `create_plate`: a `Print` and a
`GCodeResult` are allocated, emplaced under `m_print_index` and given to the
plate, and `m_print_index` is incremented. -/
def attach_print (s : PlateListState) (plate : PlateEntry) : PlateListState × PlateEntry :=
  if s.is_fff then
    let print := s.heap_next
    let gcode := s.heap_next + 1
    ({ s with
        m_print_list := map_emplace s.m_print_list s.m_print_index print,
        m_gcode_result_list := map_emplace s.m_gcode_result_list s.m_print_index gcode,
        m_print_index := s.m_print_index + 1,
        heap_next := s.heap_next + 2 },
      set_print s.is_fff plate print gcode s.m_print_index)
  else (s, plate)

/-- Source function `PartPlateList::init`. -/
def init (s : PlateListState) : PlateListState :=
  let first_plate := new_plate s.heap_next
  let s1 := { s with heap_next := s.heap_next + 1, m_print_index := 0 }
  let r := attach_print s1 first_plate
  let first_plate := { r.2 with m_plate_index := 0 }
  { r.1 with
    m_plate_list := s.m_plate_list ++ [first_plate],
    m_plate_count := 1,
    unprintable_plate_index := 1 }

/-- The list object before its constructor body runs: no plate, empty maps. -/
def blank (is_fff : Bool) (max_plates_count : Nat) : PlateListState :=
  { is_fff := is_fff, max_plates_count := max_plates_count, m_plate_list := [],
    unprintable_plate_index := 0, m_print_list := [], m_gcode_result_list := [],
    m_print_index := 0, m_plate_count := 0, heap_next := 0 }

/-- Source constructor `PartPlateList::PartPlateList`: `init()` on the blank
object. -/
def construct (is_fff : Bool) (max_plates_count : Nat) : PlateListState :=
  init (blank is_fff max_plates_count)

/-- Source function `PartPlateList::clear`, on the plates and the pool (the
deleted plates do not delete their prints). -/
def clear (s : PlateListState) (delete_plates release_print_list : Bool) : PlateListState :=
  let s1 := if delete_plates then { s with m_plate_list := [] } else s
  if release_print_list then { s1 with m_print_list := [], m_gcode_result_list := [] }
  else s1

/-- Source function `PartPlateList::reset`. -/
def reset (s : PlateListState) (do_init : Bool) : PlateListState :=
  let s1 := clear s true false
  if do_init then init s1 else s1

/-- Source function `PartPlateList::reinit`. -/
def reinit (s : PlateListState) : PlateListState :=
  init (clear s true true)

/-- Source function `PartPlateList::create_plate`: returned index and state. -/
def create_plate (s : PlateListState) (_adjust_position : Bool) : Int × PlateListState :=
  let new_index := s.m_plate_list.length
  if new_index ≥ s.max_plates_count then (-1, s)
  else
    let plate := new_plate s.heap_next
    let r := attach_print { s with heap_next := s.heap_next + 1 } plate
    let plate := { r.2 with m_plate_index := (new_index : Int) }
    ((new_index : Int),
      { r.1 with
        m_plate_list := s.m_plate_list ++ [plate],
        m_plate_count := (new_index : Int) + 1,
        unprintable_plate_index := (new_index : Int) + 1 })

/-- Source function `PartPlateList::destroy_print`: status and state. -/
def destroy_print (s : PlateListState) (print_index : Int) : Int × PlateListState :=
  if print_index ≥ 0 then
    let found1 := (s.m_print_list.lookup print_index).isSome
    let found2 := (s.m_gcode_result_list.lookup print_index).isSome
    (if found1 && found2 then 0 else -1,
      { s with
        m_print_list := map_erase s.m_print_list print_index,
        m_gcode_result_list := map_erase s.m_gcode_result_list print_index })
  else (0, s)

/-- The loop of `delete_plate` "update the plates after it": `set_index(i)` for
every position `i >= index`, `i` being the position of the head of the list. -/
def reindex_from (index : Nat) : List PlateEntry → Nat → List PlateEntry
  | [], _ => []
  | plate :: rest, i =>
    (if index ≤ i then { plate with m_plate_index := (i : Int) } else plate)
      :: reindex_from index rest (i + 1)

/-- Source function `PartPlateList::delete_plate`: status and state. -/
def delete_plate (s : PlateListState) (index : Int) : Int × PlateListState :=
  if to_size_t index ≥ s.m_plate_list.length then (-1, s)
  else if s.m_plate_list.length ≤ 1 then (-1, s)
  else
    match s.m_plate_list[index.toNat]? with
    | none => (-1, s)
    | some plate =>
      if index ≠ plate.m_plate_index then (-1, s)
      else
        let plates := reindex_from index.toNat (s.m_plate_list.eraseIdx index.toNat) 0
        let s1 := { s with
          m_plate_list := plates,
          m_plate_count := (plates.length : Int),
          unprintable_plate_index := (plates.length : Int) }
        (0, (destroy_print s1 plate.m_print_index).2)

end PlateListState

/-! ## Nozzle and filament compatibility -/

/-- Effect of inserting the elements of `l` into an empty `std::set` ordered
by `r`: sorted, every run of equal neighbours reduced to one element. -/
def std_set {α : Type} [DecidableEq α] (r : α → α → Prop) [DecidableRel r] (l : List α) :
    List α :=
  (l.insertionSort r).foldr (fun a acc => if acc.head? = some a then acc else a :: acc) []

/-- Order of `std::string`: lexicographic on the characters. -/
def chars_le : List Char → List Char → Bool
  | [], _ => true
  | _ :: _, [] => false
  | a :: as, b :: bs =>
    if a.toNat < b.toNat then true
    else if b.toNat < a.toNat then false
    else chars_le as bs

/-- Order of `std::string` on strings. -/
def string_le (a b : String) : Prop := chars_le a.data b.data = true

instance string_le_decidable : DecidableRel string_le := fun a b => by
  unfold string_le; infer_instance

/-- The values of the print config read by
`check_compatible_of_nozzle_and_filament`. -/
structure NozzleConfig where
  /-- Values of `nozzle_diameter`, as opaque numbers: they are only passed on. -/
  nozzle_diameter : List Int
  /-- Values of `nozzle_volume_type` (enumerator values). -/
  nozzle_volume_type : List Int
deriving DecidableEq, Repr

/-- Services outside the embedded sources that
`check_compatible_of_nozzle_and_filament` calls. -/
structure NozzleServices where
  /-- Value of `Print::get_incompatible_filaments_by_nozzle(diameter, volume_type)`. -/
  get_incompatible_filaments_by_nozzle : Int → Int → List String
  /-- The diameter written with one decimal (`std::fixed`, `setprecision(1)`). -/
  format_diameter : Int → String
  /-- Value of `_u8L(get_nozzle_volume_type_string(volume_type))`. -/
  nozzle_volume_type_string : Int → String

namespace PartPlate

/-- The lambda `get_filament_alias`: the preset name up to the first `@`,
without leading and trailing spaces. -/
def get_filament_alias (preset_name : String) : String :=
  let before_at := preset_name.data.takeWhile (fun ch => ch != '@')
  let from_first := before_at.dropWhile (fun ch => ch == ' ')
  if from_first.isEmpty then ""
  else String.mk ((from_first.reverse.dropWhile (fun ch => ch == ' ')).reverse)

/-- The lambda `get_nozzle_msg`. -/
def get_nozzle_msg (sv : NozzleServices) (nozzle_diameter volume_type : Int) : String :=
  sv.format_diameter nozzle_diameter ++ "mm " ++ sv.nozzle_volume_type_string volume_type ++
    " nozzle"

/-- The lambda `get_incompatible_filament_msg`: the filaments separated by
commas. -/
def get_incompatible_filament_msg : List String → String
  | [] => ""
  | [filament] => filament
  | filament :: rest => filament ++ "," ++ get_incompatible_filament_msg rest

/-- The lambda `get_incompatible_selected`. -/
def get_incompatible_selected (sv : NozzleServices) (nozzle_diameter : Int)
    (selected_filament_alias : List String) (volume_type : Int) : List String :=
  selected_filament_alias.filter
    (fun filament => decide (filament ∈
      sv.get_incompatible_filaments_by_nozzle nozzle_diameter volume_type))

/-- The entries of `incompatible_selected_map`, in key order. -/
def incompatible_selected_map (sv : NozzleServices) (nozzle_diameter : Int)
    (selected_filament_alias : List String) (nozzle_volumes : List Int) :
    List (Int × List String) :=
  nozzle_volumes.filterMap (fun volume_type =>
    let incompatible_selected :=
      get_incompatible_selected sv nozzle_diameter selected_filament_alias volume_type
    if incompatible_selected.isEmpty then none else some (volume_type, incompatible_selected))

/-- The lines appended to `warning_msg`, one per entry of the map. -/
def combination_lines (sv : NozzleServices) (nozzle_diameter : Int) :
    List (Int × List String) → String
  | [] => ""
  | elem :: rest =>
    (get_nozzle_msg sv nozzle_diameter elem.1 ++ " with " ++
      get_incompatible_filament_msg elem.2 ++ "\n") ++
      combination_lines sv nozzle_diameter rest

/-- Source function `PartPlate::check_compatible_of_nozzle_and_filament`:
return value and `error_msg` (English locale); `none` when `nozzle_diameter` or
`nozzle_volume_type` has no value (`values[0]` is read). -/
def check_compatible_of_nozzle_and_filament (sv : NozzleServices) (config : NozzleConfig)
    (filament_presets : List String) : Option (Bool × String) :=
  match config.nozzle_diameter, config.nozzle_volume_type with
  | nozzle_diameter :: _, _ :: _ =>
    let selected_filament_alias := std_set string_le (filament_presets.map get_filament_alias)
    let nozzle_volumes := std_set (fun a b : Int => a ≤ b) config.nozzle_volume_type
    let incompatible := incompatible_selected_map sv nozzle_diameter selected_filament_alias
      nozzle_volumes
    match incompatible with
    | [] => some (true, "")
    | [elem] =>
      some (false, "It is not recommended to print the following filament(s) with " ++
        get_nozzle_msg sv nozzle_diameter elem.1 ++ ": " ++
        get_incompatible_filament_msg elem.2 ++ "\n")
    | _ =>
      some (false,
        "It is not recommended to use the following nozzle and filament combinations:\n" ++
        combination_lines sv nozzle_diameter incompatible)
  | _, _ => none

end PartPlate

/-- The message names the pair: the nozzle text occurs in it and the filament
alias occurs after it. -/
def NamesPair (msg nozzle filament : String) : Prop :=
  ∃ pre mid post : List Char,
    msg.data = pre ++ nozzle.data ++ mid ++ filament.data ++ post

/-! ## Readiness of the plates of a list -/

namespace PartPlateList

/-- The loop of `is_all_plates_ready_for_slice` over the plates still to visit:
`true` is returned at the first plate whose `can_slice()` holds, `false` when
the loop ends. -/
def ready_for_slice_scan (can_slice : PartPlate → Bool) : List PartPlate → Bool
  | [] => false
  | plate :: rest => if can_slice plate then true else ready_for_slice_scan can_slice rest

/-- Source function `PartPlateList::is_all_plates_ready_for_slice`; `can_slice` is
`PartPlate::can_slice()`, defined in `PartPlate.hpp` (not among the sources). -/
def is_all_plates_ready_for_slice (can_slice : PartPlate → Bool) (l : PartPlateList) : Bool :=
  ready_for_slice_scan can_slice l.m_plate_list

end PartPlateList

/-! ## Plate states reachable by the tracking operations -/

/-- Plate states reachable from `init()` by any sequence of `add_instance`,
`remove_instance`, `clear` and `update_object_index`, the model and the
geometry being arbitrary at every call. -/
inductive ReachableByTracking : PartPlate → Prop
  | init (origin : Vec3d) (printable : Bool) (shape_box plate_box : BoundingBoxf3)
      (exclude : List BoundingBoxf3) :
      ReachableByTracking (PartPlate.init origin printable shape_box plate_box exclude)
  | add_instance (g : Geometry) (m : Model) (p : PartPlate) (obj_id instance_id : Int)
      (move_position : Bool) (bounding_box : Option BoundingBoxf3) :
      ReachableByTracking p →
      ReachableByTracking
        (PartPlate.add_instance g m p obj_id instance_id move_position bounding_box).2.1
  | remove_instance (p : PartPlate) (obj_id instance_id : Int) :
      ReachableByTracking p → ReachableByTracking (PartPlate.remove_instance p obj_id instance_id).2
  | clear (p : PartPlate) (clear_sliced_result : Bool) :
      ReachableByTracking p → ReachableByTracking (PartPlate.clear p clear_sliced_result)
  | update_object_index (p : PartPlate) (obj_idx_removed obj_idx_max : Int) :
      ReachableByTracking p →
      ReachableByTracking (PartPlate.update_object_index p obj_idx_removed obj_idx_max)

/-! ## Print sequences of a plate -/

/-- Type `LayerPrintSequence`: a layer range and the order of the filaments in
it (`other_layers_seq.second` in the source). -/
abbrev LayerPrintSequence := (Int × Int) × List Int

/-- The print-sequence options of a plate's `m_config`. -/
structure SequenceConfig where
  /-- Values of the option `first_layer_print_sequence`, `none` when the option
  is absent. -/
  first_layer_print_sequence : Option (List Int)
  /-- Value of `get_other_layers_print_sequence()`: the list that
  `Slic3r::get_other_layers_print_sequence` (libslic3r, not among the sources)
  reads from the options `other_layers_print_sequence` and
  `other_layers_print_sequence_nums`, empty when one of them is absent. -/
  other_layers_print_sequence : List LayerPrintSequence
deriving DecidableEq, Repr

namespace PartPlate

/-- Source function `PartPlate::get_other_layers_print_sequence`. -/
def get_other_layers_print_sequence (c : SequenceConfig) : List LayerPrintSequence :=
  c.other_layers_print_sequence

/-- Source function `PartPlate::set_other_layers_print_sequence`: an empty list erases both
options, any other list is stored. -/
def set_other_layers_print_sequence (c : SequenceConfig)
    (layer_seq_list : List LayerPrintSequence) : SequenceConfig :=
  if layer_seq_list.isEmpty then { c with other_layers_print_sequence := [] }
  else { c with other_layers_print_sequence := layer_seq_list }

/-- What `update_first_layer_print_sequence_when_delete_filament` does to one
order: `erase(remove_if(n == filament_id + 1))`, then
`order = order > filament_id ? order - 1 : order` for every element left. The
`int` elements are compared with the `size_t` value as `size_t`. -/
def delete_filament_from_order (filament_id : Nat) (orders : List Int) : List Int :=
  (orders.filter (fun n => !(to_size_t n == to_size_t ((filament_id : Int) + 1)))).map
    (fun order => if to_size_t order > (filament_id : Int) then order - 1 else order)

/-- Source function `PartPlate::update_first_layer_print_sequence_when_delete_filament`. -/
def update_first_layer_print_sequence_when_delete_filament (c : SequenceConfig)
    (filament_id : Nat) : SequenceConfig :=
  let other_layers_seqs := get_other_layers_print_sequence c
  let c1 :=
    if !other_layers_seqs.isEmpty then
      set_other_layers_print_sequence c
        (other_layers_seqs.map (fun s => (s.1, delete_filament_from_order filament_id s.2)))
    else c
  match c1.first_layer_print_sequence with
  | none => c1
  | some print_sequence_1st =>
    if print_sequence_1st.length = 0 ∨ print_sequence_1st.head? = some 0 then c1
    else
      { c1 with
        first_layer_print_sequence :=
          some (delete_filament_from_order filament_id print_sequence_1st) }

end PartPlate

/-- The list is a permutation of `1, …, n`. -/
def IsPermutationUpTo (n : Nat) (l : List Int) : Prop :=
  l.Perm ((List.range' 1 n).map (fun k : Nat => (k : Int)))

/-- The sequence without filament `filament_id + 1` (1-based), every larger value
lowered by one, the elements left keeping their order. -/
def removed_and_renumbered (filament_id : Nat) (seq : List Int) : List Int :=
  (seq.filter (fun v => decide (v ≠ (filament_id : Int) + 1))).map
    (fun v => if v > (filament_id : Int) + 1 then v - 1 else v)

/-! ## Bed indices of arranged polygons -/

/-- The fields of `arrangement::ArrangePolygon` (libslic3r, not among the
sources) that bed-index processing reads or writes. -/
structure ArrangePolygon where
  translation : Int × Int
  bed_idx : Int
  row : Int
  col : Int
deriving DecidableEq, Repr

/-- Members of `PartPlateList` and constants that bed-index processing reads
besides the plates. -/
structure ArrangeGrid where
  /-- Value of the constant `PartPlateList::MAX_PLATES_COUNT` of `PartPlate.hpp`
  (not among the sources). -/
  max_plates_count : Nat
  m_plate_cols : Int
  /-- Value of `scaled<double>(plate_stride_x() * col)` as it is subtracted from
  the X translation. -/
  scaled_stride_x : Int → Int
  /-- Value of `scaled<double>(plate_stride_y() * row)` as it is added to the Y
  translation. -/
  scaled_stride_y : Int → Int

/-- Conversion of an `int` to `unsigned int`. -/
def to_unsigned (i : Int) : Int := i % 2 ^ 32

namespace PartPlateList

/-- The assignments of `preprocess_arrange_polygon` for a plate found at
position `i`: `bed_idx`, `row = i / m_plate_cols`, `col = i % m_plate_cols`
(computed as `unsigned int`) and the translation; `none` for a division by
zero. -/
def place_on_grid (grid : ArrangeGrid) (arrange_polygon : ArrangePolygon) (bed_idx : Int)
    (i : Nat) : Option ArrangePolygon :=
  let cols := to_unsigned grid.m_plate_cols
  if cols = 0 then none
  else
    let row := (i : Int) / cols
    let col := (i : Int) % cols
    some
      { translation :=
          (arrange_polygon.translation.1 - grid.scaled_stride_x col,
            arrange_polygon.translation.2 + grid.scaled_stride_y row),
        bed_idx := bed_idx, row := row, col := col }

/-- The loop of `preprocess_arrange_polygon` from position `i` on, `lockplate_cnt`
locked plates having been passed; the list holds the plates still to visit. -/
def preprocess_scan (grid : ArrangeGrid) (obj_index instance_index : Int)
    (arrange_polygon : ArrangePolygon) (selected : Bool) :
    List PartPlate → Nat → Int → Option (Bool × ArrangePolygon)
  | [], _, _ =>
    if !selected then
      some (false, { arrange_polygon with bed_idx := (grid.max_plates_count : Int) })
    else some (false, arrange_polygon)
  | plate :: rest, i, lockplate_cnt =>
    if plate.contain_instance obj_index instance_index then
      if plate.is_locked then
        (place_on_grid grid arrange_polygon (i : Int) i).map (fun a => (true, a))
      else if !selected then
        (place_on_grid grid arrange_polygon ((i : Int) - lockplate_cnt) i).map
          (fun a => (false, a))
      else some (false, arrange_polygon)
    else
      preprocess_scan grid obj_index instance_index arrange_polygon selected rest (i + 1)
        (if plate.is_locked then lockplate_cnt + 1 else lockplate_cnt)

/-- Source function `PartPlateList::preprocess_arrange_polygon`: the returned flag and the
polygon after the call. -/
def preprocess_arrange_polygon (grid : ArrangeGrid) (l : PartPlateList)
    (obj_index instance_index : Int) (arrange_polygon : ArrangePolygon) (selected : Bool) :
    Option (Bool × ArrangePolygon) :=
  preprocess_scan grid obj_index instance_index arrange_polygon selected l.m_plate_list 0 0

/-- The loop over the plates that `postprocess_bed_index_for_selected` and
`postprocess_bed_index_for_unselected` share, from position `i` on: whether the
loop was left by its `return`, and `bed_idx`. The test `bed_idx <= i` compares
as `unsigned int`. -/
def bed_index_scan : List PartPlate → Nat → Int → Bool × Int
  | [], _, bed_idx => (false, bed_idx)
  | plate :: rest, i, bed_idx =>
    if plate.is_locked then bed_index_scan rest (i + 1) (bed_idx + 1)
    else if to_unsigned bed_idx ≤ (i : Int) then (true, bed_idx)
    else bed_index_scan rest (i + 1) bed_idx

/-- The calls of `create_plate(false)` that end
`postprocess_bed_index_for_selected`, on the number of plates: `create_plate`
returns -1 and creates nothing when the list holds `MAX_PLATES_COUNT` plates,
else it appends one plate and returns its index. Result: the number of plates
afterwards. At most `max_plates_count + 1` calls are made. -/
def create_plates_until (max_plates_count : Nat) (bed_idx : Int) : Nat → Nat → Nat
  | 0, count => count
  | calls + 1, count =>
    if count ≥ max_plates_count then count
    else if bed_idx ≤ (count : Int) then count + 1
    else create_plates_until max_plates_count bed_idx calls (count + 1)

/-- Source function `PartPlateList::postprocess_bed_index_for_selected`: the polygon and the
number of plates after the call. -/
def postprocess_bed_index_for_selected (grid : ArrangeGrid) (l : PartPlateList)
    (arrange_polygon : ArrangePolygon) : ArrangePolygon × Nat :=
  if arrange_polygon.bed_idx = -1 then (arrange_polygon, l.m_plate_list.length)
  else
    let r := bed_index_scan l.m_plate_list 0 arrange_polygon.bed_idx
    let arrange_polygon := { arrange_polygon with bed_idx := r.2 }
    if r.1 then (arrange_polygon, l.m_plate_list.length)
    else
      (arrange_polygon,
        create_plates_until grid.max_plates_count arrange_polygon.bed_idx
          (grid.max_plates_count + 1) l.m_plate_list.length)

/-- Source function `PartPlateList::postprocess_bed_index_for_unselected`. -/
def postprocess_bed_index_for_unselected (grid : ArrangeGrid) (l : PartPlateList)
    (arrange_polygon : ArrangePolygon) : ArrangePolygon :=
  if arrange_polygon.bed_idx = (grid.max_plates_count : Int) then arrange_polygon
  else
    { arrange_polygon with
      bed_idx := (bed_index_scan l.m_plate_list 0 arrange_polygon.bed_idx).2 }

end PartPlateList

/-- The plate is not locked. -/
def Unlocked (p : PartPlate) : Bool := !p.is_locked

/-! ## Moving a plate inside the list -/

namespace PlateListState

/-- The loop of `move_plate_to_index`, `count` iterations from position `i` on:
`m_plate_list[i] = m_plate_list[i + delta]` and `m_plate_list[i]->set_index(i)`.
Position `i + delta` still refers to the same plate, so its entry carries the
new index as well until the next assignment replaces it. `none` for an access
outside the list. -/
def move_loop (delta : Int) : Nat → Nat → List PlateEntry → Option (List PlateEntry)
  | 0, _, plates => some plates
  | count + 1, i, plates =>
    let j := ((i : Int) + delta).toNat
    match plates[j]? with
    | none => none
    | some next =>
      if i < plates.length ∧ 0 ≤ (i : Int) + delta then
        let moved := { next with m_plate_index := (i : Int) }
        move_loop delta count j ((plates.set i moved).set j moved)
      else none

/-- Source function `PartPlateList::move_plate_to_index`: status and state, `none` when a
position outside the list is accessed. The loop
`for (i = old_index; i != new_index; i = i + delta)` makes
`|new_index - old_index|` iterations. -/
def move_plate_to_index (s : PlateListState) (old_index new_index : Int) :
    Option (Int × PlateListState) :=
  if old_index = new_index then some (-1, s)
  else
    let delta : Int := if old_index < new_index then 1 else -1
    if 0 ≤ old_index ∧ 0 ≤ new_index ∧ new_index < s.m_plate_list.length then
      match s.m_plate_list[old_index.toNat]? with
      | none => none
      | some plate =>
        match move_loop delta (new_index - old_index).natAbs old_index.toNat s.m_plate_list with
        | none => none
        | some plates =>
          some (0,
            { s with
              m_plate_list :=
                plates.set new_index.toNat { plate with m_plate_index := new_index } })
    else none

end PlateListState

/-- List states reachable from the constructor's `init()` by any sequence of
`create_plate`, `delete_plate` and `move_plate_to_index` calls that stay inside
the list (calls that fail leave the state as it is). -/
inductive ReachableByPlateMoves : PlateListState → Prop
  | construct (is_fff : Bool) (max_plates_count : Nat) :
      ReachableByPlateMoves (PlateListState.construct is_fff max_plates_count)
  | create_plate (s : PlateListState) (adjust_position : Bool) :
      ReachableByPlateMoves s →
      ReachableByPlateMoves (PlateListState.create_plate s adjust_position).2
  | delete_plate (s : PlateListState) (index : Int) :
      ReachableByPlateMoves s → ReachableByPlateMoves (PlateListState.delete_plate s index).2
  | move_plate_to_index (s : PlateListState) (old_index new_index : Int)
      (r : Int × PlateListState) :
      ReachableByPlateMoves s →
      PlateListState.move_plate_to_index s old_index new_index = some r →
      ReachableByPlateMoves r.2

/-- Every plate of the list carries its position as `m_plate_index`. -/
def IndexAligned (plates : List PlateEntry) : Prop :=
  ∀ (i : Nat) (plate : PlateEntry), plates[i]? = some plate → plate.m_plate_index = (i : Int)

/-- Position, in the list before the move of the plate at `old_index` to
`new_index`, of the plate that is to stand at position `n` afterwards. -/
def moved_from (old_index new_index n : Nat) : Nat :=
  if n = new_index then old_index
  else if old_index ≤ n ∧ n < new_index then n + 1
  else if new_index < n ∧ n ≤ old_index then n - 1
  else n

/-! ## Sample data used to evaluate the definitions -/

/-- Smallest value of `f` over a list of points (0 for the empty list). -/
def Polygon.coord_min (f : Int × Int → Int) (poly : Polygon) : Int :=
  (poly.map f).foldl min ((poly.map f).headD 0)

/-- Largest value of `f` over a list of points (0 for the empty list). -/
def Polygon.coord_max (f : Int × Int → Int) (poly : Polygon) : Int :=
  (poly.map f).foldl max ((poly.map f).headD 0)

/-- A geometry in which the mesh of an instance is a box: the instance box is
the mesh translated by the offset, the hull is the rectangle below it, and a hull
overlaps an exclusion box when the two rectangles share interior points. -/
def boxGeometry : Geometry where
  instance_convex_hull_bounding_box := fun i =>
    ⟨⟨i.mesh.min.x + i.offset.x, i.mesh.min.y + i.offset.y, i.mesh.min.z + i.offset.z⟩,
     ⟨i.mesh.max.x + i.offset.x, i.mesh.max.y + i.offset.y, i.mesh.max.z + i.offset.z⟩⟩
  convex_hull_2d := fun i =>
    [(i.mesh.min.x + i.offset.x, i.mesh.min.y + i.offset.y),
     (i.mesh.max.x + i.offset.x, i.mesh.min.y + i.offset.y),
     (i.mesh.max.x + i.offset.x, i.mesh.max.y + i.offset.y),
     (i.mesh.min.x + i.offset.x, i.mesh.max.y + i.offset.y)]
  hull_overlaps := fun b hull =>
    decide (b.min.x < hull.coord_max Prod.fst ∧ hull.coord_min Prod.fst < b.max.x ∧
      b.min.y < hull.coord_max Prod.snd ∧ hull.coord_min Prod.snd < b.max.y)

/-- A cube of side 10 whose lower corner is at `(x, y, z)`. -/
def cubeAt (x y z : Int) : ModelInstance :=
  ⟨⟨x, y, z⟩, ⟨⟨0, 0, 0⟩, ⟨10, 10, 10⟩⟩, true⟩

/-- A model of single-instance cubes, one object per given corner. -/
def cubesModel (corners : List (Int × Int × Int)) : Model :=
  ⟨corners.map (fun c => ⟨[cubeAt c.1 c.2.1 c.2.2]⟩)⟩

/-- A printable 200 x 200 x 200 plate at the origin without exclusion zones. -/
def samplePlate : PartPlate :=
  PartPlate.init ⟨0, 0, 0⟩ true ⟨⟨0, 0, 0⟩, ⟨200, 200, 0⟩⟩ ⟨⟨0, 0, 0⟩, ⟨200, 200, 200⟩⟩ []

/-- The sample plate after `add_instance(0, 0)` of a cube lying beside the plate. -/
def plateWithOutsideCube : PartPlate :=
  (PartPlate.add_instance boxGeometry (cubesModel [(300, 0, 0)]) samplePlate 0 0 false none).2.1

/-- The plate of `plateWithOutsideCube` after `clear(false)`. -/
def plateClearedKeepingResult : PartPlate :=
  PartPlate.clear plateWithOutsideCube false

/-- The sample plate after `add_instance(0, 0)` and `add_instance(1, 0)` of two
cubes on the plate. -/
def plateWithTwoCubes : PartPlate :=
  (PartPlate.add_instance boxGeometry (cubesModel [(30, 0, 0), (60, 0, 0)])
    (PartPlate.add_instance boxGeometry (cubesModel [(30, 0, 0), (60, 0, 0)])
      samplePlate 0 0 false none).2.1 1 0 false none).2.1

/-- The plate of `plateWithTwoCubes` after the second cube has been dragged
beside the plate and `update_instance_exclude_status(1, 0)` has run. -/
def plateAfterDragOut : PartPlate :=
  PartPlate.update_instance_exclude_status boxGeometry (cubesModel [(30, 0, 0), (300, 0, 0)])
    plateWithTwoCubes 1 0 none

/-- The sample plate after `add_instance(0, 0)` of a cube on the plate and
`add_instance(1, 0)` of a cube beside it. -/
def plateWithInsideAndOutsideCube : PartPlate :=
  (PartPlate.add_instance boxGeometry (cubesModel [(30, 0, 0), (300, 0, 0)])
    (PartPlate.add_instance boxGeometry (cubesModel [(30, 0, 0), (300, 0, 0)])
      samplePlate 0 0 false none).2.1 1 0 false none).2.1

/-- The unprintable plate beside the sample plate. -/
def sampleUnprintablePlate : PartPlate :=
  PartPlate.init ⟨240, 0, 0⟩ false ⟨⟨240, 0, 0⟩, ⟨440, 200, 0⟩⟩ ⟨⟨240, 0, 0⟩, ⟨440, 200, 200⟩⟩ []

/-- A list holding the sample plate and its unprintable plate, all sets empty. -/
def sampleList : PartPlateList :=
  ⟨[samplePlate], sampleUnprintablePlate, 1⟩

/-- The header defaults of the original program: `clear()` also clears the
slice result, `update_slice_result_valid_state()` invalidates it. -/
def sampleDefaults : HeaderDefaults := ⟨true, false⟩

/-- The sample list after `notify_instance_update(0, 0)` for a cube beside the
plate (it lands on the unprintable plate) and `add_to_plate(0, 0, 0)`. -/
def listAfterAddToPlate : PartPlateList :=
  (PartPlateList.add_to_plate boxGeometry (cubesModel [(300, 0, 0)])
    (PartPlateList.notify_instance_update sampleDefaults boxGeometry (cubesModel [(300, 0, 0)])
      sampleList 0 0 true).2 0 0 0).2.1

/-- A model whose object 2 has two instances. -/
def modelWithTwoInstances : Model :=
  ⟨[⟨[cubeAt 10 10 0]⟩, ⟨[cubeAt 30 10 0]⟩, ⟨[cubeAt 50 10 0, cubeAt 70 10 0]⟩,
    ⟨[cubeAt 90 10 0]⟩]⟩

/-- The sample plate after `add_instance` of `(1, 0)`, `(2, 0)`, `(2, 1)` and
`(3, 0)` of `modelWithTwoInstances`, and `remove_instance(2, 0)`: the state in
which `notify_instance_removed(2, -1)` calls `update_object_index(2, _)`. -/
def plateBeforeRenumbering : PartPlate :=
  (PartPlate.remove_instance
    ([((1 : Int), (0 : Int)), (2, 0), (2, 1), (3, 0)].foldl
      (fun pl pr =>
        (PartPlate.add_instance boxGeometry modelWithTwoInstances pl pr.1 pr.2 false none).2.1)
      samplePlate) 2 0).2

/-- The sample plate tracking instance 0 of the objects 0, 1, 3 and 4. -/
def plateWithoutObjectTwo : PartPlate :=
  { samplePlate with
    obj_to_instance_set := {(0, 0), (1, 0), (3, 0), (4, 0)},
    instance_outside_set := {(4, 0)},
    m_ready_for_slice := false }

/-- A cube on the sample plate that sinks 5 below the bed. -/
def sinkingCubeModel : Model := cubesModel [(30, 30, -5)]

/-- The sample plate with an exclusion zone in its front-left corner. -/
def plateWithExclusion : PartPlate :=
  PartPlate.init ⟨0, 0, 0⟩ true ⟨⟨0, 0, 0⟩, ⟨200, 200, 0⟩⟩ ⟨⟨0, 0, 0⟩, ⟨200, 200, 200⟩⟩
    [⟨⟨0, 0, 0⟩, ⟨20, 20, 200⟩⟩]

/-- A plate config in manual mode with an own filament map. -/
def manualPlateConfig : PlateConfig :=
  ⟨some FilamentMapMode.fmmManual, some [1, 2]⟩

/-- A project with two filaments: PLA may only go to the right nozzle, TPU only
to the left one. -/
def twoFilamentConfig : GlobalConfig :=
  { filament_map_mode := FilamentMapMode.fmmAutoForFlush,
    filament_map := [1, 1],
    filament_type := ["PLA", "TPU"],
    filament_printable := [2, 1],
    physical_extruder_map := some [1, 0] }

/-- An object-less G-code project whose file lists filament 2 before filament 1. -/
def gcodeSources : ExtruderSources := ⟨true, true, [1, 0], []⟩

/-- A project with objects that use filament 2, then 1, then 2 again. -/
def objectSources : ExtruderSources := ⟨false, false, [], [2, 1, 2]⟩

/-- A layer range with the volumes 3, 7 and 12. -/
def sampleLayerRange : LayerRangeRegions := ⟨[⟨3, 0⟩, ⟨7, 1⟩, ⟨12, 2⟩]⟩

/-- The list of an FFF printer after its constructor, `create_plate` twice. -/
def threePlates : PlateListState :=
  (PlateListState.create_plate
    (PlateListState.create_plate (PlateListState.construct true 36) true).2 true).2

/-- A list of two plates whose second plate carries index 0. -/
def misnumberedPlates : PlateListState :=
  { PlateListState.construct true 36 with
    m_plate_list := [⟨0, 0, 0, some 1, some 2⟩, ⟨3, 0, 1, some 4, some 5⟩],
    m_print_list := [(0, 1), (1, 4)], m_gcode_result_list := [(0, 2), (1, 5)],
    m_print_index := 2, m_plate_count := 2, unprintable_plate_index := 2, heap_next := 6 }

/-- Services of a printer on which the high-flow nozzle (type 1) of 0.2 mm
cannot print two filaments and the standard nozzle (type 0) cannot print one. -/
def sampleNozzleServices : NozzleServices where
  get_incompatible_filaments_by_nozzle := fun _ volume_type =>
    if volume_type = 1 then ["PLA-CF", "TPU"]
    else if volume_type = 0 then ["PA6-GF"] else []
  format_diameter := fun d => if d = 2 then "0.2" else "0.4"
  nozzle_volume_type_string := fun volume_type =>
    if volume_type = 1 then "High Flow" else "Standard"


/-- A sample of `can_slice()`: the plate's ready flag. -/
def sampleCanSlice (p : PartPlate) : Bool := p.m_ready_for_slice

/-- A list of two plates: the empty sample plate and a plate whose only cube
lies beside it. -/
def readyAndBlockedPlates : PartPlateList :=
  ⟨[samplePlate, plateWithOutsideCube], sampleUnprintablePlate, 2⟩

/-- A plate whose first layer prints the filaments in the order 3, 1, 4, 2 and
whose layers 2 to 5 print them in the order 4, 3, 2, 1. -/
def fourFilamentSequences : SequenceConfig :=
  ⟨some [3, 1, 4, 2], [((2, 5), [4, 3, 2, 1])]⟩

/-- A grid of two columns for at most 36 plates of stride 240. -/
def sampleGrid : ArrangeGrid := ⟨36, 2, fun col => 240 * col, fun row => 240 * row⟩

/-- A list of four plates: the second one is locked, the third one tracks the
instance `(0, 0)`. -/
def plateListWithLockedPlate : PartPlateList :=
  ⟨[samplePlate, { samplePlate with m_locked := true, m_plate_index := 1 },
      { samplePlate with obj_to_instance_set := {(0, 0)}, m_plate_index := 2 },
      { samplePlate with m_plate_index := 3 }],
    sampleUnprintablePlate, 4⟩

/-- An arrange polygon at the origin with bed index 0. -/
def samplePolygon : ArrangePolygon := ⟨(0, 0), 0, 0, 0⟩

/-! ## Basic facts about the tracking sets -/

theorem mem_sortedPairs (s : Finset (Int × Int)) (pr : Int × Int) :
    pr ∈ sortedPairs s ↔ pr ∈ s := by
  obtain ⟨v, nd⟩ := s
  induction v using Quotient.inductionOn with
  | _ l => exact (List.perm_insertionSort pairLe l).mem_iff

theorem mem_foldl_insert {α β : Type} [DecidableEq β] (f : α → β) (l : List α)
    (acc : Finset β) (b : β) :
    b ∈ l.foldl (fun t a => insert (f a) t) acc ↔ b ∈ acc ∨ ∃ a ∈ l, f a = b := by
  induction l generalizing acc with
  | nil => simp
  | cons a l ih =>
    simp only [List.foldl_cons, ih, Finset.mem_insert, List.mem_cons, exists_eq_or_imp]
    constructor
    · rintro ((h | h) | h)
      · exact Or.inr (Or.inl h.symm)
      · exact Or.inl h
      · exact Or.inr (Or.inr h)
    · rintro (h | h | h)
      · exact Or.inl (Or.inr h)
      · exact Or.inl (Or.inl h.symm)
      · exact Or.inr h

namespace PartPlate

theorem mem_reindex_set (s : Finset (Int × Int)) (r : Int) (q : Int × Int) :
    q ∈ reindex_set s r ↔
      ∃ pr ∈ s, (if pr.1 ≥ r then (pr.1 - 1, pr.2) else (pr.1, pr.2)) = q := by
  have hfun : (fun (temp_set : Finset (Int × Int)) (it : Int × Int) =>
      if it.1 ≥ r then insert (it.1 - 1, it.2) temp_set else insert (it.1, it.2) temp_set) =
      (fun temp_set it =>
        insert (if it.1 ≥ r then (it.1 - 1, it.2) else (it.1, it.2)) temp_set) := by
    funext t it
    split <;> rfl
  unfold reindex_set
  rw [hfun, mem_foldl_insert]
  simp [mem_sortedPairs]

theorem update_states_ready (p : PartPlate) :
    (update_states p).m_ready_for_slice = true ↔ NoTrackedOutside p := by
  simp [update_states, NoTrackedOutside, List.all_eq_true, mem_sortedPairs]

theorem valid_instance_iff (m : Model) (obj_id instance_id : Int) :
    valid_instance m obj_id instance_id = true ↔ ValidIndex m obj_id instance_id := by
  unfold valid_instance ValidIndex Model.object
  by_cases h : 0 ≤ obj_id ∧ obj_id < m.objects.length
  · obtain ⟨h0, h1⟩ := h
    have hlt : obj_id.toNat < m.objects.length := by omega
    simp [h0, h1, List.getD_eq_getElem?_getD, List.getElem?_eq_getElem hlt]
  · simp only [h, if_false]
    constructor
    · intro hf; exact absurd hf (by simp)
    · rintro ⟨h0, h1, _⟩; exact absurd ⟨h0, h1⟩ h

/-! ## Effect of `add_instance` and `remove_instance` on the tracked state -/

theorem check_outside_congr (g : Geometry) (m : Model) (p q : PartPlate) (o i : Int)
    (bb : Option BoundingBoxf3) (h1 : p.plate_box = q.plate_box)
    (h2 : p.m_exclude_bounding_box = q.m_exclude_bounding_box) :
    check_outside g m p o i bb = check_outside g m q o i bb := by
  unfold check_outside
  rw [h1, h2]

theorem add_instance_invalid (g : Geometry) (m : Model) (p : PartPlate) (o i : Int)
    (mv : Bool) (bb : Option BoundingBoxf3) (h : valid_instance m o i = false) :
    add_instance g m p o i mv bb = (-1, p, m) := by
  simp [add_instance, h]

theorem add_instance_status_valid (g : Geometry) (m : Model) (p : PartPlate) (o i : Int)
    (mv : Bool) (bb : Option BoundingBoxf3) (h : valid_instance m o i = true) :
    (add_instance g m p o i mv bb).1 = 0 := by
  simp [add_instance, h]

theorem add_instance_frame (g : Geometry) (m : Model) (p : PartPlate) (o i : Int)
    (mv : Bool) (bb : Option BoundingBoxf3) :
    let q := (add_instance g m p o i mv bb).2.1
    q.plate_box = p.plate_box ∧ q.m_exclude_bounding_box = p.m_exclude_bounding_box ∧
    q.m_slice_result_valid = p.m_slice_result_valid ∧ q.m_slice_percent = p.m_slice_percent ∧
    q.m_locked = p.m_locked := by
  unfold add_instance
  by_cases h : valid_instance m o i = true
  · simp only [h]
    simp only [Bool.not_true, Bool.false_eq_true, if_false]
    split_ifs <;> simp
  · simp [h]

theorem add_instance_obj (g : Geometry) (m : Model) (p : PartPlate) (o i : Int)
    (mv : Bool) (bb : Option BoundingBoxf3) (h : valid_instance m o i = true) :
    (add_instance g m p o i mv bb).2.1.obj_to_instance_set = insert (o, i) p.obj_to_instance_set := by
  unfold add_instance
  simp only [h, Bool.not_true, Bool.false_eq_true, if_false]
  split_ifs <;> simp

theorem add_instance_out (g : Geometry) (m : Model) (p : PartPlate) (o i : Int)
    (mv : Bool) (bb : Option BoundingBoxf3) (h : valid_instance m o i = true) :
    (add_instance g m p o i mv bb).2.1.instance_outside_set =
      if check_outside g (add_instance g m p o i mv bb).2.2 p o i bb then
        insert (o, i) p.instance_outside_set
      else p.instance_outside_set := by
  unfold add_instance
  simp only [h, Bool.not_true, Bool.false_eq_true, if_false]
  rw [check_outside_congr g _ { p with obj_to_instance_set := insert (o, i) p.obj_to_instance_set } p o i bb rfl rfl]
  split_ifs <;> simp_all


theorem add_instance_ready (g : Geometry) (m : Model) (p : PartPlate) (o i : Int)
    (mv : Bool) (bb : Option BoundingBoxf3) (h : valid_instance m o i = true) :
    (add_instance g m p o i mv bb).2.1.m_ready_for_slice =
      if p.m_ready_for_slice && check_outside g (add_instance g m p o i mv bb).2.2 p o i bb then
        false
      else if (insert (o, i) p.obj_to_instance_set).card == 1 && !p.m_ready_for_slice &&
          !check_outside g (add_instance g m p o i mv bb).2.2 p o i bb then true
      else p.m_ready_for_slice := by
  unfold add_instance
  simp only [h, Bool.not_true, Bool.false_eq_true, if_false]
  rw [check_outside_congr g _ { p with obj_to_instance_set := insert (o, i) p.obj_to_instance_set } p o i bb rfl rfl]
  split_ifs <;> simp_all

/-- The flag agrees with the sets, and only tracked pairs are flagged outside. -/
theorem synced_add_instance (g : Geometry) (m : Model) (p : PartPlate) (o i : Int)
    (mv : Bool) (bb : Option BoundingBoxf3)
    (h1 : p.m_ready_for_slice = true ↔ NoTrackedOutside p)
    (h2 : p.instance_outside_set ⊆ p.obj_to_instance_set)
    (hn : (o, i) ∉ p.instance_outside_set) :
    let q := (add_instance g m p o i mv bb).2.1
    (q.m_ready_for_slice = true ↔ NoTrackedOutside q) ∧
      q.instance_outside_set ⊆ q.obj_to_instance_set := by
  intro q
  by_cases hv : valid_instance m o i = true
  · have hobj := add_instance_obj g m p o i mv bb hv
    have hout := add_instance_out g m p o i mv bb hv
    have hrdy := add_instance_ready g m p o i mv bb hv
    simp only [q, NoTrackedOutside] at *
    rw [hobj, hout, hrdy]
    cases hc : check_outside g (add_instance g m p o i mv bb).2.2 p o i bb
    · -- not outside
      simp only [Bool.and_false, Bool.false_eq_true, if_false, Bool.not_false, Bool.and_true]
      refine ⟨?_, fun x hx => Finset.mem_insert_of_mem (h2 hx)⟩
      by_cases hr : p.m_ready_for_slice = true
      · simp only [hr, Bool.not_true, Bool.and_false, Bool.false_eq_true, if_false, true_iff]
        intro pr hpr
        rcases Finset.mem_insert.1 hpr with rfl | hpr
        · exact hn
        · exact h1.1 hr pr hpr
      · have hr2 : p.m_ready_for_slice = false := by simpa using hr
        have hex : ¬ ∀ pr ∈ p.obj_to_instance_set, pr ∉ p.instance_outside_set :=
          fun hall => hr (h1.2 hall)
        push_neg at hex
        obtain ⟨pr, hpr, hpo⟩ := hex
        have hne : pr ≠ (o, i) := fun he => hn (he ▸ hpo)
        have hcard : (insert (o, i) p.obj_to_instance_set).card ≠ 1 := by
          intro hc1
          rw [Finset.card_eq_one] at hc1
          obtain ⟨a, ha⟩ := hc1
          have e1 : (o, i) = a := by
            have := Finset.mem_insert_self (o, i) p.obj_to_instance_set
            rw [ha] at this; exact Finset.mem_singleton.1 this
          have e2 : pr = a := by
            have := Finset.mem_insert_of_mem (b := (o, i)) hpr
            rw [ha] at this; exact Finset.mem_singleton.1 this
          exact hne (e2.trans e1.symm)
        simp only [hr2, Bool.not_false, Bool.and_true, beq_iff_eq, hcard, if_false,
          Bool.false_eq_true, false_iff]
        intro hall
        exact hall pr (Finset.mem_insert_of_mem hpr) hpo
    · -- outside
      simp only [Bool.and_true, Bool.not_true, Bool.and_false, Bool.false_eq_true, if_false,
        if_true]
      refine ⟨?_, Finset.insert_subset_insert _ h2⟩
      have hbad : ¬ ∀ pr ∈ insert (o, i) p.obj_to_instance_set,
          pr ∉ insert (o, i) p.instance_outside_set :=
        fun hall => hall (o, i) (Finset.mem_insert_self _ _) (Finset.mem_insert_self _ _)
      by_cases hr : p.m_ready_for_slice = true
      · simp [hr, hbad]
      · simp [hr, hbad]
  · have hv2 : valid_instance m o i = false := by simpa using hv
    simp only [q, add_instance_invalid g m p o i mv bb hv2]
    exact ⟨h1, h2⟩


theorem remove_instance_untracked (p : PartPlate) (o i : Int)
    (h : (o, i) ∉ p.obj_to_instance_set) : remove_instance p o i = (1, p) := by
  simp [remove_instance, h]

theorem remove_instance_obj (p : PartPlate) (o i : Int) (h : (o, i) ∈ p.obj_to_instance_set) :
    (remove_instance p o i).2.obj_to_instance_set = p.obj_to_instance_set.erase (o, i) := by
  unfold remove_instance
  simp only [h, if_true]
  split_ifs <;> simp [update_states]

theorem remove_instance_out (p : PartPlate) (o i : Int) (h : (o, i) ∈ p.obj_to_instance_set) :
    (remove_instance p o i).2.instance_outside_set = p.instance_outside_set.erase (o, i) := by
  unfold remove_instance
  simp only [h, if_true]
  split_ifs with h1 h2 h2 <;> simp_all [update_states]

theorem remove_instance_ready_of_ready (p : PartPlate) (o i : Int)
    (hr : p.m_ready_for_slice = true) :
    (remove_instance p o i).2.m_ready_for_slice = true := by
  unfold remove_instance
  dsimp only
  split_ifs <;> simp_all

theorem remove_instance_ready_of_not_ready (p : PartPlate) (o i : Int)
    (h : (o, i) ∈ p.obj_to_instance_set) (hr : p.m_ready_for_slice = false) :
    (remove_instance p o i).2.m_ready_for_slice = true ↔
      NoTrackedOutside (remove_instance p o i).2 := by
  have hobj := remove_instance_obj p o i h
  have hout := remove_instance_out p o i h
  unfold NoTrackedOutside
  rw [hobj, hout]
  unfold remove_instance
  simp only [h, if_true]
  split_ifs with h1 h2 h2
  · rw [update_states_ready]; simp [NoTrackedOutside]
  · simp [hr] at h2
  · rw [update_states_ready]; simp [NoTrackedOutside, Finset.erase_eq_of_not_mem h1]
  · simp [hr] at h2

theorem synced_remove_instance (p : PartPlate) (o i : Int)
    (h1 : p.m_ready_for_slice = true ↔ NoTrackedOutside p)
    (h2 : p.instance_outside_set ⊆ p.obj_to_instance_set) :
    let q := (remove_instance p o i).2
    (q.m_ready_for_slice = true ↔ NoTrackedOutside q) ∧
      q.instance_outside_set ⊆ q.obj_to_instance_set := by
  intro q
  by_cases h : (o, i) ∈ p.obj_to_instance_set
  · refine ⟨?_, ?_⟩
    · by_cases hr : p.m_ready_for_slice = true
      · have hq := remove_instance_ready_of_ready p o i hr
        simp only [q, hq, true_iff, NoTrackedOutside, remove_instance_obj p o i h,
          remove_instance_out p o i h]
        intro pr hpr hpo
        exact h1.1 hr pr (Finset.mem_of_mem_erase hpr) (Finset.mem_of_mem_erase hpo)
      · exact remove_instance_ready_of_not_ready p o i h (by simpa using hr)
    · simp only [q, remove_instance_obj p o i h, remove_instance_out p o i h]
      exact Finset.erase_subset_erase _ h2
  · simp only [q, remove_instance_untracked p o i h]
    exact ⟨h1, h2⟩

theorem synced_update_object_index (p : PartPlate) (r mx : Int)
    (h1 : p.m_ready_for_slice = true ↔ NoTrackedOutside p)
    (h2 : p.instance_outside_set ⊆ p.obj_to_instance_set) :
    let q := update_object_index p r mx
    (q.m_ready_for_slice = true ↔ NoTrackedOutside q) ∧
      q.instance_outside_set ⊆ q.obj_to_instance_set := by
  intro q
  have hsub : q.instance_outside_set ⊆ q.obj_to_instance_set := by
    intro x hx
    simp only [q, update_object_index, mem_reindex_set] at hx ⊢
    obtain ⟨pr, hpr, he⟩ := hx
    exact ⟨pr, h2 hpr, he⟩
  refine ⟨?_, hsub⟩
  have hrdy : q.m_ready_for_slice = p.m_ready_for_slice := rfl
  rw [hrdy, h1]
  constructor
  · intro hall
    have hempty : p.instance_outside_set = ∅ := by
      apply Finset.eq_empty_of_forall_not_mem
      intro x hx
      exact hall x (h2 hx) hx
    intro x _ hx
    simp only [q, update_object_index, mem_reindex_set, hempty] at hx
    simp at hx
  · intro hall pr hpr hpo
    refine hall (if pr.1 ≥ r then (pr.1 - 1, pr.2) else (pr.1, pr.2)) ?_ ?_
    · simp only [q, update_object_index, mem_reindex_set]; exact ⟨pr, hpr, rfl⟩
    · simp only [q, update_object_index, mem_reindex_set]; exact ⟨pr, hpo, rfl⟩

theorem synced_update_states (p : PartPlate)
    (h2 : p.instance_outside_set ⊆ p.obj_to_instance_set) :
    let q := update_states p
    (q.m_ready_for_slice = true ↔ NoTrackedOutside q) ∧
      q.instance_outside_set ⊆ q.obj_to_instance_set := by
  intro q
  exact ⟨update_states_ready p, h2⟩

theorem update_instance_exclude_status_subset (g : Geometry) (m : Model) (p : PartPlate)
    (o i : Int) (bb : Option BoundingBoxf3)
    (h2 : p.instance_outside_set ⊆ p.obj_to_instance_set)
    (h : (o, i) ∈ p.obj_to_instance_set) :
    let q := update_instance_exclude_status g m p o i bb
    q.instance_outside_set ⊆ q.obj_to_instance_set := by
  intro q
  simp only [q, update_instance_exclude_status]
  split_ifs <;>
    first
    | exact h2
    | exact Finset.insert_subset h h2
    | exact (Finset.erase_subset _ _).trans h2

/-- In a synced reachable state the flag agrees with the sets and only tracked
pairs are flagged outside. -/
theorem synced_of_reachable (p : PartPlate) (h : ReachableSynced p) :
    (p.m_ready_for_slice = true ↔ NoTrackedOutside p) ∧
      p.instance_outside_set ⊆ p.obj_to_instance_set := by
  induction h with
  | init origin printable shape_box plate_box exclude =>
    simp [PartPlate.init, NoTrackedOutside]
  | add_instance g m p o i mv bb _ hn ih => exact synced_add_instance g m p o i mv bb ih.1 ih.2 hn
  | remove_instance p o i _ ih => exact synced_remove_instance p o i ih.1 ih.2
  | clear_true p _ _ =>
    simp [PartPlate.clear, update_slice_result_valid_state, NoTrackedOutside]
  | clear_false_then_update_states p _ _ =>
    exact synced_update_states _ (by simp [PartPlate.clear])
  | update_instance_exclude_status_then_update_states g m p o i bb _ ht ih =>
    exact synced_update_states _ (update_instance_exclude_status_subset g m p o i bb ih.2 ht)
  | update_states p _ ih => exact synced_update_states p ih.2
  | update_object_index p r mx _ ih => exact synced_update_object_index p r mx ih.1 ih.2


/-! ## Ready-for-slice flag and the tracking sets -/

/-- C1, as stated, fails: after `init()`, `add_instance(0, 0)` of an instance
lying outside the plate and `clear(false)`, both sets are empty, so no tracked
pair is flagged outside, yet `m_ready_for_slice` is still false. -/
theorem ready_flag_stale_after_clear_false :
    Reachable plateClearedKeepingResult ∧
      ¬ (plateClearedKeepingResult.m_ready_for_slice = true ↔
          NoTrackedOutside plateClearedKeepingResult) := by
  refine ⟨?_, by decide⟩
  exact Reachable.clear _ false
    (Reachable.add_instance boxGeometry (cubesModel [(300, 0, 0)]) samplePlate 0 0 false none
      (Reachable.init _ _ _ _ _))

/-- C1 (amended): in every plate state reachable from `init()` by
`add_instance` on a pair not currently in `instance_outside_set`,
`remove_instance`, `clear(true)`, `update_states`, `update_object_index`, and by
`clear(false)` or `update_instance_exclude_status` on a tracked pair when
directly followed by `update_states`, `m_ready_for_slice` is true if and only if
no pair of `obj_to_instance_set` is in `instance_outside_set`. -/
theorem ready_flag_iff_no_tracked_outside (p : PartPlate) (h : ReachableSynced p) :
    p.m_ready_for_slice = true ↔ NoTrackedOutside p :=
  (synced_of_reachable p h).1

/-- Instance of the amended C1 at the plate that tracks one outside cube. -/
theorem ready_flag_iff_no_tracked_outside_witness :
    ReachableSynced plateWithOutsideCube ∧
      (plateWithOutsideCube.m_ready_for_slice = true ↔ NoTrackedOutside plateWithOutsideCube) :=
  have h : ReachableSynced plateWithOutsideCube :=
    ReachableSynced.add_instance boxGeometry (cubesModel [(300, 0, 0)]) samplePlate 0 0 false
      none (ReachableSynced.init _ _ _ _ _) (by decide)
  ⟨h, ready_flag_iff_no_tracked_outside plateWithOutsideCube h⟩

/-- C2: `add_instance` returns -1 and leaves both sets and the flag unchanged
exactly when the pair is not a valid index into the model; for a valid pair it
returns 0, the pair is tracked afterwards, and it is flagged outside whenever
`check_outside` (on the plate and model after the call) reports it outside. -/
theorem add_instance_status_and_tracking (g : Geometry) (m : Model) (p : PartPlate)
    (obj_id instance_id : Int) (move_position : Bool) (bounding_box : Option BoundingBoxf3) :
    (((add_instance g m p obj_id instance_id move_position bounding_box).1 = -1 ∧
        (add_instance g m p obj_id instance_id move_position bounding_box).2.1.obj_to_instance_set
          = p.obj_to_instance_set ∧
        (add_instance g m p obj_id instance_id move_position bounding_box).2.1.instance_outside_set
          = p.instance_outside_set ∧
        (add_instance g m p obj_id instance_id move_position bounding_box).2.1.m_ready_for_slice
          = p.m_ready_for_slice) ↔ ¬ ValidIndex m obj_id instance_id) ∧
    (ValidIndex m obj_id instance_id →
      (add_instance g m p obj_id instance_id move_position bounding_box).1 = 0 ∧
      (obj_id, instance_id) ∈
        (add_instance g m p obj_id instance_id move_position bounding_box).2.1.obj_to_instance_set ∧
      (check_outside g (add_instance g m p obj_id instance_id move_position bounding_box).2.2
          (add_instance g m p obj_id instance_id move_position bounding_box).2.1
          obj_id instance_id bounding_box = true →
        (obj_id, instance_id) ∈
          (add_instance g m p obj_id instance_id move_position
            bounding_box).2.1.instance_outside_set)) := by
  rw [← valid_instance_iff]
  by_cases hv : valid_instance m obj_id instance_id = true
  · have hst := add_instance_status_valid g m p obj_id instance_id move_position bounding_box hv
    have hfr := add_instance_frame g m p obj_id instance_id move_position bounding_box
    refine ⟨⟨fun h => ?_, fun h => absurd hv h⟩, fun _ => ⟨hst, ?_, ?_⟩⟩
    · rw [hst] at h; exact absurd h.1 (by decide)
    · rw [add_instance_obj g m p obj_id instance_id move_position bounding_box hv]
      exact Finset.mem_insert_self _ _
    · intro hc
      rw [check_outside_congr g _ _ p obj_id instance_id bounding_box hfr.1 hfr.2.1] at hc
      rw [add_instance_out g m p obj_id instance_id move_position bounding_box hv, if_pos hc]
      exact Finset.mem_insert_self _ _
  · have hv2 : valid_instance m obj_id instance_id = false := by simpa using hv
    rw [add_instance_invalid g m p obj_id instance_id move_position bounding_box hv2]
    exact ⟨⟨fun _ => hv, fun _ => ⟨rfl, rfl, rfl, rfl⟩⟩, fun h => absurd h hv⟩

/-- Instance of C2: a cube beside the sample plate is a valid pair; the call
returns 0, tracks the pair and flags it outside. -/
theorem add_instance_status_and_tracking_witness :
    (add_instance boxGeometry (cubesModel [(300, 0, 0)]) samplePlate 0 0 false none).1 = 0 ∧
      (0, 0) ∈ plateWithOutsideCube.obj_to_instance_set ∧
      (0, 0) ∈ plateWithOutsideCube.instance_outside_set :=
  have h := (add_instance_status_and_tracking boxGeometry (cubesModel [(300, 0, 0)])
    samplePlate 0 0 false none).2 ((valid_instance_iff _ _ _).1 (by decide))
  ⟨h.1, h.2.1, h.2.2 (by decide)⟩

/-- C3, as stated, fails: on a plate tracking two instances of which the second
was dragged outside (`update_instance_exclude_status`) while the flag was
true, `remove_instance` of the first leaves the flag true although the
remaining tracked pair is in `instance_outside_set`. -/
theorem remove_instance_keeps_stale_ready_flag :
    Reachable plateAfterDragOut ∧ (0, 0) ∈ plateAfterDragOut.obj_to_instance_set ∧
      ¬ RemovesAndResyncs plateAfterDragOut 0 0 := by
  refine ⟨?_, by decide, ?_⟩
  · exact Reachable.update_instance_exclude_status _ _ _ 1 0 none
      (Reachable.add_instance _ _ _ 1 0 false none
        (Reachable.add_instance _ _ _ 0 0 false none (Reachable.init _ _ _ _ _)))
  · intro h
    have h4 := h.2.2.2
    revert h4
    decide

/-- C3 (amended): `remove_instance` on a tracked pair leaves the pair in neither
set and every other pair of both sets untouched; when before the call
`m_ready_for_slice` was false, or no other tracked pair was in
`instance_outside_set`, the flag afterwards is true exactly when no remaining
tracked pair is in `instance_outside_set`. -/
theorem remove_instance_tracked (p : PartPlate) (obj_id instance_id : Int)
    (ht : (obj_id, instance_id) ∈ p.obj_to_instance_set)
    (hpre : p.m_ready_for_slice = true →
      ∀ pr ∈ p.obj_to_instance_set, pr ≠ (obj_id, instance_id) → pr ∉ p.instance_outside_set) :
    RemovesAndResyncs p obj_id instance_id := by
  have hobj := remove_instance_obj p obj_id instance_id ht
  have hout := remove_instance_out p obj_id instance_id ht
  refine ⟨?_, ?_, ?_, ?_⟩
  · rw [hobj]; exact Finset.not_mem_erase _ _
  · rw [hout]; exact Finset.not_mem_erase _ _
  · intro pr hne
    rw [hobj, hout]
    simp [Finset.mem_erase, hne]
  · by_cases hr : p.m_ready_for_slice = true
    · simp only [remove_instance_ready_of_ready p obj_id instance_id hr, true_iff,
        NoTrackedOutside, hobj, hout]
      intro pr hpr hpo
      exact hpre hr pr (Finset.mem_of_mem_erase hpr) (Finset.ne_of_mem_erase hpr)
        (Finset.mem_of_mem_erase hpo)
    · exact remove_instance_ready_of_not_ready p obj_id instance_id ht (by simpa using hr)

/-- Instance of the amended C3: removing the outside cube from a plate that
also tracks a cube on the plate. -/
theorem remove_instance_tracked_witness :
    (1, 0) ∈ plateWithInsideAndOutsideCube.obj_to_instance_set ∧
      RemovesAndResyncs plateWithInsideAndOutsideCube 1 0 :=
  ⟨by decide, remove_instance_tracked plateWithInsideAndOutsideCube 1 0 (by decide) (by decide)⟩

/-- C4: on a plate whose flag is false and on which exactly one tracked
instance is in `instance_outside_set`, `remove_instance` of that instance sets
`m_ready_for_slice` to true. -/
theorem remove_only_outside_instance_sets_ready (p : PartPlate) (obj_id instance_id : Int)
    (ht : (obj_id, instance_id) ∈ p.obj_to_instance_set)
    (_ho : (obj_id, instance_id) ∈ p.instance_outside_set)
    (honly : ∀ pr ∈ p.obj_to_instance_set, pr ∈ p.instance_outside_set →
      pr = (obj_id, instance_id))
    (hr : p.m_ready_for_slice = false) :
    (remove_instance p obj_id instance_id).2.m_ready_for_slice = true := by
  rw [remove_instance_ready_of_not_ready p obj_id instance_id ht hr]
  unfold NoTrackedOutside
  rw [remove_instance_obj p obj_id instance_id ht, remove_instance_out p obj_id instance_id ht]
  intro pr hpr hpo
  exact Finset.ne_of_mem_erase hpr
    (honly pr (Finset.mem_of_mem_erase hpr) (Finset.mem_of_mem_erase hpo))

/-- Instance of C4 with two tracked instances, the second one outside. -/
theorem remove_only_outside_instance_sets_ready_witness :
    plateWithInsideAndOutsideCube.obj_to_instance_set.card = 2 ∧
      plateWithInsideAndOutsideCube.m_ready_for_slice = false ∧
      (remove_instance plateWithInsideAndOutsideCube 1 0).2.m_ready_for_slice = true :=
  ⟨by decide, by decide,
    remove_only_outside_instance_sets_ready plateWithInsideAndOutsideCube 1 0
      (by decide) (by decide) (by decide) (by decide)⟩

/-- C5: `add_instance` never changes `m_slice_result_valid`, `m_slice_percent`
or `m_locked`, whatever the plate state and the arguments, hence also when the
call flips `m_ready_for_slice` from true to false. -/
theorem add_instance_keeps_slice_result (g : Geometry) (m : Model) (p : PartPlate)
    (obj_id instance_id : Int) (move_position : Bool) (bounding_box : Option BoundingBoxf3) :
    (add_instance g m p obj_id instance_id move_position bounding_box).2.1.m_slice_result_valid
        = p.m_slice_result_valid ∧
      (add_instance g m p obj_id instance_id move_position bounding_box).2.1.m_slice_percent
        = p.m_slice_percent ∧
      (add_instance g m p obj_id instance_id move_position bounding_box).2.1.m_locked
        = p.m_locked :=
  (add_instance_frame g m p obj_id instance_id move_position bounding_box).2.2

/-- Instance of C5: adding a cube beside the sample plate flips
`m_ready_for_slice` from true to false and leaves the slice result as it was. -/
theorem add_instance_keeps_slice_result_witness :
    samplePlate.m_ready_for_slice = true ∧ plateWithOutsideCube.m_ready_for_slice = false ∧
      plateWithOutsideCube.m_slice_result_valid = samplePlate.m_slice_result_valid ∧
      plateWithOutsideCube.m_slice_percent = samplePlate.m_slice_percent ∧
      plateWithOutsideCube.m_locked = samplePlate.m_locked :=
  ⟨by decide, by decide,
    add_instance_keeps_slice_result boxGeometry (cubesModel [(300, 0, 0)]) samplePlate 0 0
      false none⟩

end PartPlate

/-! ## Placement of instances by the plate list -/

namespace PartPlate

theorem intersect_instance_place (g : Geometry) (m : Model) (p q : PartPlate) (o i : Int)
    (bb : Option BoundingBoxf3) (h : place p = place q) :
    intersect_instance g m p o i bb = intersect_instance g m q o i bb := by
  simp only [place, Prod.mk.injEq] at h
  obtain ⟨h1, h2, h3⟩ := h
  unfold intersect_instance is_left_top_of
  rw [h1, h2, h3]

theorem intersect_instance_valid (g : Geometry) (m : Model) (p : PartPlate) (o i : Int)
    (bb : Option BoundingBoxf3) (h : intersect_instance g m p o i bb = true) :
    valid_instance m o i = true := by
  unfold intersect_instance at h
  by_cases hv : valid_instance m o i = true
  · exact hv
  · simp [hv] at h

theorem add_instance_place (g : Geometry) (m : Model) (p : PartPlate) (o i : Int)
    (mv : Bool) (bb : Option BoundingBoxf3) :
    place (add_instance g m p o i mv bb).2.1 = place p := by
  unfold add_instance place
  by_cases h : valid_instance m o i = true
  · simp only [h, Bool.not_true, Bool.false_eq_true, if_false]
    split_ifs <;> rfl
  · simp [h]

theorem add_instance_model (g : Geometry) (m : Model) (p : PartPlate) (o i : Int)
    (bb : Option BoundingBoxf3) : (add_instance g m p o i false bb).2.2 = m := by
  unfold add_instance
  by_cases h : valid_instance m o i = true
  · simp [h]
  · simp [h]

theorem clear_place (p : PartPlate) (b : Bool) : place (clear p b) = place p := by
  unfold clear place update_slice_result_valid_state
  cases b <;> rfl

theorem clear_contain (p : PartPlate) (b : Bool) (o i : Int) :
    contain_instance (clear p b) o i = false := by
  unfold clear contain_instance update_slice_result_valid_state
  cases b <;> simp

theorem contain_add_instance (g : Geometry) (m : Model) (p : PartPlate) (o i : Int)
    (mv : Bool) (bb : Option BoundingBoxf3) (hv : valid_instance m o i = true)
    (pr : Int × Int) :
    contain_instance (add_instance g m p o i mv bb).2.1 pr.1 pr.2 =
      (decide (pr = (o, i)) || contain_instance p pr.1 pr.2) := by
  unfold contain_instance
  rw [add_instance_obj g m p o i mv bb hv]
  simp [Finset.mem_insert]

end PartPlate

namespace PartPlateList

theorem add_to_first_none (g : Geometry) (m : Model) (o i : Int) (bb : BoundingBoxf3)
    (after : PartPlate → PartPlate) (ps : List PartPlate) :
    add_to_first_intersecting g m o i bb after ps = none ↔
      ps.any (fun plate => PartPlate.intersect_instance g m plate o i (some bb)) = false := by
  induction ps with
  | nil => simp [add_to_first_intersecting]
  | cons plate rest ih =>
    unfold add_to_first_intersecting
    by_cases h : PartPlate.intersect_instance g m plate o i (some bb) = true
    · simp [h]
    · simp [h, ih]

theorem add_to_first_some (g : Geometry) (m : Model) (o i : Int) (bb : BoundingBoxf3)
    (ps qs : List PartPlate)
    (h : add_to_first_intersecting g m o i bb id ps = some qs) :
    qs.map PartPlate.place = ps.map PartPlate.place ∧
    (∀ pr : Int × Int, pr ≠ (o, i) →
      qs.countP (fun plate => PartPlate.contain_instance plate pr.1 pr.2) =
        ps.countP (fun plate => PartPlate.contain_instance plate pr.1 pr.2)) ∧
    (ps.countP (fun plate => PartPlate.contain_instance plate o i) = 0 →
      qs.countP (fun plate => PartPlate.contain_instance plate o i) = 1) := by
  induction ps generalizing qs with
  | nil => simp [add_to_first_intersecting] at h
  | cons plate rest ih =>
    unfold add_to_first_intersecting at h
    by_cases hi : PartPlate.intersect_instance g m plate o i (some bb) = true
    · simp only [hi, if_true, Option.some.injEq, id] at h
      subst h
      have hv := PartPlate.intersect_instance_valid g m plate o i _ hi
      refine ⟨by simp [PartPlate.add_instance_place], ?_, ?_⟩
      · intro pr hne
        simp [List.countP_cons, PartPlate.contain_add_instance g m plate o i false _ hv pr, hne]
      · intro h0
        have hc := PartPlate.contain_add_instance g m plate o i false (some bb) hv (o, i)
        simp only [decide_True, Bool.true_or] at hc
        rw [List.countP_cons] at h0 ⊢
        simp only [hc, if_true]
        omega
    · simp only [hi, Bool.false_eq_true, if_false, Option.map_eq_some'] at h
      obtain ⟨done, hd, rfl⟩ := h
      obtain ⟨h1, h2, h3⟩ := ih done hd
      refine ⟨by simp [h1], ?_, ?_⟩
      · intro pr hne
        simp [List.countP_cons, h2 pr hne]
      · intro h0
        rw [List.countP_cons] at h0 ⊢
        have : List.countP (fun plate => PartPlate.contain_instance plate o i) rest = 0 := by
          omega
        rw [h3 this]
        omega


theorem any_congr_place (f : PartPlate → Bool)
    (hf : ∀ p q, PartPlate.place p = PartPlate.place q → f p = f q) (ps qs : List PartPlate)
    (h : ps.map PartPlate.place = qs.map PartPlate.place) : ps.any f = qs.any f := by
  induction ps generalizing qs with
  | nil =>
    cases qs with
    | nil => rfl
    | cons q qs => simp at h
  | cons p ps ih =>
    cases qs with
    | nil => simp at h
    | cons q qs =>
      simp only [List.map_cons, List.cons.injEq] at h
      simp only [List.any_cons, hf p q h.1, ih qs h.2]

theorem accepts_congr (g : Geometry) (m : Model) (l k : PartPlateList) (pr : Int × Int)
    (h : (all_plates l).map PartPlate.place = (all_plates k).map PartPlate.place) :
    accepts g m l pr = accepts g m k pr :=
  any_congr_place _ (fun p q hpq => PartPlate.intersect_instance_place g m p q _ _ _ hpq) _ _ h

theorem reload_instance_spec (g : Geometry) (m : Model) (l : PartPlateList) (i j : Nat) :
    (all_plates (reload_instance g m l i j)).map PartPlate.place =
        (all_plates l).map PartPlate.place ∧
    (∀ pr : Int × Int, pr ≠ ((i : Int), (j : Int)) →
      trackers (reload_instance g m l i j) pr = trackers l pr) ∧
    (trackers l ((i : Int), (j : Int)) = 0 →
      trackers (reload_instance g m l i j) ((i : Int), (j : Int)) =
        if accepts g m l ((i : Int), (j : Int)) then 1 else 0) := by
  unfold reload_instance
  simp only
  cases hfirst : add_to_first_intersecting g m i j
      (g.instance_convex_hull_bounding_box ((m.object i).inst j)) id l.m_plate_list with
  | some plates =>
    obtain ⟨h1, h2, h3⟩ := add_to_first_some g m i j _ _ _ hfirst
    have hany : l.m_plate_list.any (fun plate => PartPlate.intersect_instance g m plate i j
        (some (g.instance_convex_hull_bounding_box ((m.object i).inst j)))) = true := by
      by_contra hc
      have := (add_to_first_none g m i j _ id l.m_plate_list).2 (by simpa using hc)
      rw [this] at hfirst
      exact Option.noConfusion hfirst
    refine ⟨?_, ?_, ?_⟩
    · simp [all_plates, h1]
    · intro pr hne
      simp only [trackers, List.countP_append, h2 pr hne]
    · intro h0
      simp only [trackers, List.countP_append] at h0 ⊢
      have hacc : accepts g m l ((i : Int), (j : Int)) = true := by
        simp only [accepts, List.any_append, hany, Bool.true_or]
      rw [hacc, if_pos rfl, h3 (by omega)]
      omega
  | none =>
    have hany := (add_to_first_none g m i j _ id l.m_plate_list).1 hfirst
    by_cases hu : PartPlate.intersect_instance g m l.unprintable_plate i j
        (some (g.instance_convex_hull_bounding_box ((m.object i).inst j))) = true
    · have hv := PartPlate.intersect_instance_valid g m _ _ _ _ hu
      simp only [hu, if_true]
      refine ⟨?_, ?_, ?_⟩
      · simp [all_plates, PartPlate.add_instance_place]
      · intro pr hne
        simp [trackers, List.countP_append, List.countP_cons,
          PartPlate.contain_add_instance g m _ i j false _ hv pr, hne]
      · intro h0
        have hc := PartPlate.contain_add_instance g m l.unprintable_plate i j false
          (some (g.instance_convex_hull_bounding_box ((m.object i).inst j))) hv (i, j)
        simp only [decide_True, Bool.true_or] at hc
        have hacc : accepts g m l ((i : Int), (j : Int)) = true := by
          simp [accepts, List.any_append, hu]
        simp only [trackers, List.countP_append, List.countP_cons, List.countP_nil] at h0 ⊢
        rw [hacc, if_pos rfl, hc]
        simp only [if_true]
        omega
    · simp only [hu, Bool.false_eq_true, if_false]
      refine ⟨trivial, fun _ _ => trivial, fun h0 => ?_⟩
      have hacc : accepts g m l ((i : Int), (j : Int)) = false := by
        simp only [accepts, List.any_append, hany, Bool.false_or]
        simpa using hu
      rw [hacc, h0]
      simp


theorem clear_plates_spec (d : HeaderDefaults) (el : Bool) (pi : Int) (ps : List PartPlate)
    (k : Nat) :
    (clear_plates d el pi ps k).map PartPlate.place = ps.map PartPlate.place ∧
    ∀ o i, (clear_plates d el pi ps k).countP
      (fun plate => PartPlate.contain_instance plate o i) = 0 := by
  induction ps generalizing k with
  | nil => simp [clear_plates]
  | cons p ps ih =>
    obtain ⟨h1, h2⟩ := ih (k + 1)
    unfold clear_plates
    refine ⟨?_, fun o i => ?_⟩
    · simp only [List.map_cons, h1]
      split_ifs <;> simp [PartPlate.clear_place]
    · rw [List.countP_cons, h2 o i]
      split_ifs <;> simp_all [PartPlate.clear_contain]

theorem clear_spec (d : HeaderDefaults) (l : PartPlateList) (rel el : Bool) (pi : Int) :
    (all_plates (clear d l false rel el pi)).map PartPlate.place =
        (all_plates l).map PartPlate.place ∧
    ∀ pr, trackers (clear d l false rel el pi) pr = 0 := by
  obtain ⟨h1, h2⟩ := clear_plates_spec d el pi l.m_plate_list 0
  refine ⟨?_, fun pr => ?_⟩
  · simp [all_plates, clear, h1, PartPlate.clear_place]
  · simp [trackers, clear, List.countP_append, h2, List.countP_cons, PartPlate.clear_contain]

theorem accepts_invalid (g : Geometry) (m : Model) (l : PartPlateList) (pr : Int × Int)
    (h : PartPlate.valid_instance m pr.1 pr.2 = false) : accepts g m l pr = false := by
  unfold accepts
  rw [List.any_eq_false]
  intro p _
  simp [PartPlate.intersect_instance, h]

/-- State of the two loops of `reload_all_objects` before instance `j` of
object `i`, `l0` being the list after the initial `clear`. -/
theorem reload_inner (g : Geometry) (m : Model) (l0 l : PartPlateList) (i : Nat)
    (hl : (all_plates l).map PartPlate.place = (all_plates l0).map PartPlate.place)
    (hinv : ∀ pr, (visited_before m i 0 pr → trackers l pr = if accepts g m l0 pr then 1 else 0) ∧
      (¬ visited_before m i 0 pr → trackers l pr = 0))
    (n : Nat) :
    (all_plates ((List.range n).foldl (fun acc (j : Nat) => reload_instance g m acc i j) l)).map
        PartPlate.place = (all_plates l0).map PartPlate.place ∧
    ∀ pr, (visited_before m i n pr →
        trackers ((List.range n).foldl (fun acc (j : Nat) => reload_instance g m acc i j) l) pr
          = if accepts g m l0 pr then 1 else 0) ∧
      (¬ visited_before m i n pr →
        trackers ((List.range n).foldl (fun acc (j : Nat) => reload_instance g m acc i j) l) pr
          = 0) := by
  induction n with
  | zero => exact ⟨hl, hinv⟩
  | succ n ih =>
    obtain ⟨ih1, ih2⟩ := ih
    rw [List.range_succ, List.foldl_append]
    simp only [List.foldl_cons, List.foldl_nil]
    obtain ⟨s1, s2, s3⟩ := reload_instance_spec g m
      ((List.range n).foldl (fun acc (j : Nat) => reload_instance g m acc i j) l) i n
    refine ⟨s1.trans ih1, fun pr => ?_⟩
    have hfresh : ¬ visited_before m i n ((i : Int), (n : Int)) := by
      unfold visited_before; simp
    by_cases hpr : pr = ((i : Int), (n : Int))
    · subst hpr
      refine ⟨fun _ => ?_, fun hnv => ?_⟩
      · rw [s3 ((ih2 _).2 hfresh), accepts_congr g m _ l0 _ ih1]
      · exfalso; apply hnv; unfold visited_before; simp
    · have hiff : visited_before m i (n + 1) pr ↔ visited_before m i n pr := by
        unfold visited_before
        have : ¬ (pr.1 = (i : Int) ∧ pr.2 = (n : Int)) := fun h => hpr (Prod.ext h.1 h.2)
        constructor
        · rintro ⟨a, b, c | c⟩
          · exact ⟨a, b, Or.inl c⟩
          · refine ⟨a, b, Or.inr ⟨c.1, ?_⟩⟩
            have := c.2
            push_cast at this
            omega
        · rintro ⟨a, b, c | c⟩
          · exact ⟨a, b, Or.inl c⟩
          · refine ⟨a, b, Or.inr ⟨c.1, ?_⟩⟩
            push_cast
            omega
      rw [s2 pr hpr, hiff]
      exact ih2 pr

theorem visited_before_next (m : Model) (i : Nat) (hi : i < m.objects.length)
    (pr : Int × Int) :
    visited_before m (i + 1) 0 pr ↔ visited_before m i (m.object i).instances.length pr := by
  unfold visited_before
  have hval : pr.1 = (i : Int) → (PartPlate.valid_instance m pr.1 pr.2 = true ↔
      0 ≤ pr.2 ∧ pr.2 < ((m.object i).instances.length : Int)) := by
    intro he
    unfold PartPlate.valid_instance
    rw [he]
    have h1 : (0 : Int) ≤ (i : Int) ∧ (i : Int) < (m.objects.length : Int) := by omega
    simp [h1]
  constructor
  · rintro ⟨a, b, c | c⟩
    · by_cases he : pr.1 = (i : Int)
      · exact ⟨a, b, Or.inr ⟨he, ((hval he).1 c.2).2⟩⟩
      · refine ⟨a, b, Or.inl ⟨?_, c.2⟩⟩
        have := c.1
        push_cast at this
        omega
    · omega
  · rintro ⟨a, b, c | c⟩
    · refine ⟨a, b, Or.inl ⟨?_, c.2⟩⟩
      push_cast
      omega
    · refine ⟨a, b, Or.inl ⟨?_, (hval c.1).2 ⟨b, c.2⟩⟩⟩
      push_cast
      omega

theorem reload_outer (g : Geometry) (m : Model) (l0 : PartPlateList)
    (h0 : ∀ pr, trackers l0 pr = 0) (k : Nat) (hk : k ≤ m.objects.length) :
    (all_plates ((List.range k).foldl
        (fun acc (i : Nat) =>
          (List.range (m.object i).instances.length).foldl
            (fun acc (j : Nat) => reload_instance g m acc i j) acc) l0)).map PartPlate.place
      = (all_plates l0).map PartPlate.place ∧
    ∀ pr, (visited_before m k 0 pr →
        trackers ((List.range k).foldl
          (fun acc (i : Nat) =>
            (List.range (m.object i).instances.length).foldl
              (fun acc (j : Nat) => reload_instance g m acc i j) acc) l0) pr
          = if accepts g m l0 pr then 1 else 0) ∧
      (¬ visited_before m k 0 pr →
        trackers ((List.range k).foldl
          (fun acc (i : Nat) =>
            (List.range (m.object i).instances.length).foldl
              (fun acc (j : Nat) => reload_instance g m acc i j) acc) l0) pr = 0) := by
  induction k with
  | zero =>
    refine ⟨rfl, fun pr => ⟨fun hv => ?_, fun _ => h0 pr⟩⟩
    unfold visited_before at hv
    omega
  | succ k ih =>
    obtain ⟨ih1, ih2⟩ := ih (by omega)
    rw [List.range_succ, List.foldl_append]
    simp only [List.foldl_cons, List.foldl_nil]
    obtain ⟨r1, r2⟩ := reload_inner g m l0 _ k ih1 ih2 (m.object k).instances.length
    refine ⟨r1, fun pr => ?_⟩
    rw [visited_before_next m k (by omega) pr]
    exact r2 pr

theorem visited_before_all (m : Model) (pr : Int × Int) :
    visited_before m m.objects.length 0 pr ↔ PartPlate.valid_instance m pr.1 pr.2 = true := by
  unfold visited_before
  constructor
  · rintro ⟨_, _, c | c⟩
    · exact c.2
    · omega
  · intro hv
    have h := (PartPlate.valid_instance_iff m pr.1 pr.2).1 hv
    exact ⟨h.1, h.2.2.1, Or.inl ⟨h.2.1, hv⟩⟩

theorem reload_all_objects_trackers (d : HeaderDefaults) (g : Geometry) (m : Model)
    (l : PartPlateList) (except_locked : Bool) (plate_index : Int) (pr : Int × Int) :
    trackers (reload_all_objects d g m l except_locked plate_index).2 pr =
      if accepts g m l pr then 1 else 0 := by
  obtain ⟨c1, c2⟩ := clear_spec d l false except_locked plate_index
  obtain ⟨_, r2⟩ := reload_outer g m _ c2 m.objects.length le_rfl
  unfold reload_all_objects
  simp only
  rw [← accepts_congr g m _ l pr c1]
  by_cases hv : PartPlate.valid_instance m pr.1 pr.2 = true
  · exact (r2 pr).1 ((visited_before_all m pr).2 hv)
  · rw [(r2 pr).2 (fun h => hv ((visited_before_all m pr).1 h)),
      accepts_invalid g m _ pr (by simpa using hv)]
    simp

end PartPlateList

/-! ## Exclusivity, renumbering, outside classification and plate splitting -/

namespace PartPlateList

/-- C6, evaluated at its failing input: after `notify_instance_update(0, 0)`
has put a far-away instance on the unprintable plate, `add_to_plate(0, 0, 0)`
adds it to plate 0 and leaves it on the unprintable plate, so the pair belongs
to two sets. -/
theorem add_to_plate_keeps_unprintable_entry :
    trackers sampleList (0, 0) = 0 ∧
      PartPlate.contain_instance listAfterAddToPlate.unprintable_plate 0 0 = true ∧
      (listAfterAddToPlate.m_plate_list.map
        (fun plate => PartPlate.contain_instance plate 0 0)) = [true] ∧
      trackers listAfterAddToPlate (0, 0) = 2 := by
  decide

/-- C7, as stated, fails: a valid instance lying to the left of every plate is
accepted neither by the plate nor by the unprintable plate, and
`reload_all_objects` leaves it in no set. -/
theorem reload_all_objects_leaves_instance_untracked :
    PartPlate.valid_instance (cubesModel [(-50, 0, 0)]) 0 0 = true ∧
      trackers (reload_all_objects sampleDefaults boxGeometry (cubesModel [(-50, 0, 0)])
        sampleList false (-1)).2 (0, 0) = 0 := by
  decide

/-- C7 (amended): after `reload_all_objects()`, every pair appears in the
`obj_to_instance_set` of at most one plate among the list's plates and the
unprintable plate, and of exactly one if and only if `intersect_instance` of
some plate of the list or of the unprintable plate accepts the instance. -/
theorem reload_all_objects_at_most_one_plate (d : HeaderDefaults) (g : Geometry) (m : Model)
    (l : PartPlateList) (except_locked : Bool) (plate_index : Int) (pr : Int × Int) :
    trackers (reload_all_objects d g m l except_locked plate_index).2 pr ≤ 1 ∧
      (trackers (reload_all_objects d g m l except_locked plate_index).2 pr = 1 ↔
        accepts g m l pr = true) := by
  rw [reload_all_objects_trackers]
  cases accepts g m l pr <;> simp

/-- Instance of the amended C7: of three cubes, left of the plate, on it and
right of it, the first is tracked by no plate and the other two by one each. -/
theorem reload_all_objects_at_most_one_plate_witness :
    ([((0 : Int), (0 : Int)), (1, 0), (2, 0)].map
        (trackers (reload_all_objects sampleDefaults boxGeometry
          (cubesModel [(-50, 0, 0), (30, 0, 0), (300, 0, 0)]) sampleList false (-1)).2))
        = [0, 1, 1] ∧
      trackers (reload_all_objects sampleDefaults boxGeometry
        (cubesModel [(-50, 0, 0), (30, 0, 0), (300, 0, 0)]) sampleList false (-1)).2 (1, 0) ≤ 1 :=
  ⟨by decide,
    (reload_all_objects_at_most_one_plate sampleDefaults boxGeometry
      (cubesModel [(-50, 0, 0), (30, 0, 0), (300, 0, 0)]) sampleList false (-1) (1, 0)).1⟩

end PartPlateList

namespace PartPlate

/-- C8, as stated, fails: with `(2, 1)` still stored, `update_object_index(2, _)`
turns it into `(1, 1)` instead of dropping it, so the new set is not the
renumbering of the entries below and above object 2. -/
theorem update_object_index_keeps_deleted_object_entry :
    (2, 1) ∈ plateBeforeRenumbering.obj_to_instance_set ∧
      (1, 1) ∈ (update_object_index plateBeforeRenumbering 2 4).obj_to_instance_set ∧
      ¬ RenumberedFrom plateBeforeRenumbering.obj_to_instance_set
        (update_object_index plateBeforeRenumbering 2 4).obj_to_instance_set 2 := by
  refine ⟨by decide, by decide, fun h => ?_⟩
  have h1 := (h (1, 1)).1 (by decide)
  revert h1
  decide

theorem reindex_set_renumbered (s : Finset (Int × Int)) (r : Int)
    (h : ∀ pr ∈ s, pr.1 ≠ r) : RenumberedFrom s (reindex_set s r) r := by
  intro q
  rw [mem_reindex_set]
  constructor
  · rintro ⟨pr, hpr, he⟩
    have hne := h pr hpr
    split_ifs at he with hge
    · right
      subst he
      simp only [Int.sub_add_cancel]
      exact ⟨hpr, by omega⟩
    · left
      subst he
      exact ⟨hpr, by omega⟩
  · rintro (⟨hq, hlt⟩ | ⟨hq, hgt⟩)
    · refine ⟨q, hq, ?_⟩
      rw [if_neg (by omega)]
    · refine ⟨(q.1 + 1, q.2), hq, ?_⟩
      rw [if_pos (by simp only; omega)]
      simp

/-- C8 (amended): when no entry of object `r` is stored any more,
`update_object_index(r, _)` turns `obj_to_instance_set` and
`instance_outside_set` into exactly the entries of objects below `r` united
with the entries of objects above `r` moved down by one. -/
theorem update_object_index_renumbers (p : PartPlate) (r obj_idx_max : Int)
    (hobj : ∀ pr ∈ p.obj_to_instance_set, pr.1 ≠ r)
    (hout : ∀ pr ∈ p.instance_outside_set, pr.1 ≠ r) :
    RenumberedFrom p.obj_to_instance_set
        (update_object_index p r obj_idx_max).obj_to_instance_set r ∧
      RenumberedFrom p.instance_outside_set
        (update_object_index p r obj_idx_max).instance_outside_set r :=
  ⟨reindex_set_renumbered _ r hobj, reindex_set_renumbered _ r hout⟩

/-- Instance of the amended C8: objects 0, 1, 3, 4 with `r = 2` give objects
0, 1, 2, 3. -/
theorem update_object_index_renumbers_witness :
    (update_object_index plateWithoutObjectTwo 2 5).obj_to_instance_set
        = {(0, 0), (1, 0), (2, 0), (3, 0)} ∧
      RenumberedFrom plateWithoutObjectTwo.obj_to_instance_set
        (update_object_index plateWithoutObjectTwo 2 5).obj_to_instance_set 2 ∧
      RenumberedFrom plateWithoutObjectTwo.instance_outside_set
        (update_object_index plateWithoutObjectTwo 2 5).instance_outside_set 2 :=
  ⟨by decide, update_object_index_renumbers plateWithoutObjectTwo 2 5 (by decide) (by decide)⟩


theorem exclude_scan_le (g : Geometry) (hull : Polygon) (bs : List BoundingBoxf3) (k : Nat) :
    exclude_scan g hull bs k ≤ k + bs.length := by
  induction bs generalizing k with
  | nil => simp [exclude_scan]
  | cons b rest ih =>
    unfold exclude_scan
    split_ifs
    · simp
    · have := ih (k + 1)
      simp only [List.length_cons]
      omega

theorem exclude_scan_end (g : Geometry) (hull : Polygon) (bs : List BoundingBoxf3) (k : Nat) :
    exclude_scan g hull bs k ≥ k + bs.length ↔
      bs.any (fun b => g.hull_overlaps b hull) = false := by
  induction bs generalizing k with
  | nil => simp [exclude_scan]
  | cons b rest ih =>
    unfold exclude_scan
    by_cases h : g.hull_overlaps b hull = true
    · simp [h]
    · have := ih (k + 1)
      simp only [h, Bool.false_eq_true, if_false, List.length_cons, List.any_cons,
        Bool.false_or, Bool.not_eq_true] at this ⊢
      rw [← this]
      omega

theorem check_outside_eq (g : Geometry) (m : Model) (p : PartPlate) (o i : Int)
    (bb : Option BoundingBoxf3) :
    check_outside g m p o i bb =
      !((sinking_plate_box p.plate_box (classified_box g m o i bb)).contains
          (classified_box g m o i bb) && !overlaps_exclusion g m p o i) := by
  have hbox : (match bb with
      | some b => b
      | none => g.instance_convex_hull_bounding_box ((m.object o).inst i)) =
      classified_box g m o i bb := rfl
  unfold check_outside
  simp only [hbox]
  by_cases hc : (sinking_plate_box p.plate_box (classified_box g m o i bb)).contains
      (classified_box g m o i bb) = true
  · simp only [hc, if_true, Bool.true_and, Bool.not_not]
    by_cases hlen : p.m_exclude_bounding_box.length > 0
    · simp only [hlen, if_true]
      have hend := exclude_scan_end g (g.convex_hull_2d ((m.object o).inst i))
        p.m_exclude_bounding_box 0
      simp only [Nat.zero_add] at hend
      by_cases hov : overlaps_exclusion g m p o i = true
      · have : ¬ exclude_scan g (g.convex_hull_2d ((m.object o).inst i))
            p.m_exclude_bounding_box 0 ≥ p.m_exclude_bounding_box.length := by
          rw [hend]; unfold overlaps_exclusion at hov; simp [hov]
        simp [this, hov]
      · have hov2 : overlaps_exclusion g m p o i = false := by simpa using hov
        have : exclude_scan g (g.convex_hull_2d ((m.object o).inst i))
            p.m_exclude_bounding_box 0 ≥ p.m_exclude_bounding_box.length := by
          rw [hend]; exact hov2
        simp [this, hov2]
    · have hnil : p.m_exclude_bounding_box = [] := by
        cases hb : p.m_exclude_bounding_box with
        | nil => rfl
        | cons b bs => rw [hb] at hlen; simp at hlen
      simp [overlaps_exclusion, hnil]
  · simp [hc]

/-- C9, as stated, fails: a cube that sinks 5 below the bed is not contained in
the plate box, yet `check_outside` returns false for it. -/
theorem check_outside_false_for_sinking_instance :
    valid_instance sinkingCubeModel 0 0 = true ∧
      check_outside boxGeometry sinkingCubeModel samplePlate 0 0 none = false ∧
      ¬ (samplePlate.plate_box.contains (classified_box boxGeometry sinkingCubeModel 0 0 none)
            = true ∧
          overlaps_exclusion boxGeometry sinkingCubeModel samplePlate 0 0 = false) := by
  decide

/-- C9 (amended): for a valid instance, `check_outside` returns false exactly
when the plate box, its Z minimum shifted by the instance's Z minimum whenever
the instance's Z maximum is above it, contains the instance's bounding box and
the hull intersects no exclusion-zone polygon; so an instance whose hull
overlaps an exclusion zone is outside, and on a plate box whose Z minimum is
not above 0 an instance (Z minimum not above its Z maximum) fully inside the
plate box without exclusion overlap is not outside. -/
theorem check_outside_iff (g : Geometry) (m : Model) (p : PartPlate) (obj_id instance_id : Int)
    (bounding_box : Option BoundingBoxf3)
    (_hv : valid_instance m obj_id instance_id = true) :
    (check_outside g m p obj_id instance_id bounding_box = false ↔
      (sinking_plate_box p.plate_box
          (classified_box g m obj_id instance_id bounding_box)).contains
        (classified_box g m obj_id instance_id bounding_box) = true ∧
      overlaps_exclusion g m p obj_id instance_id = false) ∧
    (overlaps_exclusion g m p obj_id instance_id = true →
      check_outside g m p obj_id instance_id bounding_box = true) ∧
    (p.plate_box.min.z ≤ 0 →
      (classified_box g m obj_id instance_id bounding_box).min.z ≤
        (classified_box g m obj_id instance_id bounding_box).max.z →
      p.plate_box.contains (classified_box g m obj_id instance_id bounding_box) = true →
      overlaps_exclusion g m p obj_id instance_id = false →
      check_outside g m p obj_id instance_id bounding_box = false) := by
  rw [check_outside_eq]
  refine ⟨by simp, fun h => by simp [h], fun hz hwf hc ho => ?_⟩
  have hs : (sinking_plate_box p.plate_box
      (classified_box g m obj_id instance_id bounding_box)).contains
      (classified_box g m obj_id instance_id bounding_box) = true := by
    unfold sinking_plate_box
    split_ifs
    · simp only [BoundingBoxf3.contains, BoundingBoxf3.contains_point, Bool.and_eq_true,
        decide_eq_true_eq] at hc ⊢
      omega
    · exact hc
  simp [hs, ho]

/-- Instance of the amended C9: a cube over the exclusion zone is outside. -/
theorem check_outside_iff_witness :
    valid_instance (cubesModel [(5, 5, 0)]) 0 0 = true ∧
      check_outside boxGeometry (cubesModel [(5, 5, 0)]) plateWithExclusion 0 0 none = true ∧
      plateWithExclusion.plate_box.contains
        (classified_box boxGeometry (cubesModel [(5, 5, 0)]) 0 0 none) = true :=
  ⟨by decide,
    (check_outside_iff boxGeometry (cubesModel [(5, 5, 0)]) plateWithExclusion 0 0 none
      (by decide)).2.1 (by decide),
    by decide⟩


theorem move_fold_spec (g : Geometry) (m : Model) (bb : Option BoundingBoxf3)
    (its : List (Int × Int)) (lp rp : PartPlate) :
    place (its.foldl (move_instance_to g m bb) (lp, rp)).1 = place lp ∧
    (∀ pr, pr ∈ (its.foldl (move_instance_to g m bb) (lp, rp)).1.obj_to_instance_set ↔
      pr ∈ lp.obj_to_instance_set ∨
        (pr ∈ its ∧ intersect_instance g m lp pr.1 pr.2 bb = true)) ∧
    (∀ pr, pr ∈ (its.foldl (move_instance_to g m bb) (lp, rp)).2.obj_to_instance_set ↔
      pr ∈ rp.obj_to_instance_set ∨
        (pr ∈ its ∧ valid_instance m pr.1 pr.2 = true ∧
          intersect_instance g m lp pr.1 pr.2 bb = false)) := by
  induction its generalizing lp rp with
  | nil => simp
  | cons it rest ih =>
    rw [List.foldl_cons]
    by_cases hi : intersect_instance g m lp it.1 it.2 bb = true
    · have hstep : move_instance_to g m bb (lp, rp) it =
          ((add_instance g m lp it.1 it.2 false bb).2.1, rp) := by
        simp [move_instance_to, hi]
      rw [hstep]
      have hv := intersect_instance_valid g m lp it.1 it.2 bb hi
      have hp := add_instance_place g m lp it.1 it.2 false bb
      obtain ⟨h1, h2, h3⟩ := ih (add_instance g m lp it.1 it.2 false bb).2.1 rp
      have hcongr : ∀ pr : Int × Int,
          intersect_instance g m (add_instance g m lp it.1 it.2 false bb).2.1 pr.1 pr.2 bb =
            intersect_instance g m lp pr.1 pr.2 bb :=
        fun pr => intersect_instance_place g m _ _ _ _ _ hp
      refine ⟨h1.trans hp, fun pr => ?_, fun pr => ?_⟩
      · rw [h2 pr, add_instance_obj g m lp it.1 it.2 false bb hv, hcongr pr]
        simp only [Finset.mem_insert, List.mem_cons]
        constructor
        · rintro ((h | h) | h)
          · exact Or.inr ⟨Or.inl h, by rw [h]; exact hi⟩
          · exact Or.inl h
          · exact Or.inr ⟨Or.inr h.1, h.2⟩
        · rintro (h | ⟨h | h, h'⟩)
          · exact Or.inl (Or.inr h)
          · exact Or.inl (Or.inl h)
          · exact Or.inr ⟨h, h'⟩
      · rw [h3 pr, hcongr pr]
        simp only [List.mem_cons]
        constructor
        · rintro (h | h)
          · exact Or.inl h
          · exact Or.inr ⟨Or.inr h.1, h.2⟩
        · rintro (h | ⟨h | h, h', h''⟩)
          · exact Or.inl h
          · rw [h, hi] at h''; exact absurd h'' (by decide)
          · exact Or.inr ⟨h, h', h''⟩
    · have hi2 : intersect_instance g m lp it.1 it.2 bb = false := by simpa using hi
      have hstep : move_instance_to g m bb (lp, rp) it =
          (lp, (add_instance g m rp it.1 it.2 false bb).2.1) := by
        simp [move_instance_to, hi2]
      rw [hstep]
      obtain ⟨h1, h2, h3⟩ := ih lp (add_instance g m rp it.1 it.2 false bb).2.1
      refine ⟨h1, fun pr => ?_, fun pr => ?_⟩
      · rw [h2 pr]
        simp only [List.mem_cons]
        constructor
        · rintro (h | h)
          · exact Or.inl h
          · exact Or.inr ⟨Or.inr h.1, h.2⟩
        · rintro (h | ⟨h | h, h'⟩)
          · exact Or.inl h
          · rw [h, hi2] at h'; exact absurd h' (by decide)
          · exact Or.inr ⟨h, h'⟩
      · rw [h3 pr]
        simp only [List.mem_cons]
        by_cases hv : valid_instance m it.1 it.2 = true
        · rw [add_instance_obj g m rp it.1 it.2 false bb hv]
          simp only [Finset.mem_insert]
          constructor
          · rintro ((h | h) | h)
            · exact Or.inr ⟨Or.inl h, by rw [h]; exact hv, by rw [h]; exact hi2⟩
            · exact Or.inl h
            · exact Or.inr ⟨Or.inr h.1, h.2⟩
          · rintro (h | ⟨h | h, h'⟩)
            · exact Or.inl (Or.inr h)
            · exact Or.inl (Or.inl h)
            · exact Or.inr ⟨h, h'⟩
        · rw [add_instance_invalid g m rp it.1 it.2 false bb (by simpa using hv)]
          constructor
          · rintro (h | h)
            · exact Or.inl h
            · exact Or.inr ⟨Or.inr h.1, h.2⟩
          · rintro (h | ⟨h | h, h'⟩)
            · exact Or.inl h
            · rw [h] at h'; exact absurd h'.1 hv
            · exact Or.inr ⟨h, h'⟩

/-- C10: `move_instances_to(left, right)` partitions the source plate's
instances: a pair tracked by the source plate, valid in the model and tracked
by neither `left` nor `right` before the call is afterwards tracked by `left`
and not by `right` when `left.intersect_instance` accepts it, and by `right`
and not by `left` otherwise. -/
theorem move_instances_to_partitions (g : Geometry) (m : Model)
    (p left_plate right_plate : PartPlate) (bounding_box : Option BoundingBoxf3)
    (pr : Int × Int) (hsrc : pr ∈ p.obj_to_instance_set)
    (hv : valid_instance m pr.1 pr.2 = true)
    (hl : pr ∉ left_plate.obj_to_instance_set) (hr : pr ∉ right_plate.obj_to_instance_set) :
    (intersect_instance g m left_plate pr.1 pr.2 bounding_box = true →
      pr ∈ (move_instances_to g m p left_plate right_plate bounding_box).1.obj_to_instance_set ∧
      pr ∉ (move_instances_to g m p left_plate right_plate bounding_box).2.obj_to_instance_set) ∧
    (intersect_instance g m left_plate pr.1 pr.2 bounding_box = false →
      pr ∈ (move_instances_to g m p left_plate right_plate bounding_box).2.obj_to_instance_set ∧
      pr ∉ (move_instances_to g m p left_plate right_plate bounding_box).1.obj_to_instance_set) := by
  obtain ⟨_, h2, h3⟩ := move_fold_spec g m bounding_box (sortedPairs p.obj_to_instance_set)
    left_plate right_plate
  have hmem : pr ∈ sortedPairs p.obj_to_instance_set := (mem_sortedPairs _ _).2 hsrc
  unfold move_instances_to
  refine ⟨fun hi => ⟨(h2 pr).2 (Or.inr ⟨hmem, hi⟩), fun hc => ?_⟩,
    fun hi => ⟨(h3 pr).2 (Or.inr ⟨hmem, hv, hi⟩), fun hc => ?_⟩⟩
  · rcases (h3 pr).1 hc with h | ⟨_, _, h⟩
    · exact hr h
    · rw [hi] at h; exact absurd h (by decide)
  · rcases (h2 pr).1 hc with h | ⟨_, h⟩
    · exact hl h
    · rw [hi] at h; exact absurd h (by decide)

/-- Instance of C10: the two cubes of `plateWithTwoCubes`, the second one now
beside the plate, are split between the sample plate and the unprintable
plate. -/
theorem move_instances_to_partitions_witness :
    (move_instances_to boxGeometry (cubesModel [(30, 0, 0), (300, 0, 0)]) plateWithTwoCubes
        samplePlate sampleUnprintablePlate none).1.obj_to_instance_set = {(0, 0)} ∧
      (1, 0) ∈ (move_instances_to boxGeometry (cubesModel [(30, 0, 0), (300, 0, 0)])
        plateWithTwoCubes samplePlate sampleUnprintablePlate none).2.obj_to_instance_set ∧
      (1, 0) ∉ (move_instances_to boxGeometry (cubesModel [(30, 0, 0), (300, 0, 0)])
        plateWithTwoCubes samplePlate sampleUnprintablePlate none).1.obj_to_instance_set :=
  ⟨by decide,
    (move_instances_to_partitions boxGeometry (cubesModel [(30, 0, 0), (300, 0, 0)])
      plateWithTwoCubes samplePlate sampleUnprintablePlate none (1, 0)
      (by decide) (by decide) (by decide) (by decide)).2 (by decide)⟩

end PartPlate

/-! ## Filament map mode, printable filaments and physical extruders -/

namespace PartPlate

/-- C11: `set_filament_map_mode` erases the plate's explicit filament map
whenever the effective mode (own mode, or the global mode when the own mode is
`fmmDefault`) after the call differs from the effective mode before it, and
leaves the map exactly as it was whenever the effective mode does not change. -/
theorem set_filament_map_mode_clears_map_iff_effective_mode_changes (c : PlateConfig)
    (global_mode mode : FilamentMapMode) :
    (get_real_filament_map_mode (set_filament_map_mode c global_mode mode) global_mode ≠
        get_real_filament_map_mode c global_mode →
      (set_filament_map_mode c global_mode mode).filament_map = none) ∧
    (get_real_filament_map_mode (set_filament_map_mode c global_mode mode) global_mode =
        get_real_filament_map_mode c global_mode →
      (set_filament_map_mode c global_mode mode).filament_map = c.filament_map) := by
  obtain ⟨m, fm⟩ := c
  rcases m with _ | m
  · cases mode <;> cases global_mode <;>
      simp [set_filament_map_mode, get_real_filament_map_mode, get_filament_map_mode,
        clear_filament_map, clear_filament_map_mode]
  · cases m <;> cases mode <;> cases global_mode <;>
      simp [set_filament_map_mode, get_real_filament_map_mode, get_filament_map_mode,
        clear_filament_map, clear_filament_map_mode]

/-- Instance of C11: a manual plate switched to `fmmAutoForFlush` loses its
map; switched to `fmmDefault` under a manual project it keeps it. -/
theorem set_filament_map_mode_clears_map_iff_effective_mode_changes_witness :
    (set_filament_map_mode manualPlateConfig FilamentMapMode.fmmManual
        FilamentMapMode.fmmAutoForFlush).filament_map = none ∧
      (set_filament_map_mode manualPlateConfig FilamentMapMode.fmmManual
        FilamentMapMode.fmmDefault).filament_map = some [1, 2] :=
  ⟨(set_filament_map_mode_clears_map_iff_effective_mode_changes manualPlateConfig
      FilamentMapMode.fmmManual FilamentMapMode.fmmAutoForFlush).1 (by decide),
    (set_filament_map_mode_clears_map_iff_effective_mode_changes manualPlateConfig
      FilamentMapMode.fmmManual FilamentMapMode.fmmDefault).2 (by decide)⟩

/-- C12: when the plate's effective filament-map mode is not `fmmManual`,
`check_filament_printable` returns true with an empty message, whatever the
used filaments and the `filament_printable` masks. -/
theorem check_filament_printable_true_unless_manual (c : PlateConfig) (g : GlobalConfig)
    (src : ExtruderSources)
    (h : get_real_filament_map_mode c g.filament_map_mode ≠ FilamentMapMode.fmmManual) :
    check_filament_printable c g src = some (true, "") := by
  simp [check_filament_printable, h]

theorem mem_unique_neighbours (l : List Int) (x : Int) :
    x ∈ unique_neighbours l ↔ x ∈ l := by
  induction l using unique_neighbours.induct with
  | case1 => simp [unique_neighbours]
  | case2 a => simp [unique_neighbours]
  | case3 b rest ih =>
    rw [unique_neighbours, if_pos rfl, ih]
    simp
  | case4 a b rest hab ih =>
    rw [unique_neighbours, if_neg hab, List.mem_cons, ih]
    simp

theorem unique_neighbours_ascending (l : List Int) (h : l.Pairwise (fun a b => a ≤ b)) :
    (unique_neighbours l).Pairwise (fun a b => a < b) := by
  induction l using unique_neighbours.induct with
  | case1 => simp [unique_neighbours]
  | case2 a => simp [unique_neighbours]
  | case3 b rest ih =>
    rw [unique_neighbours, if_pos rfl]
    exact ih (List.Pairwise.of_cons h)
  | case4 a b rest hab ih =>
    rw [unique_neighbours, if_neg hab, List.pairwise_cons]
    refine ⟨fun x hx => ?_, ih (List.Pairwise.of_cons h)⟩
    rw [mem_unique_neighbours] at hx
    have hb : a ≤ b := (List.pairwise_cons.1 h).1 b (List.mem_cons_self _ _)
    have hlt : a < b := lt_of_le_of_ne hb hab
    rcases List.mem_cons.1 hx with rfl | hx
    · exact hlt
    · exact lt_of_lt_of_le hlt
        ((List.pairwise_cons.1 (List.Pairwise.of_cons h)).1 x hx)

theorem get_extruders_ascending (src : ExtruderSources) (h : src.objects_empty = false) :
    (get_extruders src).Pairwise (fun a b => a < b) := by
  simp only [get_extruders, h, Bool.false_eq_true, if_false]
  exact unique_neighbours_ascending _ (List.sorted_insertionSort (fun a b : Int => a ≤ b) _)

theorem check_used_filaments_skip (g : GlobalConfig) (fm : List Int) (f : Int)
    (rest : List Int) (hr : FilamentReadable g fm f) (hb : ¬ FilamentBlocked g fm f) :
    check_used_filaments g fm (f :: rest) = check_used_filaments g fm rest := by
  obtain ⟨ht, status, mapped, hs, hmp, h1, h32⟩ := hr
  obtain ⟨ty, hty⟩ := Option.isSome_iff_exists.1 ht
  have hbit : printable_bit status (mapped - 1).toNat = true := by
    by_contra hc
    exact hb ⟨status, mapped, hs, hmp, by simpa using hc⟩
  have hrange : ¬ (mapped - 1 < 0 ∨ 32 ≤ mapped - 1) := by omega
  rw [check_used_filaments]
  simp only [hty, hs, hmp]
  rw [if_neg hrange, hbit]
  rfl

theorem check_used_filaments_stop (g : GlobalConfig) (fm : List Int) (f : Int)
    (rest : List Int) (hr : FilamentReadable g fm f) (hb : FilamentBlocked g fm f) :
    check_used_filaments g fm (f :: rest) = some (false, blocked_message g fm f) := by
  obtain ⟨ht, status, mapped, hs, hmp, h1, h32⟩ := hr
  obtain ⟨ty, hty⟩ := Option.isSome_iff_exists.1 ht
  obtain ⟨status2, mapped2, hs2, hmp2, hbit⟩ := hb
  rw [hs] at hs2
  rw [hmp] at hmp2
  cases hs2
  cases hmp2
  have hrange : ¬ (mapped - 1 < 0 ∨ 32 ≤ mapped - 1) := by omega
  rw [check_used_filaments]
  simp only [hty, hs, hmp]
  rw [if_neg hrange, hbit]
  simp [blocked_message, hmp, hty]

theorem check_used_filaments_first (g : GlobalConfig) (fm : List Int) (pre : List Int)
    (f : Int) (post : List Int)
    (hpre : ∀ x ∈ pre, FilamentReadable g fm x ∧ ¬ FilamentBlocked g fm x)
    (hr : FilamentReadable g fm f) (hb : FilamentBlocked g fm f) :
    check_used_filaments g fm (pre ++ f :: post) = some (false, blocked_message g fm f) := by
  induction pre with
  | nil => exact check_used_filaments_stop g fm f post hr hb
  | cons x pre ih =>
    have hx := hpre x (List.mem_cons_self _ _)
    rw [List.cons_append, check_used_filaments_skip g fm x _ hx.1 hx.2]
    exact ih (fun y hy => hpre y (List.mem_cons_of_mem _ hy))

theorem check_used_filaments_all (g : GlobalConfig) (fm : List Int) (used : List Int)
    (hr : ∀ f ∈ used, FilamentReadable g fm f) :
    (check_used_filaments g fm used = some (true, "") ↔
      ∀ f ∈ used, ¬ FilamentBlocked g fm f) ∧
    ((∃ msg, check_used_filaments g fm used = some (false, msg)) ↔
      ∃ f ∈ used, FilamentBlocked g fm f) := by
  induction used with
  | nil => simp [check_used_filaments]
  | cons x rest ih =>
    obtain ⟨ih1, ih2⟩ := ih (fun f hf => hr f (List.mem_cons_of_mem _ hf))
    have hx := hr x (List.mem_cons_self _ _)
    by_cases hb : FilamentBlocked g fm x
    · rw [check_used_filaments_stop g fm x rest hx hb]
      refine ⟨⟨fun h => ?_, fun h => absurd hb (h x (List.mem_cons_self _ _))⟩,
        ⟨fun _ => ⟨x, List.mem_cons_self _ _, hb⟩, fun _ => ⟨_, rfl⟩⟩⟩
      simp at h
    · rw [check_used_filaments_skip g fm x rest hx hb, ih1, ih2]
      simp [hb]


/-- Instance of C12: a plate in automatic mode passes the check although both
filaments of the project are mapped to nozzles that cannot print them. -/
theorem check_filament_printable_true_unless_manual_witness :
    FilamentBlocked twoFilamentConfig [1, 2] 1 ∧
      check_filament_printable ⟨some FilamentMapMode.fmmAutoForFlush, some [1, 2]⟩
        twoFilamentConfig objectSources = some (true, "") :=
  ⟨⟨2, 1, by decide, by decide, by decide⟩,
    check_filament_printable_true_unless_manual _ twoFilamentConfig objectSources (by decide)⟩

/-- C13, as stated, fails: for an object-less G-code project whose file lists
filament 2 before filament 1, both mapped to nozzles that cannot print them,
the message names filament 2 (right nozzle, TPU) although filament 1 comes
first in ascending order. -/
theorem check_filament_printable_reports_in_stored_order :
    get_real_filament_map_mode manualPlateConfig twoFilamentConfig.filament_map_mode
        = FilamentMapMode.fmmManual ∧
      get_extruders gcodeSources = [2, 1] ∧
      FilamentBlocked twoFilamentConfig [1, 2] 1 ∧
      blocked_message twoFilamentConfig [1, 2] 1 = "The left nozzle can not print PLA." ∧
      check_filament_printable manualPlateConfig twoFilamentConfig gcodeSources
        = some (false, "The right nozzle can not print TPU.") :=
  ⟨by decide, by decide, ⟨2, 1, by decide, by decide, by decide⟩, by decide, by decide⟩

/-- C13 (amended): under effective mode `fmmManual`, with the used filaments
taken in the order `get_extruders` returns them (ascending without duplicates
when the model has objects) and each of them readable, the check returns false
if and only if some used filament `f` has bit `filament_map[f-1] - 1` cleared in
`filament_printable[f-1]`; the message then describes the first such filament
in that order, whatever follows it in the list. -/
theorem check_filament_printable_manual (c : PlateConfig) (g : GlobalConfig)
    (src : ExtruderSources)
    (hm : get_real_filament_map_mode c g.filament_map_mode = FilamentMapMode.fmmManual) :
    ((∀ f ∈ get_extruders src, FilamentReadable g (get_real_filament_maps c g.filament_map) f) →
      (check_filament_printable c g src = some (true, "") ↔
        ∀ f ∈ get_extruders src,
          ¬ FilamentBlocked g (get_real_filament_maps c g.filament_map) f) ∧
      ((∃ msg, check_filament_printable c g src = some (false, msg)) ↔
        ∃ f ∈ get_extruders src,
          FilamentBlocked g (get_real_filament_maps c g.filament_map) f)) ∧
    (∀ pre f post, get_extruders src = pre ++ f :: post →
      (∀ x ∈ pre, FilamentReadable g (get_real_filament_maps c g.filament_map) x ∧
        ¬ FilamentBlocked g (get_real_filament_maps c g.filament_map) x) →
      FilamentReadable g (get_real_filament_maps c g.filament_map) f →
      FilamentBlocked g (get_real_filament_maps c g.filament_map) f →
      check_filament_printable c g src =
        some (false, blocked_message g (get_real_filament_maps c g.filament_map) f)) ∧
    (src.objects_empty = false → (get_extruders src).Pairwise (fun a b => a < b)) := by
  have hcheck : check_filament_printable c g src =
      check_used_filaments g (get_real_filament_maps c g.filament_map) (get_extruders src) := by
    simp [check_filament_printable, hm]
  rw [hcheck]
  refine ⟨fun hr => check_used_filaments_all g _ _ hr, fun pre f post he hpre hr hb => ?_,
    get_extruders_ascending src⟩
  rw [he]
  exact check_used_filaments_first g _ pre f post hpre hr hb

/-- Instance of the amended C13: filaments 1 and 2 of a project with objects,
both blocked, are reported by the message for filament 1. -/
theorem check_filament_printable_manual_witness :
    get_extruders objectSources = [1, 2] ∧
      check_filament_printable manualPlateConfig twoFilamentConfig objectSources
        = some (false, "The left nozzle can not print PLA.") :=
  ⟨by decide,
    (check_filament_printable_manual manualPlateConfig twoFilamentConfig objectSources
      (by decide)).2.1 [] 1 [2] (by decide) (by simp)
      ⟨by decide, 2, 1, by decide, by decide, by decide, by decide⟩
      ⟨2, 1, by decide, by decide, by decide⟩⟩

/-- C20, evaluated at its failing input `idx = 0`: the size test
`filament_map.size() < idx` lets 0 through, and the function goes on to read
`filament_map[-1]`, outside the map, instead of returning -1. -/
theorem get_physical_extruder_reads_outside_map_at_zero :
    get_real_filament_maps manualPlateConfig twoFilamentConfig.filament_map = [1, 2] ∧
      ¬ (((get_real_filament_maps manualPlateConfig twoFilamentConfig.filament_map).length : Int)
          < to_size_t 0) ∧
      vec_read (get_real_filament_maps manualPlateConfig twoFilamentConfig.filament_map) (0 - 1)
        = none ∧
      get_physical_extruder_by_filament_id manualPlateConfig twoFilamentConfig 0 = none ∧
      get_physical_extruder_by_filament_id manualPlateConfig twoFilamentConfig (-1)
        = some (-1) ∧
      get_physical_extruder_by_filament_id manualPlateConfig twoFilamentConfig 3
        = some (-1) := by
  decide

/-- C19: on a plate without exclusion zones whose box has Z minimum not above
0, an instance whose bounding box has its X and Y extents and its Z maximum
inside the plate box, with the Z maximum above the plate box's Z minimum, is
not outside, however far its Z minimum (not above its Z maximum) lies below
the bed. -/
theorem check_outside_false_when_sinking (g : Geometry) (m : Model) (p : PartPlate)
    (obj_id instance_id : Int) (bounding_box : Option BoundingBoxf3)
    (_hv : valid_instance m obj_id instance_id = true)
    (hex : p.m_exclude_bounding_box = [])
    (hz : p.plate_box.min.z ≤ 0)
    (hx : p.plate_box.min.x ≤ (classified_box g m obj_id instance_id bounding_box).min.x ∧
      (classified_box g m obj_id instance_id bounding_box).min.x ≤ p.plate_box.max.x ∧
      p.plate_box.min.x ≤ (classified_box g m obj_id instance_id bounding_box).max.x ∧
      (classified_box g m obj_id instance_id bounding_box).max.x ≤ p.plate_box.max.x)
    (hy : p.plate_box.min.y ≤ (classified_box g m obj_id instance_id bounding_box).min.y ∧
      (classified_box g m obj_id instance_id bounding_box).min.y ≤ p.plate_box.max.y ∧
      p.plate_box.min.y ≤ (classified_box g m obj_id instance_id bounding_box).max.y ∧
      (classified_box g m obj_id instance_id bounding_box).max.y ≤ p.plate_box.max.y)
    (hzmax : p.plate_box.min.z < (classified_box g m obj_id instance_id bounding_box).max.z ∧
      (classified_box g m obj_id instance_id bounding_box).max.z ≤ p.plate_box.max.z)
    (hbox : (classified_box g m obj_id instance_id bounding_box).min.z ≤
      (classified_box g m obj_id instance_id bounding_box).max.z) :
    check_outside g m p obj_id instance_id bounding_box = false := by
  rw [check_outside_eq]
  have hs : (sinking_plate_box p.plate_box
      (classified_box g m obj_id instance_id bounding_box)).contains
      (classified_box g m obj_id instance_id bounding_box) = true := by
    unfold sinking_plate_box
    rw [if_pos (by omega)]
    simp only [BoundingBoxf3.contains, BoundingBoxf3.contains_point, Bool.and_eq_true,
      decide_eq_true_eq]
    omega
  simp [hs, overlaps_exclusion, hex]

/-- Instance of C19: the cube that sinks 5 below the bed of the sample plate. -/
theorem check_outside_false_when_sinking_witness :
    (classified_box boxGeometry sinkingCubeModel 0 0 none).min.z = -5 ∧
      check_outside boxGeometry sinkingCubeModel samplePlate 0 0 none = false :=
  ⟨by decide,
    check_outside_false_when_sinking boxGeometry sinkingCubeModel samplePlate 0 0 none
      (by decide) (by decide) (by decide) (by decide) (by decide) (by decide) (by decide)⟩

end PartPlate

/-! ## Binary search for a volume -/

theorem lower_bound_loop_spec {α : Type} (v : List α) (pred : α → Bool)
    (hmono : ∀ (i j : Nat) (hi : i < v.length) (hj : j < v.length), i ≤ j →
      pred (v[j]) = true → pred (v[i]) = true)
    (fuel first count : Nat) (hfuel : count ≤ fuel) (hlen : first + count ≤ v.length)
    (hlow : ∀ (i : Nat) (hi : i < v.length), i < first → pred (v[i]) = true)
    (hhigh : ∀ (i : Nat) (hi : i < v.length), first + count ≤ i → pred (v[i]) = false) :
    lower_bound_loop v pred fuel first count ≤ v.length ∧
    (∀ (i : Nat) (hi : i < v.length), i < lower_bound_loop v pred fuel first count →
      pred (v[i]) = true) ∧
    (∀ (i : Nat) (hi : i < v.length), lower_bound_loop v pred fuel first count ≤ i →
      pred (v[i]) = false) := by
  induction fuel generalizing first count with
  | zero =>
    have hc : count = 0 := by omega
    subst hc
    simp only [lower_bound_loop]
    exact ⟨by omega, hlow, fun i hi h => hhigh i hi (by omega)⟩
  | succ fuel ih =>
    rw [lower_bound_loop]
    by_cases hc : count > 0
    · simp only [hc, if_true]
      have hit : first + count / 2 < v.length := by
        have : count / 2 < count := Nat.div_lt_self hc (by decide)
        omega
      rw [List.getElem?_eq_getElem hit]
      simp only [Option.map_some', Option.getD_some]
      by_cases hp : pred (v[first + count / 2]) = true
      · rw [if_pos hp]
        apply ih
        · have : count / 2 < count := Nat.div_lt_self hc (by decide)
          omega
        · have : count / 2 < count := Nat.div_lt_self hc (by decide)
          omega
        · intro i hi hlt
          exact hmono i (first + count / 2) hi hit (by omega) hp
        · intro i hi hge
          apply hhigh i hi
          have : count / 2 < count := Nat.div_lt_self hc (by decide)
          omega
      · rw [if_neg hp]
        apply ih
        · have : count / 2 < count := Nat.div_lt_self hc (by decide)
          omega
        · have : count / 2 < count := Nat.div_lt_self hc (by decide)
          omega
        · exact hlow
        · intro i hi hge
          by_contra hcon
          have hpi : pred (v[i]) = true := by simpa using hcon
          exact hp (hmono (first + count / 2) i hit hi hge hpi)
    · have hc0 : count = 0 := by omega
      subst hc0
      simp only [gt_iff_lt, lt_self_iff_false, if_false]
      exact ⟨by omega, hlow, fun i hi h => hhigh i hi (by omega)⟩

/-- C15: on a `volumes` vector sorted in strictly increasing order of
`volume_id`, `has_volume(id)` is true if and only if some element of `volumes`
has `volume_id` equal to `id`. -/
theorem has_volume_iff (r : LayerRangeRegions) (id : Nat)
    (hsorted : (r.volumes.map VolumeExtents.volume_id).Pairwise (fun a b => a < b)) :
    r.has_volume id = true ↔ ∃ l ∈ r.volumes, l.volume_id = id := by
  have hidx : ∀ (i j : Nat) (hi : i < r.volumes.length) (hj : j < r.volumes.length), i < j →
      (r.volumes[i]).volume_id < (r.volumes[j]).volume_id := by
    intro i j hi hj hij
    have h := (List.pairwise_iff_getElem.1 hsorted) i j (by simpa using hi) (by simpa using hj) hij
    simpa using h
  have hmono : ∀ (i j : Nat) (hi : i < r.volumes.length) (hj : j < r.volumes.length), i ≤ j →
      (fun l : VolumeExtents => decide (l.volume_id < id)) (r.volumes[j]) = true →
      (fun l : VolumeExtents => decide (l.volume_id < id)) (r.volumes[i]) = true := by
    intro i j hi hj hij hp
    simp only [decide_eq_true_eq] at hp ⊢
    rcases Nat.lt_or_eq_of_le hij with h | h
    · exact lt_trans (hidx i j hi hj h) hp
    · subst h; exact hp
  obtain ⟨hle, hlow, hhigh⟩ := lower_bound_loop_spec r.volumes
    (fun l => decide (l.volume_id < id)) hmono r.volumes.length 0 r.volumes.length le_rfl
    (by omega) (fun i _ h => absurd h (by omega)) (fun i hi h => absurd hi (by omega))
  unfold LayerRangeRegions.has_volume lower_bound_by_predicate
  simp only
  constructor
  · intro h
    split at h
    · exact absurd h (by decide)
    · rename_i l hl
      exact ⟨l, List.getElem?_mem hl, by simpa using h⟩
  · rintro ⟨l, hl, rfl⟩
    obtain ⟨k, hk, rfl⟩ := List.getElem_of_mem hl
    have hkge : lower_bound_loop r.volumes (fun l => decide (l.volume_id < (r.volumes[k]).volume_id))
        r.volumes.length 0 r.volumes.length ≤ k := by
      by_contra hc
      have := hlow k hk (by omega)
      simp at this
    have hlt : lower_bound_loop r.volumes
        (fun l => decide (l.volume_id < (r.volumes[k]).volume_id))
        r.volumes.length 0 r.volumes.length < r.volumes.length := by omega
    rw [List.getElem?_eq_getElem hlt]
    simp only [beq_iff_eq]
    have hnot := hhigh _ hlt le_rfl
    simp only [decide_eq_false_iff_not, not_lt] at hnot
    rcases Nat.lt_or_eq_of_le hkge with h | h
    · have := hidx _ k hlt hk h
      omega
    · simp [h]

/-- Instance of C15: volume 7 is found, volume 8 is not. -/
theorem has_volume_iff_witness :
    sampleLayerRange.has_volume 7 = true ∧ sampleLayerRange.has_volume 8 = false ∧
      (sampleLayerRange.has_volume 12 = true ↔ ∃ l ∈ sampleLayerRange.volumes, l.volume_id = 12) :=
  ⟨by decide, by decide, has_volume_iff sampleLayerRange 12 (by decide)⟩


/-! ## Invalidation of steps -/

theorem reachable_steps_prefix (count : Nat) (s : StepFlags)
    (h : StepFlags.Reachable count s) : ∀ a b : Nat, a < b → s b = true → s a = true := by
  induction h with
  | start => intro a b _ hb; simp [StepFlags.none_done] at hb
  | set_done s step _ _ hall ih =>
    intro a b hab hb
    simp only [StepFlags.set_done] at hb ⊢
    by_cases ha : a = step
    · simp [ha]
    · rw [if_neg ha]
      by_cases hbs : b = step
      · subst hbs; exact hall a hab
      · rw [if_neg hbs] at hb; exact ih a b hab hb
  | invalidate_step s step _ ih =>
    intro a b hab hb
    simp only [StepFlags.invalidate_step] at hb ⊢
    by_cases hsb : step ≤ b
    · simp [hsb] at hb
    · rw [if_neg hsb] at hb
      rw [if_neg (by omega)]
      exact ih a b hab hb

/-- C18: after `invalidate_step(A)` every step `B > A` of the same owner is
marked not-done, for `PrintObject` and for `Print`; and in every state reached
by completing steps in order and invalidating steps, no later step is done
while an earlier step of the same owner is not done. -/
theorem invalidate_step_leaves_later_steps_not_done :
    (∀ (s : StepFlags) (A B : PrintObjectStep), A.toNat < B.toNat →
      (PrintObject.invalidate_step s A).2 B.toNat = false) ∧
    (∀ (s : StepFlags) (A B : PrintStep), A.toNat < B.toNat →
      Print.is_step_done (Print.invalidate_step s A).2 B = false) ∧
    (∀ (s : StepFlags), StepFlags.Reachable posCount s →
      ∀ A B : PrintObjectStep, A.toNat < B.toNat → s B.toNat = true → s A.toNat = true) ∧
    (∀ (s : StepFlags), StepFlags.Reachable psCount s →
      ∀ A B : PrintStep, A.toNat < B.toNat →
        Print.is_step_done s B = true → Print.is_step_done s A = true) := by
  refine ⟨fun s A B h => ?_, fun s A B h => ?_, fun s hs A B h hb => ?_, fun s hs A B h hb => ?_⟩
  · simp only [PrintObject.invalidate_step, StepFlags.invalidate_step]
    rw [if_pos (by omega)]
  · simp only [Print.is_step_done, Print.invalidate_step, StepFlags.invalidate_step]
    rw [if_pos (by omega)]
  · exact reachable_steps_prefix posCount s hs _ _ h hb
  · exact reachable_steps_prefix psCount s hs _ _ h hb

/-- Instance of C18: with slicing and perimeters done, invalidating `posSlice`
reports a change and leaves `posPerimeters` not done. -/
theorem invalidate_step_leaves_later_steps_not_done_witness :
    ((StepFlags.none_done.set_done 0).set_done 1) PrintObjectStep.posPerimeters.toNat = true ∧
      (PrintObject.invalidate_step ((StepFlags.none_done.set_done 0).set_done 1)
        PrintObjectStep.posSlice).1 = true ∧
      (PrintObject.invalidate_step ((StepFlags.none_done.set_done 0).set_done 1)
        PrintObjectStep.posSlice).2 PrintObjectStep.posPerimeters.toNat = false :=
  ⟨by decide, by decide,
    invalidate_step_leaves_later_steps_not_done.1 _ PrintObjectStep.posSlice
      PrintObjectStep.posPerimeters (by decide)⟩

/-! ## Plate list and print pool -/

namespace PlateListState

/-- C16, evaluated at its failing input: after the constructor and
`reset(true)` the only plate has print index 0 and a new `Print` (address 4),
while the pool still maps index 0 to the `Print` of the deleted plate
(address 1), and likewise for the `GCodeResult`. -/
theorem reset_leaves_stale_print_in_pool :
    (construct true 36).m_print_list = [(0, 1)] ∧
      (reset (construct true 36) true).m_plate_list.map
        (fun plate => (plate.m_print_index, plate.m_print, plate.m_gcode_result))
        = [(0, some 4, some 5)] ∧
      (reset (construct true 36) true).m_print_list.lookup 0 = some 1 ∧
      (reset (construct true 36) true).m_gcode_result_list.lookup 0 = some 2 := by
  decide

theorem reindex_from_ptr (index : Nat) (ps : List PlateEntry) (i : Nat) :
    (reindex_from index ps i).map PlateEntry.ptr = ps.map PlateEntry.ptr := by
  induction ps generalizing i with
  | nil => rfl
  | cons p ps ih =>
    simp only [reindex_from, List.map_cons, ih]
    split_ifs <;> rfl

theorem map_ptr_eraseIdx (ps : List PlateEntry) (k : Nat) :
    (ps.eraseIdx k).map PlateEntry.ptr = (ps.map PlateEntry.ptr).eraseIdx k := by
  induction ps generalizing k with
  | nil => rfl
  | cons p ps ih =>
    cases k with
    | zero => rfl
    | succ k => simp [List.eraseIdx, ih]

theorem destroy_print_plates (s : PlateListState) (print_index : Int) :
    (destroy_print s print_index).2.m_plate_list = s.m_plate_list := by
  unfold destroy_print
  split_ifs <;> rfl

/-- C17, as stated, fails: index 1 is a position of a list of two plates, yet
`delete_plate(1)` returns -1 and changes nothing, because the plate stored
there carries another `m_plate_index`. -/
theorem delete_plate_refuses_misnumbered_plate :
    misnumberedPlates.m_plate_list.length = 2 ∧
      delete_plate misnumberedPlates 1 = (-1, misnumberedPlates) := by
  decide

/-- C17 (amended): `delete_plate(index)` returns -1 and leaves the state
unchanged when `index` is not a position of the list, when only one plate is
left, or when the plate at that position carries an `m_plate_index` other than
`index`; otherwise it returns 0 and the new list holds the plates of the old
list without the one at position `index`, in the same order. -/
theorem delete_plate_removes_exactly_one (s : PlateListState) (index : Int)
    (hint : -2 ^ 31 ≤ index ∧ index < 2 ^ 31) (hlen : s.m_plate_list.length < 2 ^ 31) :
    ((index < 0 ∨ (s.m_plate_list.length : Int) ≤ index ∨ s.m_plate_list.length ≤ 1 ∨
        ∃ plate, s.m_plate_list[index.toNat]? = some plate ∧ plate.m_plate_index ≠ index) →
      delete_plate s index = (-1, s)) ∧
    (¬ (index < 0 ∨ (s.m_plate_list.length : Int) ≤ index ∨ s.m_plate_list.length ≤ 1 ∨
        ∃ plate, s.m_plate_list[index.toNat]? = some plate ∧ plate.m_plate_index ≠ index) →
      (delete_plate s index).1 = 0 ∧
      (delete_plate s index).2.m_plate_list.map PlateEntry.ptr =
        (s.m_plate_list.map PlateEntry.ptr).eraseIdx index.toNat) := by
  have hsize : to_size_t index ≥ (s.m_plate_list.length : Int) ↔
      (index < 0 ∨ (s.m_plate_list.length : Int) ≤ index) := by
    unfold to_size_t
    have hl : (s.m_plate_list.length : Int) < 2 ^ 31 := by exact_mod_cast hlen
    by_cases hneg : index < 0
    · have : index % 2 ^ 64 = index + 2 ^ 64 := by
        rw [Int.emod_eq_add_self_emod, Int.emod_eq_of_lt (by omega) (by omega)]
      omega
    · have : index % 2 ^ 64 = index := Int.emod_eq_of_lt (by omega) (by omega)
      omega
  constructor
  · intro h
    unfold delete_plate
    by_cases h1 : to_size_t index ≥ (s.m_plate_list.length : Int)
    · rw [if_pos h1]
    · rw [if_neg h1]
      by_cases h2 : s.m_plate_list.length ≤ 1
      · rw [if_pos h2]
      · rw [if_neg h2]
        rcases h with h | h | h | ⟨plate, hp, hne⟩
        · exact absurd (hsize.2 (Or.inl h)) h1
        · exact absurd (hsize.2 (Or.inr h)) h1
        · exact absurd h h2
        · simp only [hp]
          rw [if_pos (Ne.symm hne)]
  · intro h
    push_neg at h
    obtain ⟨h0, hlt, hgt, hidx⟩ := h
    have hk : index.toNat < s.m_plate_list.length := by omega
    have h1 : ¬ to_size_t index ≥ (s.m_plate_list.length : Int) := by
      rw [hsize]; omega
    have hget := List.getElem?_eq_getElem hk
    have hsame := hidx _ hget
    unfold delete_plate
    rw [if_neg h1, if_neg (by omega)]
    simp only [hget]
    rw [if_neg (by rw [hsame]; simp)]
    refine ⟨rfl, ?_⟩
    simp only [destroy_print_plates, reindex_from_ptr, map_ptr_eraseIdx]

/-- Instance of the amended C17: deleting the middle plate of three leaves the
first and the last plate, in this order. -/
theorem delete_plate_removes_exactly_one_witness :
    threePlates.m_plate_list.map PlateEntry.ptr = [0, 3, 6] ∧
      (delete_plate threePlates 1).1 = 0 ∧
      (delete_plate threePlates 1).2.m_plate_list.map PlateEntry.ptr = [0, 6] :=
  ⟨by decide,
    ((delete_plate_removes_exactly_one threePlates 1 (by decide) (by decide)).2
      (by decide)).1,
    by decide⟩

end PlateListState

/-! ## Compatibility of nozzles and filaments -/

theorem mem_dedup_fold {α : Type} [DecidableEq α] (l : List α) (x : α) :
    x ∈ l.foldr (fun a acc => if acc.head? = some a then acc else a :: acc) [] ↔ x ∈ l := by
  induction l with
  | nil => simp
  | cons a l ih =>
    simp only [List.foldr_cons, List.mem_cons]
    split_ifs with h
    · rw [ih]
      constructor
      · exact Or.inr
      · rintro (rfl | hx)
        · exact ih.1 (List.mem_of_mem_head? h)
        · exact hx
    · rw [List.mem_cons, ih]

theorem mem_std_set {α : Type} [DecidableEq α] (r : α → α → Prop) [DecidableRel r]
    (l : List α) (x : α) : x ∈ std_set r l ↔ x ∈ l := by
  unfold std_set
  rw [mem_dedup_fold]
  exact (List.perm_insertionSort r l).mem_iff

namespace PartPlate

theorem filament_msg_names (l : List String) (a : String) (h : a ∈ l) :
    ∃ pre post : List Char, (get_incompatible_filament_msg l).data = pre ++ a.data ++ post := by
  induction l using get_incompatible_filament_msg.induct with
  | case1 => simp at h
  | case2 f =>
    simp only [List.mem_singleton] at h
    subst h
    exact ⟨[], [], by simp [get_incompatible_filament_msg]⟩
  | case3 f rest hne ih =>
    rw [get_incompatible_filament_msg]
    · rcases List.mem_cons.1 h with rfl | h
      · exact ⟨[], ",".data ++ (get_incompatible_filament_msg rest).data, by
          simp [String.data_append]⟩
      · obtain ⟨pre, post, hp⟩ := ih h
        exact ⟨f.data ++ ",".data ++ pre, post, by
          simp [String.data_append, hp]⟩
    · exact hne

theorem combination_lines_names (sv : NozzleServices) (d : Int)
    (entries : List (Int × List String)) (elem : Int × List String) (a : String)
    (he : elem ∈ entries) (ha : a ∈ elem.2) :
    ∃ pre mid post : List Char, (combination_lines sv d entries).data =
      pre ++ (get_nozzle_msg sv d elem.1).data ++ mid ++ a.data ++ post := by
  induction entries with
  | nil => simp at he
  | cons e rest ih =>
    rw [combination_lines]
    rcases List.mem_cons.1 he with rfl | he
    · obtain ⟨p, q, hp⟩ := filament_msg_names elem.2 a ha
      exact ⟨[], " with ".data ++ p,
        q ++ "\n".data ++ (combination_lines sv d rest).data, by
          simp [String.data_append, hp]⟩
    · obtain ⟨pre, mid, post, hp⟩ := ih he
      exact ⟨(get_nozzle_msg sv d e.1 ++ " with " ++ get_incompatible_filament_msg e.2 ++
        "\n").data ++ pre, mid, post, by simp [String.data_append, hp]⟩

theorem mem_incompatible_selected_map (sv : NozzleServices) (d : Int) (selected : List String)
    (volumes : List Int) (elem : Int × List String) :
    elem ∈ incompatible_selected_map sv d selected volumes ↔
      elem.1 ∈ volumes ∧ elem.2 = get_incompatible_selected sv d selected elem.1 ∧
        elem.2 ≠ [] := by
  unfold incompatible_selected_map
  rw [List.mem_filterMap]
  constructor
  · rintro ⟨vt, hvt, h⟩
    simp only at h
    split_ifs at h with hemp
    simp only [Option.some.injEq] at h
    subst h
    refine ⟨hvt, rfl, ?_⟩
    simpa using hemp
  · rintro ⟨h1, h2, h3⟩
    refine ⟨elem.1, h1, ?_⟩
    simp only
    rw [if_neg (by rw [← h2]; simpa using h3), ← h2]

theorem mem_get_incompatible_selected (sv : NozzleServices) (d : Int) (selected : List String)
    (vt : Int) (a : String) :
    a ∈ get_incompatible_selected sv d selected vt ↔
      a ∈ selected ∧ a ∈ sv.get_incompatible_filaments_by_nozzle d vt := by
  simp [get_incompatible_selected, List.mem_filter]


/-- C14: with a nozzle diameter `d` and at least one nozzle volume type
configured, `check_compatible_of_nozzle_and_filament` returns true with an
empty message if and only if no selected filament alias is in the
incompatible-filament list of any configured volume type; otherwise it returns
false, and the message names every violating pair of nozzle volume type and
filament alias. -/
theorem check_compatible_of_nozzle_and_filament_spec (sv : NozzleServices)
    (config : NozzleConfig) (filament_presets : List String) (d : Int)
    (hd : config.nozzle_diameter.head? = some d) (hv : config.nozzle_volume_type ≠ []) :
    (check_compatible_of_nozzle_and_filament sv config filament_presets = some (true, "") ↔
      ∀ vt ∈ config.nozzle_volume_type, ∀ preset ∈ filament_presets,
        get_filament_alias preset ∉ sv.get_incompatible_filaments_by_nozzle d vt) ∧
    ((∃ vt ∈ config.nozzle_volume_type, ∃ preset ∈ filament_presets,
        get_filament_alias preset ∈ sv.get_incompatible_filaments_by_nozzle d vt) →
      ∃ msg, check_compatible_of_nozzle_and_filament sv config filament_presets
          = some (false, msg) ∧
        ∀ vt ∈ config.nozzle_volume_type, ∀ preset ∈ filament_presets,
          get_filament_alias preset ∈ sv.get_incompatible_filaments_by_nozzle d vt →
          NamesPair msg (get_nozzle_msg sv d vt) (get_filament_alias preset)) := by
  obtain ⟨diams, types⟩ := config
  cases diams with
  | nil => simp at hd
  | cons d0 drest =>
    simp only [List.head?_cons, Option.some.injEq] at hd
    subst hd
    cases types with
    | nil => exact absurd rfl hv
    | cons t0 trest =>
      -- every violating pair is an entry of the map
      have hentry : ∀ vt ∈ t0 :: trest, ∀ preset ∈ filament_presets,
          get_filament_alias preset ∈ sv.get_incompatible_filaments_by_nozzle d0 vt →
          ∃ elem ∈ incompatible_selected_map sv d0
              (std_set string_le (filament_presets.map get_filament_alias))
              (std_set (fun a b : Int => a ≤ b) (t0 :: trest)),
            elem.1 = vt ∧ get_filament_alias preset ∈ elem.2 := by
        intro vt hvt preset hp hinc
        have hsel : get_filament_alias preset ∈ get_incompatible_selected sv d0
            (std_set string_le (filament_presets.map get_filament_alias)) vt := by
          rw [mem_get_incompatible_selected, mem_std_set]
          exact ⟨List.mem_map_of_mem _ hp, hinc⟩
        refine ⟨(vt, _), (mem_incompatible_selected_map sv d0 _ _ _).2
          ⟨(mem_std_set _ _ _).2 hvt, rfl, List.ne_nil_of_mem hsel⟩, rfl, hsel⟩
      -- every entry of the map is a violating pair
      have hback : ∀ elem ∈ incompatible_selected_map sv d0
            (std_set string_le (filament_presets.map get_filament_alias))
            (std_set (fun a b : Int => a ≤ b) (t0 :: trest)),
          ∃ vt ∈ t0 :: trest, ∃ preset ∈ filament_presets,
            get_filament_alias preset ∈ sv.get_incompatible_filaments_by_nozzle d0 vt := by
        intro elem he
        obtain ⟨h1, h2, h3⟩ := (mem_incompatible_selected_map sv d0 _ _ _).1 he
        obtain ⟨a, ha⟩ := List.exists_mem_of_ne_nil _ h3
        rw [h2, mem_get_incompatible_selected, mem_std_set] at ha
        obtain ⟨preset, hp, hpa⟩ := List.mem_map.1 ha.1
        exact ⟨elem.1, (mem_std_set _ _ _).1 h1, preset, hp, by rw [hpa]; exact ha.2⟩
      unfold check_compatible_of_nozzle_and_filament
      simp only
      cases hmap : incompatible_selected_map sv d0
          (std_set string_le (filament_presets.map get_filament_alias))
          (std_set (fun a b : Int => a ≤ b) (t0 :: trest)) with
      | nil =>
        rw [hmap] at hentry
        refine ⟨⟨fun _ vt hvt preset hp hinc => ?_, fun _ => rfl⟩, fun hex => ?_⟩
        · obtain ⟨elem, he, _⟩ := hentry vt hvt preset hp hinc
          simp at he
        · obtain ⟨vt, hvt, preset, hp, hinc⟩ := hex
          obtain ⟨elem, he, _⟩ := hentry vt hvt preset hp hinc
          simp at he
      | cons e1 erest =>
        rw [hmap] at hentry hback
        have hviol := hback e1 (List.mem_cons_self _ _)
        cases erest with
        | nil =>
          refine ⟨⟨fun h => ?_, fun h => ?_⟩, fun _ => ⟨_, rfl, fun vt hvt preset hp hinc => ?_⟩⟩
          · simp at h
          · obtain ⟨vt, hvt, preset, hp, hinc⟩ := hviol
            exact absurd hinc (h vt hvt preset hp)
          · obtain ⟨elem, he, h1, h2⟩ := hentry vt hvt preset hp hinc
            simp only [List.mem_singleton] at he
            subst he
            subst h1
            obtain ⟨p, q, hpq⟩ := filament_msg_names elem.2 _ h2
            exact ⟨"It is not recommended to print the following filament(s) with ".data,
              ": ".data ++ p, q ++ "\n".data, by simp [String.data_append, hpq]⟩
        | cons e2 erest =>
          refine ⟨⟨fun h => ?_, fun h => ?_⟩, fun _ => ⟨_, rfl, fun vt hvt preset hp hinc => ?_⟩⟩
          · simp at h
          · obtain ⟨vt, hvt, preset, hp, hinc⟩ := hviol
            exact absurd hinc (h vt hvt preset hp)
          · obtain ⟨elem, he, h1, h2⟩ := hentry vt hvt preset hp hinc
            subst h1
            obtain ⟨pre, mid, post, hl⟩ := combination_lines_names sv d0 _ elem _ he h2
            exact ⟨("It is not recommended to use the following nozzle and filament " ++
              "combinations:\n").data ++ pre, mid, post, by
                rw [String.data_append, hl]
                simp [String.data_append]⟩

/-- Instance of C14: two nozzle volume types, three violating pairs, all named
by the message. -/
theorem check_compatible_of_nozzle_and_filament_spec_witness :
    check_compatible_of_nozzle_and_filament sampleNozzleServices ⟨[2, 2], [1, 0]⟩
        ["TPU @BBL", " PLA-CF @X", "PA6-GF", "PLA @BBL"]
      = some (false,
        "It is not recommended to use the following nozzle and filament combinations:\n" ++
        "0.2mm Standard nozzle with PA6-GF\n" ++
        "0.2mm High Flow nozzle with PLA-CF,TPU\n") ∧
      check_compatible_of_nozzle_and_filament sampleNozzleServices ⟨[2, 2], [1, 0]⟩
        ["TPU @BBL", " PLA-CF @X", "PA6-GF", "PLA @BBL"]
        ≠ some (true, "") :=
  ⟨by decide, fun h =>
    ((check_compatible_of_nozzle_and_filament_spec sampleNozzleServices ⟨[2, 2], [1, 0]⟩
      ["TPU @BBL", " PLA-CF @X", "PA6-GF", "PLA @BBL"] 2
      (by decide) (by decide)).1.1 h) 0 (by decide) "PA6-GF" (by decide) (by decide)⟩

end PartPlate

/-! ## Readiness of all plates -/

namespace PartPlateList

theorem ready_for_slice_scan_iff (can_slice : PartPlate → Bool) (plates : List PartPlate) :
    ready_for_slice_scan can_slice plates = true ↔ ∃ plate ∈ plates, can_slice plate = true := by
  induction plates with
  | nil => simp [ready_for_slice_scan]
  | cons a rest ih =>
    unfold ready_for_slice_scan
    by_cases h : can_slice a = true
    · simp [h]
    · simp [h, ih]

/-- C21, at a list of two plates of which only the first can slice:
`is_all_plates_ready_for_slice` returns `true` although `can_slice()` fails for
the second plate, and on a list without plates, where `can_slice()` holds for
every plate, it returns `false`. -/
theorem is_all_plates_ready_for_slice_true_with_blocked_plate :
    is_all_plates_ready_for_slice sampleCanSlice readyAndBlockedPlates = true ∧
      sampleCanSlice plateWithOutsideCube = false ∧
      plateWithOutsideCube ∈ readyAndBlockedPlates.m_plate_list ∧
      is_all_plates_ready_for_slice sampleCanSlice
        { readyAndBlockedPlates with m_plate_list := [] } = false := by
  decide

end PartPlateList

/-! ## Outside flags and tracked instances -/

namespace PartPlate

/-- C22: in every plate state reachable from `init()` by `add_instance`,
`remove_instance`, `clear` and `update_object_index`, `instance_outside_set` is
a subset of `obj_to_instance_set`. -/
theorem outside_set_subset_of_tracked (p : PartPlate) (h : ReachableByTracking p) :
    p.instance_outside_set ⊆ p.obj_to_instance_set := by
  induction h with
  | init origin printable shape_box plate_box exclude => simp [PartPlate.init]
  | add_instance g m p o i mv bb _ ih =>
    by_cases hv : valid_instance m o i = true
    · rw [add_instance_obj g m p o i mv bb hv, add_instance_out g m p o i mv bb hv]
      split_ifs
      · exact Finset.insert_subset_insert _ ih
      · exact fun x hx => Finset.mem_insert_of_mem (ih hx)
    · have hv2 : valid_instance m o i = false := by simpa using hv
      rw [add_instance_invalid g m p o i mv bb hv2]
      exact ih
  | remove_instance p o i _ ih =>
    by_cases h : (o, i) ∈ p.obj_to_instance_set
    · rw [remove_instance_obj p o i h, remove_instance_out p o i h]
      exact Finset.erase_subset_erase _ ih
    · rw [remove_instance_untracked p o i h]
      exact ih
  | clear p b _ _ =>
    cases b <;> simp [PartPlate.clear, update_slice_result_valid_state]
  | update_object_index p r mx _ ih =>
    intro x hx
    simp only [update_object_index, mem_reindex_set] at hx ⊢
    obtain ⟨pr, hpr, he⟩ := hx
    exact ⟨pr, ih hpr, he⟩

/-- Instance of C22: after `init()` and `add_instance(0, 0)` of a cube beside the
plate, the flagged pair `(0, 0)` is a tracked pair. -/
theorem outside_set_subset_of_tracked_witness :
    (0, 0) ∈ plateWithOutsideCube.instance_outside_set ∧
      plateWithOutsideCube.instance_outside_set ⊆ plateWithOutsideCube.obj_to_instance_set :=
  ⟨by decide,
    outside_set_subset_of_tracked _
      (ReachableByTracking.add_instance boxGeometry (cubesModel [(300, 0, 0)]) samplePlate 0 0
        false none (ReachableByTracking.init _ _ _ _ _))⟩

/-- C23: `remove_instance` returns 0 exactly when the pair was tracked by the
plate; for a pair that was not tracked it returns a non-zero status and leaves
`obj_to_instance_set`, `instance_outside_set` and `m_ready_for_slice` as they
were. -/
theorem remove_instance_status_iff_tracked (p : PartPlate) (obj_id instance_id : Int) :
    ((remove_instance p obj_id instance_id).1 = 0 ↔
        (obj_id, instance_id) ∈ p.obj_to_instance_set) ∧
      ((obj_id, instance_id) ∉ p.obj_to_instance_set →
        (remove_instance p obj_id instance_id).1 ≠ 0 ∧
        (remove_instance p obj_id instance_id).2.obj_to_instance_set = p.obj_to_instance_set ∧
        (remove_instance p obj_id instance_id).2.instance_outside_set =
          p.instance_outside_set ∧
        (remove_instance p obj_id instance_id).2.m_ready_for_slice = p.m_ready_for_slice) := by
  by_cases h : (obj_id, instance_id) ∈ p.obj_to_instance_set
  · refine ⟨?_, fun hn => absurd h hn⟩
    simp [remove_instance, h]
  · rw [remove_instance_untracked p obj_id instance_id h]
    simp [h]

/-- Instance of C23: on the plate that tracks only `(0, 0)`, `remove_instance(1, 0)`
reports a failure and changes nothing, `remove_instance(0, 0)` returns 0. -/
theorem remove_instance_status_iff_tracked_witness :
    (remove_instance plateWithOutsideCube 0 0).1 = 0 ∧
      (remove_instance plateWithOutsideCube 1 0).1 ≠ 0 ∧
      (remove_instance plateWithOutsideCube 1 0).2.obj_to_instance_set =
        plateWithOutsideCube.obj_to_instance_set ∧
      (remove_instance plateWithOutsideCube 1 0).2.instance_outside_set =
        plateWithOutsideCube.instance_outside_set ∧
      (remove_instance plateWithOutsideCube 1 0).2.m_ready_for_slice =
        plateWithOutsideCube.m_ready_for_slice :=
  ⟨(remove_instance_status_iff_tracked plateWithOutsideCube 0 0).1.2 (by decide),
    (remove_instance_status_iff_tracked plateWithOutsideCube 1 0).2 (by decide)⟩

end PartPlate

/-! ## Print sequences after a filament is deleted -/

theorem mem_of_isPermutationUpTo (n : Nat) (l : List Int) (h : IsPermutationUpTo n l) (v : Int) :
    v ∈ l ↔ 1 ≤ v ∧ v ≤ n := by
  rw [h.mem_iff, List.mem_map]
  constructor
  · rintro ⟨k, hk, rfl⟩
    rw [List.mem_range'_1] at hk
    omega
  · intro hv
    refine ⟨v.toNat, ?_, ?_⟩
    · rw [List.mem_range'_1]; omega
    · omega

theorem nodup_of_isPermutationUpTo (n : Nat) (l : List Int) (h : IsPermutationUpTo n l) :
    l.Nodup := by
  rw [h.nodup_iff]
  exact (List.nodup_range' 1 n).map (fun a b hab => by exact_mod_cast hab)

theorem isPermutationUpTo_of_nodup (n : Nat) (l : List Int) (hn : l.Nodup)
    (hm : ∀ v, v ∈ l ↔ 1 ≤ v ∧ v ≤ n) : IsPermutationUpTo n l := by
  unfold IsPermutationUpTo
  rw [List.perm_ext_iff_of_nodup hn
    ((List.nodup_range' 1 n).map (fun a b hab => by exact_mod_cast hab))]
  intro v
  rw [hm, List.mem_map]
  constructor
  · intro hv
    refine ⟨v.toNat, ?_, ?_⟩
    · rw [List.mem_range'_1]; omega
    · omega
  · rintro ⟨k, hk, rfl⟩
    rw [List.mem_range'_1] at hk
    omega

theorem removed_and_renumbered_perm (n f : Nat) (l : List Int) (h : IsPermutationUpTo n l)
    (hf : f < n) : IsPermutationUpTo (n - 1) (removed_and_renumbered f l) := by
  have hmem := mem_of_isPermutationUpTo n l h
  apply isPermutationUpTo_of_nodup
  · unfold removed_and_renumbered
    apply List.Nodup.map_on
    · intro a ha b hb hab
      simp only [List.mem_filter, decide_eq_true_eq] at ha hb
      split_ifs at hab <;> omega
    · exact (nodup_of_isPermutationUpTo n l h).filter _
  · intro v
    simp only [removed_and_renumbered, List.mem_map, List.mem_filter, decide_eq_true_eq, hmem]
    constructor
    · rintro ⟨a, ⟨⟨ha1, ha2⟩, hne⟩, rfl⟩
      split_ifs <;> omega
    · intro hv
      by_cases hle : v ≤ f
      · exact ⟨v, ⟨⟨by omega, by omega⟩, by omega⟩, by rw [if_neg (by omega)]⟩
      · exact ⟨v + 1, ⟨⟨by omega, by omega⟩, by omega⟩, by rw [if_pos (by omega)]; omega⟩

namespace PartPlate

theorem delete_filament_from_order_eq (n f : Nat) (l : List Int) (h : IsPermutationUpTo n l)
    (hn : n < 2 ^ 31) (hf : f < n) :
    delete_filament_from_order f l = removed_and_renumbered f l := by
  have hmem := mem_of_isPermutationUpTo n l h
  have hsz : ∀ v : Int, 0 ≤ v → v ≤ n → to_size_t v = v := by
    intro v h0 h1
    unfold to_size_t
    exact Int.emod_eq_of_lt h0 (by have : (n : Int) < 2 ^ 31 := by exact_mod_cast hn
                                   omega)
  have hfilter : l.filter (fun n => !(to_size_t n == to_size_t ((f : Int) + 1))) =
      l.filter (fun v => decide (v ≠ (f : Int) + 1)) := by
    apply List.filter_congr
    intro v hv
    have hv2 := (hmem v).1 hv
    rw [hsz v (by omega) hv2.2, hsz ((f : Int) + 1) (by omega) (by omega)]
    by_cases hvf : v = (f : Int) + 1 <;> simp [hvf]
  unfold delete_filament_from_order removed_and_renumbered
  rw [hfilter]
  apply List.map_congr_left
  intro v hv
  simp only [List.mem_filter, decide_eq_true_eq] at hv
  have hv2 := (hmem v).1 hv.1
  rw [hsz v (by omega) hv2.2]
  by_cases hgt : v > (f : Int)
  · rw [if_pos hgt, if_pos (by omega)]
  · rw [if_neg hgt, if_neg (by omega)]

/-- C27: when the stored first-layer sequence is a permutation of `1..N` and
`filament_id < N`, `update_first_layer_print_sequence_when_delete_filament`
stores the sequence without the value `filament_id + 1`, every larger value
lowered by one and the order of the rest kept, which is a permutation of
`1..N-1`; every per-layer order of the other layers that is a permutation of
`1..N` is replaced in the same way, the layer ranges staying in place. -/
theorem delete_filament_renumbers_print_sequences (c : SequenceConfig) (N filament_id : Nat)
    (hN : N < 2 ^ 31) (hid : filament_id < N) :
    (∀ seq, c.first_layer_print_sequence = some seq → IsPermutationUpTo N seq →
      (update_first_layer_print_sequence_when_delete_filament c
          filament_id).first_layer_print_sequence =
        some (removed_and_renumbered filament_id seq) ∧
      IsPermutationUpTo (N - 1) (removed_and_renumbered filament_id seq)) ∧
    ((update_first_layer_print_sequence_when_delete_filament c
          filament_id).other_layers_print_sequence.map Prod.fst =
        c.other_layers_print_sequence.map Prod.fst) ∧
    (∀ (i : Nat) (s : LayerPrintSequence), c.other_layers_print_sequence[i]? = some s →
      IsPermutationUpTo N s.2 →
      (update_first_layer_print_sequence_when_delete_filament c
          filament_id).other_layers_print_sequence[i]? =
        some (s.1, removed_and_renumbered filament_id s.2) ∧
      IsPermutationUpTo (N - 1) (removed_and_renumbered filament_id s.2)) := by
  have hother : (update_first_layer_print_sequence_when_delete_filament c
      filament_id).other_layers_print_sequence =
      c.other_layers_print_sequence.map
        (fun s => (s.1, delete_filament_from_order filament_id s.2)) := by
    unfold update_first_layer_print_sequence_when_delete_filament
      get_other_layers_print_sequence set_other_layers_print_sequence
    cases hc : c.other_layers_print_sequence with
    | nil =>
      simp only [List.isEmpty_nil, Bool.not_true, Bool.false_eq_true, if_false, List.map_nil]
      split
      · exact hc
      · split_ifs <;> exact hc
    | cons a rest =>
      simp only [List.isEmpty_cons, Bool.not_false, if_true, List.map_cons,
        Bool.false_eq_true, if_false]
      split
      · rfl
      · split_ifs <;> rfl
  have hfirst : ∀ seq, c.first_layer_print_sequence = some seq → seq ≠ [] →
      seq.head? ≠ some 0 →
      (update_first_layer_print_sequence_when_delete_filament c
        filament_id).first_layer_print_sequence =
        some (delete_filament_from_order filament_id seq) := by
    intro seq hseq hne hhead
    unfold update_first_layer_print_sequence_when_delete_filament
      get_other_layers_print_sequence set_other_layers_print_sequence
    cases hc : c.other_layers_print_sequence <;> simp [hseq, hne, hhead]
  refine ⟨?_, ?_, ?_⟩
  · intro seq hseq hperm
    have hmem := mem_of_isPermutationUpTo N seq hperm
    have hne : seq ≠ [] := by
      intro he
      have : (1 : Int) ∈ seq := (hmem 1).2 ⟨le_refl _, by omega⟩
      rw [he] at this
      simp at this
    have hhead : seq.head? ≠ some 0 := by
      intro h0
      have : (0 : Int) ∈ seq := List.mem_of_mem_head? h0
      have := (hmem 0).1 this
      omega
    rw [hfirst seq hseq hne hhead, delete_filament_from_order_eq N filament_id seq hperm hN hid]
    exact ⟨rfl, removed_and_renumbered_perm N filament_id seq hperm hid⟩
  · rw [hother, List.map_map]
    rfl
  · intro i s hs hperm
    rw [hother, List.getElem?_map, hs]
    simp only [Option.map_some']
    rw [delete_filament_from_order_eq N filament_id s.2 hperm hN hid]
    exact ⟨rfl, removed_and_renumbered_perm N filament_id s.2 hperm hid⟩

/-- Instance of C27: deleting filament 2 (`filament_id = 1`) of four turns the
first-layer order 3, 1, 4, 2 into 2, 1, 3 and the order 4, 3, 2, 1 of the other
layers into 3, 2, 1. -/
theorem delete_filament_renumbers_print_sequences_witness :
    (update_first_layer_print_sequence_when_delete_filament fourFilamentSequences
        1).first_layer_print_sequence = some [2, 1, 3] ∧
      IsPermutationUpTo 3 [2, 1, 3] ∧
      (update_first_layer_print_sequence_when_delete_filament fourFilamentSequences
        1).other_layers_print_sequence[0]? = some ((2, 5), [3, 2, 1]) ∧
      IsPermutationUpTo 3 [3, 2, 1] :=
  have hp1 : IsPermutationUpTo 4 [3, 1, 4, 2] := by
    unfold IsPermutationUpTo; decide
  have hp2 : IsPermutationUpTo 4 [4, 3, 2, 1] := by
    unfold IsPermutationUpTo; decide
  have h := delete_filament_renumbers_print_sequences fourFilamentSequences 4 1
    (by norm_num) (by norm_num)
  ⟨(h.1 [3, 1, 4, 2] rfl hp1).1, (h.1 [3, 1, 4, 2] rfl hp1).2,
    (h.2.2 0 ((2, 5), [4, 3, 2, 1]) rfl hp2).1, (h.2.2 0 ((2, 5), [4, 3, 2, 1]) rfl hp2).2⟩

end PartPlate

/-! ## Bed indices before and after arrangement -/

theorem to_unsigned_of_range (b : Int) (h0 : 0 ≤ b) (h1 : b < 2 ^ 32) : to_unsigned b = b :=
  Int.emod_eq_of_lt h0 h1

theorem split_at_index {α : Type} (l : List α) (i : Nat) (a : α) (h : l[i]? = some a) :
    l = l.take i ++ a :: l.drop (i + 1) ∧ (l.take i).length = i := by
  induction l generalizing i with
  | nil => simp at h
  | cons x xs ih =>
    cases i with
    | zero =>
      simp only [List.getElem?_cons_zero, Option.some.injEq] at h
      simp [h]
    | succ j =>
      simp only [List.getElem?_cons_succ] at h
      obtain ⟨h1, h2⟩ := ih j h
      refine ⟨?_, by simp [h2]⟩
      simp only [List.take_succ_cons, List.drop_succ_cons, List.cons_append]
      rw [← h1]

theorem split_at_count {α : Type} (u : α → Bool) (l : List α) (k : Nat)
    (h : k < l.countP u) :
    ∃ pre a post, l = pre ++ a :: post ∧ u a = true ∧ pre.countP u = k := by
  induction l generalizing k with
  | nil => simp at h
  | cons x xs ih =>
    by_cases hx : u x = true
    · cases k with
      | zero => exact ⟨[], x, xs, rfl, hx, rfl⟩
      | succ j =>
        rw [List.countP_cons_of_pos _ _ hx] at h
        obtain ⟨pre, a, post, h1, h2, h3⟩ := ih j (by omega)
        exact ⟨x :: pre, a, post, by rw [h1]; rfl, h2, by
          rw [List.countP_cons_of_pos _ _ hx, h3]⟩
    · rw [List.countP_cons_of_neg _ _ hx] at h
      obtain ⟨pre, a, post, h1, h2, h3⟩ := ih k h
      exact ⟨x :: pre, a, post, by rw [h1]; rfl, h2, by
        rw [List.countP_cons_of_neg _ _ hx, h3]⟩

namespace PartPlateList

/-- The shared loop stops at the unlocked plate that has as many unlocked
plates before it as `bed_idx` exceeds the start position. -/
theorem bed_index_scan_spec (pre : List PartPlate) (plate : PartPlate) (post : List PartPlate)
    (i : Nat) (b : Int) (hu : Unlocked plate = true)
    (hb : b = (i : Int) + (pre.countP Unlocked : Int))
    (hlen : i + pre.length < 2 ^ 32) :
    bed_index_scan (pre ++ plate :: post) i b = (true, ((i + pre.length : Nat) : Int)) := by
  induction pre generalizing i b with
  | nil =>
    have hl : plate.is_locked = false := by simpa [Unlocked] using hu
    simp only [List.nil_append, bed_index_scan, hl, Bool.false_eq_true, if_false]
    simp only [List.countP_nil, Nat.cast_zero, add_zero] at hb
    have hi : (i : Int) < 2 ^ 32 := by
      have : i < 2 ^ 32 := by simpa using hlen
      exact_mod_cast this
    rw [to_unsigned_of_range b (by omega) (by omega), if_pos (by omega)]
    simp [hb]
  | cons q rest ih =>
    rw [List.cons_append, bed_index_scan]
    have hlen2 : (i + 1) + rest.length < 2 ^ 32 := by
      simp only [List.length_cons] at hlen; omega
    have hcnt : rest.countP Unlocked ≤ rest.length := List.countP_le_length _
    have hres : ((i + 1 + rest.length : Nat) : Int) = ((i + (q :: rest).length : Nat) : Int) := by
      simp only [List.length_cons]; congr 1; omega
    by_cases hq : q.is_locked = true
    · have hqu : ¬ Unlocked q = true := by simp [Unlocked, hq]
      rw [if_pos hq, ih (i + 1) (b + 1) (by
        rw [List.countP_cons_of_neg _ _ hqu] at hb
        push_cast; omega) hlen2, hres]
    · have hqu : Unlocked q = true := by simpa [Unlocked] using hq
      rw [List.countP_cons_of_pos _ _ hqu] at hb
      have hb32 : b < 2 ^ 32 := by
        have : ((i + 1 + rest.length : Nat) : Int) < 2 ^ 32 := by exact_mod_cast hlen2
        push_cast at hb this; omega
      rw [if_neg hq, to_unsigned_of_range b (by push_cast at hb; omega) hb32,
        if_neg (by push_cast at hb; omega),
        ih (i + 1) b (by push_cast at hb ⊢; omega) hlen2, hres]

/-- The loop of `preprocess_arrange_polygon` stops at the first plate that
tracks the instance. -/
theorem preprocess_scan_spec (grid : ArrangeGrid) (o j : Int) (ap : ArrangePolygon)
    (pre : List PartPlate) (plate : PartPlate) (post : List PartPlate) (i : Nat) (cnt : Int)
    (hpre : ∀ q ∈ pre, q.contain_instance o j = false)
    (hc : plate.contain_instance o j = true) (hu : Unlocked plate = true) :
    preprocess_scan grid o j ap false (pre ++ plate :: post) i cnt =
      (place_on_grid grid ap
        (((i + pre.length : Nat) : Int) - (cnt + (pre.countP PartPlate.is_locked : Int)))
        (i + pre.length)).map (fun a => (false, a)) := by
  induction pre generalizing i cnt with
  | nil =>
    have hl : plate.is_locked = false := by simpa [Unlocked] using hu
    simp [preprocess_scan, hc, hl]
  | cons q rest ih =>
    have hq : q.contain_instance o j = false := hpre q (List.mem_cons_self _ _)
    have hrest : ∀ r ∈ rest, r.contain_instance o j = false :=
      fun r hr => hpre r (List.mem_cons_of_mem _ hr)
    rw [List.cons_append, preprocess_scan, if_neg (by simp [hq]), ih (i + 1) _ hrest]
    have hidx : i + 1 + rest.length = i + (q :: rest).length := by
      simp only [List.length_cons]; omega
    rw [hidx]
    congr 2
    by_cases hql : q.is_locked = true
    · rw [if_pos hql, List.countP_cons_of_pos _ _ hql]; omega
    · rw [if_neg hql, List.countP_cons_of_neg _ _ hql]

theorem preprocess_scan_untracked (grid : ArrangeGrid) (o j : Int) (ap : ArrangePolygon)
    (plates : List PartPlate) (i : Nat) (cnt : Int)
    (h : ∀ q ∈ plates, q.contain_instance o j = false) :
    preprocess_scan grid o j ap false plates i cnt =
      some (false, { ap with bed_idx := (grid.max_plates_count : Int) }) := by
  induction plates generalizing i cnt with
  | nil => simp [preprocess_scan]
  | cons q rest ih =>
    have hq : q.contain_instance o j = false := h q (List.mem_cons_self _ _)
    simp only [preprocess_scan, hq, Bool.false_eq_true, if_false]
    exact ih _ _ (fun r hr => h r (List.mem_cons_of_mem _ hr))

theorem countP_locked_add_unlocked (l : List PartPlate) :
    l.countP PartPlate.is_locked + l.countP Unlocked = l.length := by
  induction l with
  | nil => rfl
  | cons q rest ih =>
    by_cases hq : q.is_locked = true
    · have hqu : ¬ Unlocked q = true := by simp [Unlocked, hq]
      rw [List.countP_cons_of_pos _ _ hq, List.countP_cons_of_neg _ _ hqu, List.length_cons]
      omega
    · have hqu : Unlocked q = true := by simpa [Unlocked] using hq
      rw [List.countP_cons_of_neg _ _ hq, List.countP_cons_of_pos _ _ hqu, List.length_cons]
      omega

/-- C25: with `bed_idx = k >= 0` and at least `k + 1` unlocked plates (the list
shorter than `2^31`), `postprocess_bed_index_for_selected` sets `bed_idx` to the
position of the `(k+1)`-th unlocked plate, an unlocked plate with `k` unlocked
plates before it, and creates no plate; with `bed_idx = -1` the polygon is left
as it is and no plate is created. -/
theorem postprocess_bed_index_for_selected_spec (grid : ArrangeGrid) (l : PartPlateList)
    (arrange_polygon : ArrangePolygon) :
    (∀ k : Nat, arrange_polygon.bed_idx = (k : Int) → k < l.m_plate_list.countP Unlocked →
      l.m_plate_list.length < 2 ^ 31 →
      ∃ (p : Nat) (plate : PartPlate), l.m_plate_list[p]? = some plate ∧
        plate.is_locked = false ∧ (l.m_plate_list.take p).countP Unlocked = k ∧
        postprocess_bed_index_for_selected grid l arrange_polygon =
          ({ arrange_polygon with bed_idx := (p : Int) }, l.m_plate_list.length)) ∧
    (arrange_polygon.bed_idx = -1 →
      postprocess_bed_index_for_selected grid l arrange_polygon =
        (arrange_polygon, l.m_plate_list.length)) := by
  refine ⟨?_, fun h => by simp [postprocess_bed_index_for_selected, h]⟩
  intro k hk hcount hlen
  obtain ⟨pre, plate, post, hsplit, hu, hpre⟩ := split_at_count Unlocked l.m_plate_list k hcount
  have hlt : pre.length < l.m_plate_list.length := by rw [hsplit]; simp
  refine ⟨pre.length, plate, ?_, by simpa [Unlocked] using hu, ?_, ?_⟩
  · rw [hsplit, List.getElem?_append_right (le_refl _)]; simp
  · rw [hsplit]; simp [hpre]
  · have hscan := bed_index_scan_spec pre plate post 0 arrange_polygon.bed_idx hu
      (by rw [hk, hpre]; simp) (by
        have : (2 : Nat) ^ 31 < 2 ^ 32 := by norm_num
        omega)
    rw [← hsplit] at hscan
    have hne : arrange_polygon.bed_idx ≠ -1 := by rw [hk]; omega
    simp only [postprocess_bed_index_for_selected, hne, if_false, hscan, if_true]
    simp

/-- Instance of C25: of four plates the second is locked; bed index 1 counted
over the unlocked plates becomes plate position 2, and no plate is created. -/
theorem postprocess_bed_index_for_selected_spec_witness :
    ∃ (p : Nat) (plate : PartPlate), plateListWithLockedPlate.m_plate_list[p]? = some plate ∧
      plate.is_locked = false ∧
      (plateListWithLockedPlate.m_plate_list.take p).countP Unlocked = 1 ∧
      postprocess_bed_index_for_selected sampleGrid plateListWithLockedPlate
          { samplePolygon with bed_idx := 1 } =
        ({ samplePolygon with bed_idx := (p : Int) }, 4) :=
  (postprocess_bed_index_for_selected_spec sampleGrid plateListWithLockedPlate
    { samplePolygon with bed_idx := 1 }).1 1 rfl (by decide) (by decide)

/-- C26: for an instance tracked by the unlocked plate at position `i` and by no
plate before it, `preprocess_arrange_polygon(..., selected = false)` returns
`false` with `bed_idx = i - (locked plates before i)`, `row = i / m_plate_cols`
and `col = i % m_plate_cols`, and `postprocess_bed_index_for_unselected` then
sets `bed_idx` to `i`; an instance tracked by no plate gets
`bed_idx = MAX_PLATES_COUNT`, which `postprocess_bed_index_for_unselected`
keeps. The list holds at most `MAX_PLATES_COUNT` plates and fewer than `2^31`,
and `m_plate_cols` is a positive `int`. -/
theorem bed_index_round_trip_for_unselected (grid : ArrangeGrid) (l : PartPlateList)
    (obj_index instance_index : Int) (arrange_polygon : ArrangePolygon) :
    (∀ (i : Nat) (plate : PartPlate), l.m_plate_list[i]? = some plate →
      plate.contain_instance obj_index instance_index = true → plate.is_locked = false →
      (∀ q ∈ l.m_plate_list.take i, q.contain_instance obj_index instance_index = false) →
      0 < grid.m_plate_cols → grid.m_plate_cols < 2 ^ 31 →
      l.m_plate_list.length < 2 ^ 31 → l.m_plate_list.length ≤ grid.max_plates_count →
      ∃ ap, preprocess_arrange_polygon grid l obj_index instance_index arrange_polygon false =
          some (false, ap) ∧
        ap.bed_idx = (i : Int) - ((l.m_plate_list.take i).countP PartPlate.is_locked : Int) ∧
        ap.row = (i : Int) / grid.m_plate_cols ∧ ap.col = (i : Int) % grid.m_plate_cols ∧
        (postprocess_bed_index_for_unselected grid l ap).bed_idx = (i : Int)) ∧
    ((∀ q ∈ l.m_plate_list, q.contain_instance obj_index instance_index = false) →
      preprocess_arrange_polygon grid l obj_index instance_index arrange_polygon false =
        some (false, { arrange_polygon with bed_idx := (grid.max_plates_count : Int) }) ∧
      postprocess_bed_index_for_unselected grid l
          { arrange_polygon with bed_idx := (grid.max_plates_count : Int) } =
        { arrange_polygon with bed_idx := (grid.max_plates_count : Int) }) := by
  constructor
  · intro i plate hi hc hl hbefore hcols0 hcols1 hlen hmax
    obtain ⟨hsplit, htake⟩ := split_at_index l.m_plate_list i plate hi
    have hu : Unlocked plate = true := by simp [Unlocked, hl]
    have hpre := preprocess_scan_spec grid obj_index instance_index arrange_polygon
      (l.m_plate_list.take i) plate (l.m_plate_list.drop (i + 1)) 0 0 hbefore hc hu
    rw [← hsplit, htake] at hpre
    have hcols : to_unsigned grid.m_plate_cols = grid.m_plate_cols :=
      to_unsigned_of_range _ (by omega) (by omega)
    have hcne : grid.m_plate_cols ≠ 0 := by omega
    have hsum := countP_locked_add_unlocked (l.m_plate_list.take i)
    rw [htake] at hsum
    have hilt : i < l.m_plate_list.length := by
      rcases Nat.lt_or_ge i l.m_plate_list.length with h | h
      · exact h
      · rw [List.getElem?_eq_none h] at hi; cases hi
    simp only [preprocess_arrange_polygon, hpre, place_on_grid, hcols, hcne, if_false,
      Option.map_some', zero_add, Nat.cast_inj]
    refine ⟨_, rfl, by simp, rfl, rfl, ?_⟩
    have hb : ((i : Int) - (0 + ((l.m_plate_list.take i).countP PartPlate.is_locked : Int))) =
        ((0 : Nat) : Int) + ((l.m_plate_list.take i).countP Unlocked : Int) := by
      have : ((l.m_plate_list.take i).countP PartPlate.is_locked : Int) +
          ((l.m_plate_list.take i).countP Unlocked : Int) = (i : Int) := by exact_mod_cast hsum
      push_cast; omega
    have hscan := bed_index_scan_spec (l.m_plate_list.take i) plate (l.m_plate_list.drop (i + 1))
      0 _ hu hb (by
        rw [htake]
        have : (2 : Nat) ^ 31 < 2 ^ 32 := by norm_num
        omega)
    rw [← hsplit, htake] at hscan
    have hnemax : ((i : Int) - (0 + ((l.m_plate_list.take i).countP PartPlate.is_locked : Int)))
        ≠ (grid.max_plates_count : Int) := by
      have h1 : (i : Int) < (grid.max_plates_count : Int) := by exact_mod_cast (by omega : i < grid.max_plates_count)
      omega
    simp only [zero_add] at hscan hnemax
    simp only [postprocess_bed_index_for_unselected, hnemax, if_false, hscan]
  · intro hnone
    refine ⟨preprocess_scan_untracked grid obj_index instance_index arrange_polygon _ 0 0 hnone, ?_⟩
    simp [postprocess_bed_index_for_unselected]

/-- Instance of C26: the instance `(0, 0)` sits on the third plate of four, behind
one locked plate; `preprocess_arrange_polygon` gives it bed index 1, row 1 and
column 0 of the two-column grid, `postprocess_bed_index_for_unselected` restores
plate position 2; the untracked instance `(5, 0)` keeps bed index 36. -/
theorem bed_index_round_trip_for_unselected_witness :
    (∃ ap, preprocess_arrange_polygon sampleGrid plateListWithLockedPlate 0 0 samplePolygon false =
          some (false, ap) ∧
        ap.bed_idx = ((2 : Nat) : Int) -
          ((plateListWithLockedPlate.m_plate_list.take 2).countP PartPlate.is_locked : Int) ∧
        ap.row = ((2 : Nat) : Int) / sampleGrid.m_plate_cols ∧
        ap.col = ((2 : Nat) : Int) % sampleGrid.m_plate_cols ∧
        (postprocess_bed_index_for_unselected sampleGrid plateListWithLockedPlate ap).bed_idx =
          ((2 : Nat) : Int)) ∧
      preprocess_arrange_polygon sampleGrid plateListWithLockedPlate 5 0 samplePolygon false =
        some (false, { samplePolygon with bed_idx := 36 }) :=
  ⟨(bed_index_round_trip_for_unselected sampleGrid plateListWithLockedPlate 0 0 samplePolygon).1
      2 { samplePlate with obj_to_instance_set := {(0, 0)}, m_plate_index := 2 } rfl
      (by decide) (by decide) (by decide) (by decide) (by decide) (by decide) (by decide),
    ((bed_index_round_trip_for_unselected sampleGrid plateListWithLockedPlate 5 0
      samplePolygon).2 (by decide)).1⟩

end PartPlateList

/-! ## Plate indices under creation, deletion and moves -/

theorem perm_cons_eraseIdx {α : Type} (l : List α) (i : Nat) (a : α) (h : l[i]? = some a) :
    l.Perm (a :: l.eraseIdx i) := by
  induction l generalizing i with
  | nil => simp at h
  | cons x xs ih =>
    cases i with
    | zero =>
      simp only [List.getElem?_cons_zero, Option.some.injEq] at h
      subst h
      simp
    | succ j =>
      simp only [List.getElem?_cons_succ] at h
      simp only [List.eraseIdx_cons_succ]
      exact ((ih j h).cons x).trans (List.Perm.swap a x _)

namespace PlateListState

theorem move_loop_up (count i : Nat) (plates : List PlateEntry)
    (h : i + count < plates.length) :
    ∃ r, move_loop 1 count i plates = some r ∧ r.length = plates.length ∧
      ∀ n, n ≠ i + count → r[n]? =
        if i ≤ n ∧ n < i + count then
          plates[n + 1]?.map (fun e => { e with m_plate_index := (n : Int) })
        else plates[n]? := by
  induction count generalizing i plates with
  | zero =>
    refine ⟨plates, rfl, rfl, fun n hn => ?_⟩
    rw [if_neg (by omega)]
  | succ count ih =>
    have hj : ((i : Int) + 1).toNat = i + 1 := by omega
    obtain ⟨next, hnext⟩ : ∃ next, plates[i + 1]? = some next :=
      ⟨_, List.getElem?_eq_getElem (show i + 1 < plates.length by omega)⟩
    obtain ⟨r, hr, hlen, hget⟩ := ih (i + 1)
      ((plates.set i { next with m_plate_index := (i : Int) }).set (i + 1)
        { next with m_plate_index := (i : Int) })
      (by simp only [List.length_set]; omega)
    refine ⟨r, ?_, by simpa using hlen, fun n hn => ?_⟩
    · rw [move_loop]
      simp only [hj, hnext]
      rw [if_pos ⟨by omega, by omega⟩]
      exact hr
    · rw [hget n (by omega)]
      simp only [List.getElem?_set, List.length_set]
      by_cases h1 : n = i
      · subst h1
        have hlt : n < plates.length := by omega
        simp [hnext, hlt]
      · by_cases h2 : i + 1 ≤ n ∧ n < i + 1 + count
        · have e1 : ¬ i + 1 = n + 1 := by omega
          have e2 : ¬ i = n + 1 := by omega
          have e3 : i ≤ n ∧ n < i + (count + 1) := by omega
          simp only [h2, e1, e2, e3, and_self, if_true, if_false]
        · have e1 : ¬ i + 1 = n := by omega
          have e2 : ¬ i = n := by omega
          have e3 : ¬ (i ≤ n ∧ n < i + (count + 1)) := by omega
          simp only [h2, e1, e2, e3, if_false]

theorem move_loop_down (count i : Nat) (plates : List PlateEntry)
    (hc : count ≤ i) (h : i < plates.length) :
    ∃ r, move_loop (-1) count i plates = some r ∧ r.length = plates.length ∧
      ∀ n, n ≠ i - count → r[n]? =
        if i - count < n ∧ n ≤ i then
          plates[n - 1]?.map (fun e => { e with m_plate_index := (n : Int) })
        else plates[n]? := by
  induction count generalizing i plates with
  | zero =>
    refine ⟨plates, rfl, rfl, fun n hn => ?_⟩
    rw [if_neg (by omega)]
  | succ count ih =>
    obtain ⟨k, rfl⟩ : ∃ k, i = k + 1 := ⟨i - 1, by omega⟩
    have hj : (((k + 1 : Nat) : Int) + -1).toNat = k := by omega
    obtain ⟨next, hnext⟩ : ∃ next, plates[k]? = some next :=
      ⟨_, List.getElem?_eq_getElem (show k < plates.length by omega)⟩
    obtain ⟨r, hr, hlen, hget⟩ := ih k
      ((plates.set (k + 1) { next with m_plate_index := ((k + 1 : Nat) : Int) }).set k
        { next with m_plate_index := ((k + 1 : Nat) : Int) })
      (by omega) (by simp only [List.length_set]; omega)
    refine ⟨r, ?_, by simpa using hlen, fun n hn => ?_⟩
    · rw [move_loop]
      simp only [hj, hnext]
      rw [if_pos ⟨by omega, by omega⟩]
      exact hr
    · rw [hget n (by omega)]
      simp only [List.getElem?_set, List.length_set]
      by_cases h1 : n = k + 1
      · subst h1
        have hlt : k - count < k + 1 := by omega
        simp [hnext, h, hlt]
      · by_cases h2 : k - count < n ∧ n ≤ k
        · have e1 : ¬ k = n - 1 := by omega
          have e2 : ¬ k + 1 = n - 1 := by omega
          have e3 : k + 1 - (count + 1) < n ∧ n ≤ k + 1 := by omega
          simp only [h2, e1, e2, e3, and_self, if_true, if_false]
        · have e1 : ¬ k = n := by omega
          have e2 : ¬ k + 1 = n := by omega
          have e3 : ¬ (k + 1 - (count + 1) < n ∧ n ≤ k + 1) := by omega
          simp only [h2, e1, e2, e3, if_false]

theorem move_plate_to_index_spec (s : PlateListState) (old_index new_index : Nat)
    (hne : old_index ≠ new_index) (ho : old_index < s.m_plate_list.length)
    (hn : new_index < s.m_plate_list.length) :
    ∃ plates, move_plate_to_index s old_index new_index =
        some (0, { s with m_plate_list := plates }) ∧
      plates.length = s.m_plate_list.length ∧
      ∀ n, plates[n]? = (s.m_plate_list[moved_from old_index new_index n]?).map
        (fun e => if moved_from old_index new_index n = n then e
          else { e with m_plate_index := (n : Int) }) := by
  obtain ⟨plate, hplate⟩ : ∃ plate, s.m_plate_list[old_index]? = some plate :=
    ⟨_, List.getElem?_eq_getElem ho⟩
  have hcast : ¬ ((old_index : Int) = (new_index : Int)) := by omega
  have hrange : 0 ≤ (old_index : Int) ∧ 0 ≤ (new_index : Int) ∧
      (new_index : Int) < (s.m_plate_list.length : Int) := by omega
  unfold move_plate_to_index
  rw [if_neg hcast, if_pos hrange]
  simp only [Int.toNat_ofNat, hplate]
  by_cases hlt : old_index < new_index
  · have hcnt : ((new_index : Int) - (old_index : Int)).natAbs = new_index - old_index := by
      omega
    obtain ⟨r, hr, hlen, hget⟩ := move_loop_up (new_index - old_index) old_index s.m_plate_list
      (by omega)
    rw [if_pos (by omega), hcnt, hr]
    refine ⟨_, rfl, by simp [hlen], fun n => ?_⟩
    simp only [List.getElem?_set]
    by_cases h1 : n = new_index
    · have hm : moved_from old_index new_index n = old_index := by
        unfold moved_from; rw [if_pos h1]
      subst h1
      rw [hm, hplate]
      simp [hlen, hn, hne]
    · have e1 : ¬ new_index = n := fun e => h1 e.symm
      rw [if_neg e1, hget n (by omega)]
      by_cases h2 : old_index ≤ n ∧ n < new_index
      · have hm : moved_from old_index new_index n = n + 1 := by
          unfold moved_from; rw [if_neg h1, if_pos h2]
        have e2 : old_index ≤ n ∧ n < old_index + (new_index - old_index) := by omega
        rw [hm, if_pos e2]
        simp
      · have hm : moved_from old_index new_index n = n := by
          unfold moved_from; rw [if_neg h1, if_neg h2, if_neg (by omega)]
        have e2 : ¬ (old_index ≤ n ∧ n < old_index + (new_index - old_index)) := by omega
        rw [hm, if_neg e2]
        simp
  · have hcnt : ((new_index : Int) - (old_index : Int)).natAbs = old_index - new_index := by
      omega
    obtain ⟨r, hr, hlen, hget⟩ := move_loop_down (old_index - new_index) old_index
      s.m_plate_list (by omega) ho
    rw [if_neg (by omega), hcnt, hr]
    refine ⟨_, rfl, by simp [hlen], fun n => ?_⟩
    simp only [List.getElem?_set]
    by_cases h1 : n = new_index
    · have hm : moved_from old_index new_index n = old_index := by
        unfold moved_from; rw [if_pos h1]
      subst h1
      rw [hm, hplate]
      simp [hlen, hn, hne]
    · have e1 : ¬ new_index = n := fun e => h1 e.symm
      rw [if_neg e1, hget n (by omega)]
      have e0 : ¬ (old_index ≤ n ∧ n < new_index) := by omega
      by_cases h2 : new_index < n ∧ n ≤ old_index
      · have hm : moved_from old_index new_index n = n - 1 := by
          unfold moved_from; rw [if_neg h1, if_neg e0, if_pos h2]
        have e2 : old_index - (old_index - new_index) < n ∧ n ≤ old_index := by omega
        have e3 : ¬ n - 1 = n := by omega
        rw [hm, if_pos e2]
        simp [e3]
      · have hm : moved_from old_index new_index n = n := by
          unfold moved_from; rw [if_neg h1, if_neg e0, if_neg h2]
        have e2 : ¬ (old_index - (old_index - new_index) < n ∧ n ≤ old_index) := by omega
        rw [hm, if_neg e2]
        simp

theorem move_plate_to_index_some (s : PlateListState) (old_index new_index : Int)
    (r : Int × PlateListState) (h : move_plate_to_index s old_index new_index = some r) :
    r = (-1, s) ∨ ∃ o n : Nat, (o : Int) = old_index ∧ (n : Int) = new_index ∧ o ≠ n ∧
      o < s.m_plate_list.length ∧ n < s.m_plate_list.length := by
  unfold move_plate_to_index at h
  by_cases h1 : old_index = new_index
  · rw [if_pos h1] at h
    exact Or.inl (Option.some.inj h).symm
  · rw [if_neg h1] at h
    by_cases h2 : 0 ≤ old_index ∧ 0 ≤ new_index ∧ new_index < s.m_plate_list.length
    · rw [if_pos h2] at h
      refine Or.inr ⟨old_index.toNat, new_index.toNat, by omega, by omega, by omega, ?_, by omega⟩
      by_contra hlt
      rw [List.getElem?_eq_none (by omega)] at h
      simp at h
    · rw [if_neg h2] at h
      simp at h

theorem getElem?_reindex_from (index : Nat) (ps : List PlateEntry) (k n : Nat) :
    (reindex_from index ps k)[n]? = (ps[n]?).map
      (fun p => if index ≤ k + n then { p with m_plate_index := ((k + n : Nat) : Int) } else p) := by
  induction ps generalizing k n with
  | nil => simp [reindex_from]
  | cons p ps ih =>
    cases n with
    | zero => simp [reindex_from]
    | succ n =>
      simp only [reindex_from, List.getElem?_cons_succ, ih]
      have : k + 1 + n = k + (n + 1) := by omega
      rw [this]

theorem length_reindex_from (index : Nat) (ps : List PlateEntry) (k : Nat) :
    (reindex_from index ps k).length = ps.length := by
  have := congrArg List.length (reindex_from_ptr index ps k)
  simpa using this

theorem destroy_print_indices (s : PlateListState) (print_index : Int) :
    (destroy_print s print_index).2.unprintable_plate_index = s.unprintable_plate_index ∧
      (destroy_print s print_index).2.m_plate_count = s.m_plate_count := by
  unfold destroy_print
  split_ifs <;> exact ⟨rfl, rfl⟩

/-- After the constructor every plate carries its position, and the unprintable
plate carries the number of plates, which is also `m_plate_count`. -/
theorem indices_after_construct (is_fff : Bool) (max_plates_count : Nat) :
    IndexAligned (construct is_fff max_plates_count).m_plate_list ∧
      (construct is_fff max_plates_count).unprintable_plate_index =
        ((construct is_fff max_plates_count).m_plate_list.length : Int) ∧
      (construct is_fff max_plates_count).m_plate_count =
        ((construct is_fff max_plates_count).m_plate_list.length : Int) := by
  have hl : (construct is_fff max_plates_count).m_plate_list =
      [{ (attach_print { blank is_fff max_plates_count with heap_next := 1, m_print_index := 0 }
          (new_plate 0)).2 with m_plate_index := 0 }] := by
    cases is_fff <;> rfl
  refine ⟨?_, ?_, ?_⟩
  · intro i plate hi
    rw [hl] at hi
    cases i with
    | zero =>
      simp only [List.getElem?_cons_zero, Option.some.injEq] at hi
      rw [← hi]; rfl
    | succ i => simp at hi
  · cases is_fff <;> rfl
  · cases is_fff <;> rfl

theorem indices_after_create_plate (s : PlateListState) (adjust_position : Bool)
    (h : IndexAligned s.m_plate_list ∧
      s.unprintable_plate_index = (s.m_plate_list.length : Int) ∧
      s.m_plate_count = (s.m_plate_list.length : Int)) :
    IndexAligned (create_plate s adjust_position).2.m_plate_list ∧
      (create_plate s adjust_position).2.unprintable_plate_index =
        ((create_plate s adjust_position).2.m_plate_list.length : Int) ∧
      (create_plate s adjust_position).2.m_plate_count =
        ((create_plate s adjust_position).2.m_plate_list.length : Int) := by
  unfold create_plate
  by_cases hmax : s.m_plate_list.length ≥ s.max_plates_count
  · simp only [hmax, if_true]
    exact h
  · simp only [hmax, if_false]
    have hfields : ∀ (t : PlateListState) (p : PlateEntry),
        (attach_print t p).1.m_plate_list = t.m_plate_list := by
      intro t p; unfold attach_print; split_ifs <;> rfl
    refine ⟨?_, by simp, by simp⟩
    intro i plate hi
    by_cases hlt : i < s.m_plate_list.length
    · rw [List.getElem?_append_left hlt] at hi
      exact h.1 i plate hi
    · rw [List.getElem?_append_right (by omega)] at hi
      have hz : i - s.m_plate_list.length = 0 := by
        by_contra hne
        obtain ⟨k, hk⟩ : ∃ k, i - s.m_plate_list.length = k + 1 :=
          ⟨i - s.m_plate_list.length - 1, by omega⟩
        rw [hk] at hi
        simp at hi
      rw [hz] at hi
      simp only [List.getElem?_cons_zero, Option.some.injEq] at hi
      rw [← hi]
      show ((s.m_plate_list.length : Nat) : Int) = (i : Int)
      congr 1
      omega

theorem indices_after_delete_plate (s : PlateListState) (index : Int)
    (h : IndexAligned s.m_plate_list ∧
      s.unprintable_plate_index = (s.m_plate_list.length : Int) ∧
      s.m_plate_count = (s.m_plate_list.length : Int)) :
    IndexAligned (delete_plate s index).2.m_plate_list ∧
      (delete_plate s index).2.unprintable_plate_index =
        ((delete_plate s index).2.m_plate_list.length : Int) ∧
      (delete_plate s index).2.m_plate_count =
        ((delete_plate s index).2.m_plate_list.length : Int) := by
  unfold delete_plate
  split_ifs with h1 h2
  · exact h
  · exact h
  · split
    · exact h
    · rename_i plate hplate
      split_ifs with h3
      · exact h
      · simp only [destroy_print_plates, destroy_print_indices]
        refine ⟨?_, trivial, trivial⟩
        intro i p hi
        rw [getElem?_reindex_from, List.getElem?_eraseIdx] at hi
        by_cases hlt : i < index.toNat
        · rw [if_pos hlt] at hi
          obtain ⟨p0, hp0, rfl⟩ := Option.map_eq_some'.1 hi
          rw [if_neg (by omega)]
          exact h.1 i p0 hp0
        · rw [if_neg hlt] at hi
          obtain ⟨p0, hp0, rfl⟩ := Option.map_eq_some'.1 hi
          rw [if_pos (by omega)]
          simp

theorem indices_after_move (s : PlateListState) (old_index new_index : Int)
    (r : Int × PlateListState) (hr : move_plate_to_index s old_index new_index = some r)
    (h : IndexAligned s.m_plate_list ∧
      s.unprintable_plate_index = (s.m_plate_list.length : Int) ∧
      s.m_plate_count = (s.m_plate_list.length : Int)) :
    IndexAligned r.2.m_plate_list ∧
      r.2.unprintable_plate_index = (r.2.m_plate_list.length : Int) ∧
      r.2.m_plate_count = (r.2.m_plate_list.length : Int) := by
  rcases move_plate_to_index_some s old_index new_index r hr with rfl | ⟨o, n, rfl, rfl, hne, ho, hn⟩
  · exact h
  · obtain ⟨plates, hmove, hlen, hget⟩ := move_plate_to_index_spec s o n hne ho hn
    rw [hmove] at hr
    have hr2 : r = (0, { s with m_plate_list := plates }) := (Option.some.inj hr).symm
    subst hr2
    refine ⟨?_, by simp only [hlen]; exact h.2.1, by simp only [hlen]; exact h.2.2⟩
    intro i p hi
    simp only at hi
    rw [hget i] at hi
    obtain ⟨p0, hp0, rfl⟩ := Option.map_eq_some'.1 hi
    by_cases hm : moved_from o n i = i
    · rw [if_pos hm]
      rw [hm] at hp0
      exact h.1 i p0 hp0
    · rw [if_neg hm]

theorem moved_ptrs (before after : List Nat) (old_index new_index : Nat)
    (ho : old_index < before.length)
    (hget : ∀ n, after[n]? = before[moved_from old_index new_index n]?) :
    after.Perm before ∧ after[new_index]? = before[old_index]? ∧
      after.eraseIdx new_index = before.eraseIdx old_index := by
  have hnew : after[new_index]? = before[old_index]? := by
    rw [hget new_index]; unfold moved_from; rw [if_pos rfl]
  have herase : after.eraseIdx new_index = before.eraseIdx old_index := by
    apply List.ext_getElem?
    intro n
    rw [List.getElem?_eraseIdx, List.getElem?_eraseIdx, hget n, hget (n + 1)]
    unfold moved_from
    split_ifs <;> first | rfl | omega
  refine ⟨?_, hnew, herase⟩
  have hb := List.getElem?_eq_getElem ho
  have ha : after[new_index]? = some before[old_index] := by rw [hnew, hb]
  exact ((perm_cons_eraseIdx after new_index _ ha).trans
    (by rw [herase])).trans (perm_cons_eraseIdx before old_index _ hb).symm

/-- C24: in every list state reachable from the constructor's `init()` by
`create_plate`, `delete_plate` and `move_plate_to_index`, the plate at position
`i` of `m_plate_list` has `m_plate_index = i`, the index of the unprintable
plate is the number of plates, and `move_plate_to_index(old, new)` with distinct
positions of the list returns 0 and yields a permutation of the old list of
plates with the moved plate at position `new`, the remaining plates being in
the same order as before (removing the moved plate from both lists gives the
same list). -/
theorem plate_indices_follow_positions (s : PlateListState) (h : ReachableByPlateMoves s) :
    IndexAligned s.m_plate_list ∧
      s.unprintable_plate_index = (s.m_plate_list.length : Int) ∧
      (∀ old_index new_index : Nat, old_index ≠ new_index →
        old_index < s.m_plate_list.length → new_index < s.m_plate_list.length →
        ∃ s', move_plate_to_index s old_index new_index = some (0, s') ∧
          IndexAligned s'.m_plate_list ∧
          (s'.m_plate_list.map PlateEntry.ptr).Perm (s.m_plate_list.map PlateEntry.ptr) ∧
          (s'.m_plate_list.map PlateEntry.ptr)[new_index]? =
            (s.m_plate_list.map PlateEntry.ptr)[old_index]? ∧
          (s'.m_plate_list.map PlateEntry.ptr).eraseIdx new_index =
            (s.m_plate_list.map PlateEntry.ptr).eraseIdx old_index) := by
  have hinv : IndexAligned s.m_plate_list ∧
      s.unprintable_plate_index = (s.m_plate_list.length : Int) ∧
      s.m_plate_count = (s.m_plate_list.length : Int) := by
    induction h with
    | construct is_fff max_plates_count => exact indices_after_construct is_fff max_plates_count
    | create_plate s adj _ ih => exact indices_after_create_plate s adj ih
    | delete_plate s index _ ih => exact indices_after_delete_plate s index ih
    | move_plate_to_index s o n r _ hr ih => exact indices_after_move s o n r hr ih
  refine ⟨hinv.1, hinv.2.1, ?_⟩
  intro old_index new_index hne ho hn
  obtain ⟨plates, hmove, hlen, hget⟩ := move_plate_to_index_spec s old_index new_index hne ho hn
  refine ⟨_, hmove, (indices_after_move s old_index new_index _ hmove hinv).1, ?_⟩
  apply moved_ptrs _ _ old_index new_index (by simpa using ho)
  intro n
  simp only [List.getElem?_map, hget n, Option.map_map]
  congr 1
  funext e
  simp only [Function.comp]
  split_ifs <;> rfl

/-- Instance of C24: in the list of three plates made by the constructor and two
`create_plate` calls, moving plate 0 to position 2 puts it behind the other two,
which keep their order. -/
theorem plate_indices_follow_positions_witness :
    threePlates.m_plate_list.map PlateEntry.ptr = [0, 3, 6] ∧
      threePlates.unprintable_plate_index = 3 ∧
      (move_plate_to_index threePlates 0 2).map
          (fun r => (r.1, r.2.m_plate_list.map PlateEntry.ptr,
            r.2.m_plate_list.map PlateEntry.m_plate_index)) =
        some (0, [3, 6, 0], [0, 1, 2]) ∧
      ∃ s', move_plate_to_index threePlates ((0 : Nat) : Int) ((2 : Nat) : Int) = some (0, s') ∧
        IndexAligned s'.m_plate_list ∧
        (s'.m_plate_list.map PlateEntry.ptr).Perm (threePlates.m_plate_list.map PlateEntry.ptr) ∧
        (s'.m_plate_list.map PlateEntry.ptr)[2]? =
          (threePlates.m_plate_list.map PlateEntry.ptr)[0]? ∧
        (s'.m_plate_list.map PlateEntry.ptr).eraseIdx 2 =
          (threePlates.m_plate_list.map PlateEntry.ptr).eraseIdx 0 :=
  ⟨by decide, by decide, by decide,
    (plate_indices_follow_positions threePlates
      (ReachableByPlateMoves.create_plate _ true
        (ReachableByPlateMoves.create_plate _ true
          (ReachableByPlateMoves.construct true 36)))).2.2 0 2 (by decide) (by decide)
      (by decide)⟩

end PlateListState

end Slic3r
